import Mathlib

/-!
# Workflow task engine of zadig: retry, instantiation and lint

A shallow embedding of
`pkg/microservice/aslan/core/workflow/service/workflow/workflow_task_v4.go`.

Go pointers to records are embedded as values; a function that mutates its
argument in place returns the mutated value.  Collaborators that live in other
packages (the job controller, the persistence layer, the task controller) are
fields of an environment record, and every call to one of them that matters
for the properties below is recorded in a list of calls.
-/

set_option autoImplicit false

namespace Zadig

/-! ## Data model

The records of the package `commonmodels` are declared outside the sources at
hand; each record below carries the fields that the embedded functions read
or write, under the names the functions use. -/

/-- Modelled from the spec: the shared status enumeration `config.Status`, a Go
string type whose constants are declared in the `config` package. -/
abbrev Status := String

def StatusCreated : Status := "created"
def StatusPassed : Status := "passed"
def StatusFailed : Status := "failed"
def StatusTimeout : Status := "timeout"
def StatusCancelled : Status := "cancelled"
def StatusReject : Status := "reject"

/-- Modelled from the spec: the job type tags `config.JobType` that the
instantiator tells apart, declared in the `config` package. -/
def JobZadigBuild : String := "zadig-build"
def JobFreestyle : String := "freestyle"
def JobZadigTesting : String := "zadig-testing"
def JobZadigScanning : String := "zadig-scanning"

/-- Modelled from the spec: the record `commonmodels.Approval`, the gate of a
stage (type, timeout, required-approver count, current status, decision
times).  The field `Type` is written `ApprovalType`. -/
structure Approval where
  Enabled : Bool
  ApprovalType : String
  Description : String
  Status : Status
  Timeout : Int
  NeededApprovers : Int
  StartTime : Int
  EndTime : Int
deriving DecidableEq, Repr

/-- The record `commonmodels.JobTask`; the type-specific payload `Spec`, the
display fields `JobInfo` and the `Outputs` are uninterpreted values, for which
the empty string and the empty list stand for nil; `K8sJobName` is the handle
of the execution unit. -/
structure JobTask where
  Name : String
  Key : String
  JobType : String
  Status : Status
  StartTime : Int
  EndTime : Int
  Error : String
  BreakpointBefore : Bool
  BreakpointAfter : Bool
  Spec : String
  K8sJobName : String := ""
  JobInfo : String := ""
  Outputs : List String := []
deriving DecidableEq, Repr

/-- The record `commonmodels.StageTask`. -/
structure StageTask where
  Name : String
  Parallel : Bool
  Status : Status
  StartTime : Int
  EndTime : Int
  Error : String
  Approval : Option Approval
  Jobs : List JobTask
deriving DecidableEq, Repr

/-- The record `commonmodels.Job`: a job definition of a workflow. -/
structure Job where
  Name : String
  JobType : String
  Skipped : Bool
  Spec : String
deriving DecidableEq, Repr

/-- The record `commonmodels.WorkflowStage`. -/
structure WorkflowStage where
  Name : String
  Parallel : Bool
  Approval : Option Approval
  Jobs : List Job
deriving DecidableEq, Repr

/-- The record `commonmodels.WorkflowV4`.  `Stages` is `none` for a nil slice,
which `RetryWorkflowTaskV4` tells apart from an empty one. -/
structure WorkflowV4 where
  Name : String
  DisplayName : String
  Project : String
  Debug : Bool
  Params : List String
  KeyVals : List String
  ShareStorages : List String
  Stages : Option (List WorkflowStage)
  HookCtls : List String
  MeegoHookCtls : List String
  JiraHookCtls : List String
  GeneralHookCtls : List String
deriving DecidableEq, Repr

/-- What `range w.Stages` iterates over: nothing for a nil slice. -/
def WorkflowV4.stageList (w : WorkflowV4) : List WorkflowStage :=
  w.Stages.getD []

/-- The record `commonmodels.WorkflowTask`. -/
structure WorkflowTask where
  TaskID : Int
  WorkflowName : String
  WorkflowDisplayName : String
  ProjectName : String
  Status : Status
  TaskCreator : String
  TaskRevoker : String
  TaskCreatorEmail : String
  TaskCreatorPhone : String
  CreateTime : Int
  StartTime : Int
  EndTime : Int
  Error : String
  IsDebug : Bool
  WorkflowHash : String
  Params : List String
  KeyVals : List String
  ShareStorages : List String
  Stages : List StageTask
  OriginWorkflowArgs : Option WorkflowV4
  WorkflowArgs : Option WorkflowV4
deriving DecidableEq, Repr

/-- How a call ended: a nil error, a returned error, or a run-time panic (nil
dereference, index out of range). -/
inductive Outcome where
  | ok
  | error (msg : String)
  | panic
deriving DecidableEq, Repr

/-- Calls to collaborators, in the order they are made. -/
inductive Call where
  | FindTask (workflowName : String) (taskID : Int)
  | GetNextSeq (counter : String)
  | SendWorkflowTaskNotifications (task : WorkflowTask)
  | CreateTask (task : WorkflowTask)
  | UpdateTask (task : WorkflowTask)
deriving DecidableEq, Repr

/-- The helpers `AddErr` and `AddDesc` of `tool/errors`: an error code with a
description. -/
def AddDesc (code desc : String) : String := code ++ ": " ++ desc

/-! ## workflowTaskLint -/

/-- The stage loop of `workflowTaskLint`. -/
def lintStages (workflowName : String) (taskID : Int) : List StageTask → Option String
  | [] => none
  | stage :: rest =>
    if stage.Jobs.length ≤ 0 then
      some (AddDesc "ErrCreateTask"
        ("no job found in workflow task: " ++ workflowName ++ ",taskID: " ++ toString taskID
          ++ ",stage: " ++ stage.Name))
    else lintStages workflowName taskID rest

/-- The function `workflowTaskLint`: `none` is the nil error. -/
def workflowTaskLint (workflowTask : WorkflowTask) : Option String :=
  if workflowTask.Stages.length ≤ 0 then
    some (AddDesc "ErrCreateTask"
      ("no stage found in workflow task: " ++ workflowTask.WorkflowName ++ ",taskID: "
        ++ toString workflowTask.TaskID))
  else lintStages workflowTask.WorkflowName workflowTask.TaskID workflowTask.Stages

/-! ## RetryWorkflowTaskV4 -/

/-- A job controller as returned by `jobctl.InitJobCtl`: its `ToJobs` method. -/
structure JobCtl where
  ToJobs : Int → Except String (List JobTask)

/-- Collaborators of `RetryWorkflowTaskV4`. -/
structure RetryEnv where
  FindTask : String → Int → Except String WorkflowTask
  InitJobCtl : Job → WorkflowV4 → Except String JobCtl
  SendWorkflowTaskNotifications : WorkflowTask → Option String
  UpdateTask : WorkflowTask → Option String
  Now : Int

/-- The Go map `map[string]*JobTask`, newest binding first. -/
abbrev JobTaskMap := List (String × JobTask)

/-- Assignment `m[k] = v`. -/
def JobTaskMap.set (m : JobTaskMap) (k : String) (v : JobTask) : JobTaskMap :=
  (k, v) :: m

/-- Lookup `m[k]` with the comma-ok form. -/
def JobTaskMap.get (m : JobTaskMap) (k : String) : Option JobTask :=
  (m.find? (fun p => p.1 == k)).map (fun p => p.2)

/-- The innermost loop `for _, jobTask := range jobTasks` filling the map. -/
def insertJobTasks (m : JobTaskMap) : List JobTask → JobTaskMap
  | [] => m
  | jobTask :: rest => insertJobTasks (m.set jobTask.Key jobTask) rest

/-- The loop `for _, job := range stage.Jobs` of the expansion phase. -/
def expandJobsInto (env : RetryEnv) (args : WorkflowV4) (taskID : Int) :
    List Job → JobTaskMap → Except String JobTaskMap
  | [], m => .ok m
  | job :: rest, m =>
    match env.InitJobCtl job args with
    | .error err => .error ("init jobCtl " ++ job.Name ++ " error: " ++ err)
    | .ok jobCtl =>
      match jobCtl.ToJobs taskID with
      | .error err => .error ("job " ++ job.Name ++ " toJobs error: " ++ err)
      | .ok jobTasks => expandJobsInto env args taskID rest (insertJobTasks m jobTasks)

/-- The loop `for _, stage := range task.WorkflowArgs.Stages`. -/
def expandStagesInto (env : RetryEnv) (args : WorkflowV4) (taskID : Int) :
    List WorkflowStage → JobTaskMap → Except String JobTaskMap
  | [], m => .ok m
  | stage :: rest, m =>
    match expandJobsInto env args taskID stage.Jobs m with
    | .error err => .error err
    | .ok m1 => expandStagesInto env args taskID rest m1

/-- The loop `for _, jobTask := range stage.Jobs` of the patch phase.  On the
early return the current job has already lost its status, times and error and
the jobs after it are as they were. -/
def retryJobs (jobTaskMap : JobTaskMap) : List JobTask → List JobTask × Option String
  | [] => ([], none)
  | jobTask :: rest =>
    if jobTask.Status = StatusPassed then
      ((jobTask :: (retryJobs jobTaskMap rest).1), (retryJobs jobTaskMap rest).2)
    else
      match jobTaskMap.get jobTask.Key with
      | some t =>
        (({ jobTask with Status := "", StartTime := 0, EndTime := 0, Error := "", Spec := t.Spec }
            :: (retryJobs jobTaskMap rest).1),
          (retryJobs jobTaskMap rest).2)
      | none =>
        (({ jobTask with Status := "", StartTime := 0, EndTime := 0, Error := "" } :: rest),
          some ("failed to get jobTask " ++ jobTask.Name ++ " origin spec"))

/-- The condition under which the patch phase replaces the approval of a stage. -/
def approvalNeedsReset : Option Approval → Bool
  | none => false
  | some a => a.Enabled && a.Status != StatusPassed && a.Status != ""

/-- The loop `for i, stage := range task.Stages`; `i` is the index of the head
of the list in `task.Stages`, `originStages` is
`task.OriginWorkflowArgs.Stages`. -/
def retryStages (originStages : List WorkflowStage) (jobTaskMap : JobTaskMap) :
    Nat → List StageTask → List StageTask × Outcome
  | _, [] => ([], .ok)
  | i, stage :: rest =>
    if stage.Status = StatusPassed then
      ((stage :: (retryStages originStages jobTaskMap (i + 1) rest).1),
        (retryStages originStages jobTaskMap (i + 1) rest).2)
    else
      let stage1 := { stage with Status := "", StartTime := 0, EndTime := 0, Error := "" }
      if approvalNeedsReset stage1.Approval then
        match originStages[i]? with
        | none => (stage1 :: rest, .panic)
        | some originStage =>
          let stage2 := { stage1 with Approval := originStage.Approval }
          match (retryJobs jobTaskMap stage2.Jobs).2 with
          | some msg => ({ stage2 with Jobs := (retryJobs jobTaskMap stage2.Jobs).1 } :: rest, .error msg)
          | none =>
            (({ stage2 with Jobs := (retryJobs jobTaskMap stage2.Jobs).1 }
                :: (retryStages originStages jobTaskMap (i + 1) rest).1),
              (retryStages originStages jobTaskMap (i + 1) rest).2)
      else
        match (retryJobs jobTaskMap stage1.Jobs).2 with
        | some msg => ({ stage1 with Jobs := (retryJobs jobTaskMap stage1.Jobs).1 } :: rest, .error msg)
        | none =>
          (({ stage1 with Jobs := (retryJobs jobTaskMap stage1.Jobs).1 }
              :: (retryStages originStages jobTaskMap (i + 1) rest).1),
            (retryStages originStages jobTaskMap (i + 1) rest).2)

/-- The status switch at the head of `RetryWorkflowTaskV4`. -/
def retryableStatus (s : Status) : Bool :=
  s == StatusFailed || s == StatusTimeout || s == StatusCancelled || s == StatusReject

/-- What a run of `RetryWorkflowTaskV4` leaves behind: how it ended, the task
object it loaded as it stands at the end, and the calls it made. -/
structure RetryResult where
  outcome : Outcome
  task : Option WorkflowTask
  calls : List Call
deriving DecidableEq, Repr

/-- The assignments that follow the patch phase: the loaded task object carries
the patched stages, `task.Status = config.StatusCreated` and
`task.StartTime = time.Now().Unix()`. -/
def resumedTask (task : WorkflowTask) (stages : List StageTask) (now : Int) : WorkflowTask :=
  { task with Stages := stages, Status := StatusCreated, StartTime := now }

/-- The function `RetryWorkflowTaskV4`. -/
def RetryWorkflowTaskV4 (env : RetryEnv) (workflowName : String) (taskID : Int) : RetryResult :=
  match env.FindTask workflowName taskID with
  | .error err =>
    { outcome := .error (AddDesc "ErrGetTask" err), task := none,
      calls := [.FindTask workflowName taskID] }
  | .ok task =>
    if retryableStatus task.Status = false then
      { outcome := .error "工作流任务状态无法重试", task := some task,
        calls := [.FindTask workflowName taskID] }
    else
      match task.OriginWorkflowArgs.bind (fun o => o.Stages) with
      | none =>
        { outcome := .error "工作流任务数据异常, 无法重试", task := some task,
          calls := [.FindTask workflowName taskID] }
      | some originStages =>
        match task.WorkflowArgs with
        | none => { outcome := .panic, task := some task, calls := [.FindTask workflowName taskID] }
        | some args =>
          match expandStagesInto env args taskID args.stageList [] with
          | .error err =>
            { outcome := .error err, task := some task, calls := [.FindTask workflowName taskID] }
          | .ok jobTaskMap =>
            match (retryStages originStages jobTaskMap 0 task.Stages).2 with
            | .ok =>
              let task1 := resumedTask task (retryStages originStages jobTaskMap 0 task.Stages).1 env.Now
              match env.UpdateTask task1 with
              | some err =>
                { outcome := .error (AddDesc "ErrCreateTask" ("重试工作流任务失败: " ++ err)),
                  task := some task1,
                  calls := [.FindTask workflowName taskID, .SendWorkflowTaskNotifications task1,
                    .UpdateTask task1] }
              | none =>
                { outcome := .ok, task := some task1,
                  calls := [.FindTask workflowName taskID, .SendWorkflowTaskNotifications task1,
                    .UpdateTask task1] }
            | other =>
              { outcome := other,
                task := some { task with Stages := (retryStages originStages jobTaskMap 0 task.Stages).1 },
                calls := [.FindTask workflowName taskID] }

/-- One run of the Job Expander as the retry performs it: `jobctl.InitJobCtl`
on the job, then `ToJobs` on the controller. -/
def expandJob (env : RetryEnv) (args : WorkflowV4) (taskID : Int) (job : Job) :
    Except String (List JobTask) :=
  match env.InitJobCtl job args with
  | .error err => .error ("init jobCtl " ++ job.Name ++ " error: " ++ err)
  | .ok jobCtl =>
    match jobCtl.ToJobs taskID with
    | .error err => .error ("job " ++ job.Name ++ " toJobs error: " ++ err)
    | .ok jobTasks => .ok jobTasks

/-- The Job Expander run over a list of jobs: the job tasks of all of them in
order, or the error of the first job that fails. -/
def expandJobList (env : RetryEnv) (args : WorkflowV4) (taskID : Int) :
    List Job → Except String (List JobTask)
  | [] => .ok []
  | job :: rest =>
    match expandJob env args taskID job with
    | .error err => .error err
    | .ok jobTasks =>
      match expandJobList env args taskID rest with
      | .error err => .error err
      | .ok more => .ok (jobTasks ++ more)

/-- The Job Expander re-run over the stages and jobs of `args`, the words of
the retry contract: fresh job tasks in stage order, then job order. -/
def freshJobTasks (env : RetryEnv) (args : WorkflowV4) (taskID : Int) :
    Except String (List JobTask) :=
  expandJobList env args taskID (args.stageList.flatMap (fun stage => stage.Jobs))

/-- The fresh job task looked up by key `k`: among several with that key the
one expanded last. -/
def freshByKey (fresh : List JobTask) (k : String) : Option JobTask :=
  fresh.reverse.find? (fun t => t.Key == k)

/-! ## CreateWorkflowTaskV4 -/

/-- The record `CreateWorkflowTaskV4Args`. -/
structure CreateWorkflowTaskV4Args where
  Name : String
  UserID : String
deriving DecidableEq, Repr

/-- The record `CreateTaskV4Resp`. -/
structure CreateTaskV4Resp where
  ProjectName : String
  WorkflowName : String
  TaskID : Int
deriving DecidableEq, Repr

/-- The fields of a user record that the instantiator reads. -/
structure UserInfo where
  Email : String
  Phone : String
deriving DecidableEq, Repr

/-- A workflow stage as an object on the heap: the objects behind the
pointers of `workflow.Stages`.  `Approval` is the address of the approval
object, `Jobs` the jobs as the slice of the stage shows them. -/
structure StageCell where
  Name : String
  Parallel : Bool
  Approval : Option Nat
  Jobs : List Job
deriving DecidableEq, Repr

/-- The objects reachable from the pointer `workflow` while the stage loop
runs: `fields` are the fields of the workflow object other than `Stages`,
`Stages` is the slice of stage pointers as the field shows it (`none` for
nil), `slot` gives the elements of the array behind the slice that the `range`
clause of the stage loop evaluated, which the loop reads one per iteration,
and `stage` and `approval` give the object at an address.  An assignment to
an element of `workflow.Stages` in place changes `Stages` and `slot`; an
assignment of another slice to the field changes `Stages` alone. -/
structure WorkflowHeap where
  fields : WorkflowV4
  Stages : Option (List Nat)
  slot : Nat → Nat
  stage : Nat → StageCell
  approval : Nat → Approval

/-- The stage object at an address, read with its approval. -/
def WorkflowHeap.readStage (heap : WorkflowHeap) (p : Nat) : WorkflowStage :=
  { Name := (heap.stage p).Name, Parallel := (heap.stage p).Parallel,
    Approval := (heap.stage p).Approval.map heap.approval, Jobs := (heap.stage p).Jobs }

/-- The workflow as the pointer `workflow` shows it. -/
def WorkflowHeap.read (heap : WorkflowHeap) : WorkflowV4 :=
  { heap.fields with Stages := heap.Stages.map (fun ptrs => ptrs.map heap.readStage) }

/-- The contents of an address that holds no stage. -/
def emptyStageCell : StageCell :=
  { Name := "", Parallel := false, Approval := none, Jobs := [] }

/-- The contents of an address that holds no approval. -/
def emptyApproval : Approval :=
  { Enabled := false, ApprovalType := "", Description := "", Status := "", Timeout := 0,
    NeededApprovers := 0, StartTime := 0, EndTime := 0 }

/-- The heap of a workflow whose stages are distinct objects: the stage at
index `p` is the object at address `p`, and its approval, if it has one, the
approval object at address `p`. -/
def WorkflowHeap.alloc (w : WorkflowV4) : WorkflowHeap :=
  { fields := w
    Stages := w.Stages.map (fun stages => List.range stages.length)
    slot := fun index => index
    stage := fun p =>
      match w.stageList[p]? with
      | some s =>
        { Name := s.Name, Parallel := s.Parallel, Approval := s.Approval.map (fun _ => p),
          Jobs := s.Jobs }
      | none => emptyStageCell
    approval := fun p => ((w.stageList[p]?).bind (fun s => s.Approval)).getD emptyApproval }

/-- The writes through the job pointers of the stage at address `p`: its jobs
as mutated. -/
def WorkflowHeap.setJobs (heap : WorkflowHeap) (p : Nat) (jobs : List Job) : WorkflowHeap :=
  { heap with stage := fun q => if q = p then { heap.stage p with Jobs := jobs } else heap.stage q }

/-- Collaborators of `CreateWorkflowTaskV4`.  A collaborator that mutates the
workflow it is given returns the mutated workflow; `RenderStageVariables`,
which is called inside the stage loop while the loop holds pointers to the
stages, takes and returns the heap: it may write to the stage and approval
objects in place and may replace the slice of stages.  `FindWorkflowHash` is
the lookup of the stored workflow followed by `CalculateHash`; the four
`...ReposSpec` fields are the conversion of a job payload followed by
`setManunalBuilds` on its repositories; `setBuildInfo` is the effect of
`setZadigParamRepos` on the parameters. -/
structure CreateEnv where
  LintWorkflowV4 : WorkflowV4 → Option String
  FindWorkflowHash : String → Except String String
  InstantiateWorkflow : WorkflowV4 → Except String WorkflowV4
  GetUserByUid : String → Except String (Option UserInfo)
  IToi : WorkflowV4 → Except String WorkflowV4
  WorkflowTaskV4Fmt : String → String
  GetNextSeq : String → Except String Int
  RemoveFixedValueMarks : WorkflowV4 → Except String WorkflowV4
  RenderGlobalVariables : WorkflowV4 → Int → String → Except String WorkflowV4
  setBuildInfo : List String → List String
  JobSkiped : Job → Bool
  ZadigBuildReposSpec : String → Except String String
  FreestyleReposSpec : String → Except String String
  ZadigTestingReposSpec : String → Except String String
  ZadigScanningReposSpec : String → Except String String
  RenderStageVariables : WorkflowHeap → Int → String → Except String WorkflowHeap
  ToJobs : Job → WorkflowV4 → Int → Except String (List JobTask)
  FillServiceModules2Jobs : WorkflowV4 → Except String WorkflowV4
  SendWorkflowTaskNotifications : WorkflowTask → Option String
  CreateTask : WorkflowTask → Option String
  CreateTimeNow : Int
  StartTimeNow : Int

/-- The common shape of `setZadigBuildRepos`, `setFreeStyleRepos`,
`setZadigTestingRepos` and `setZadigScanningRepos`: the payload of the job is
converted, its repositories are filled in, and `job.Spec` is replaced; a
failure of the conversion or of `setManunalBuilds` is returned. -/
def setRepos (reposSpec : String → Except String String) (job : Job) : Except String Job :=
  match reposSpec job.Spec with
  | .error err => .error err
  | .ok spec => .ok { job with Spec := spec }

/-- The function `setZadigBuildRepos`. -/
def setZadigBuildRepos (env : CreateEnv) (job : Job) : Except String Job :=
  setRepos env.ZadigBuildReposSpec job

/-- The function `setFreeStyleRepos`. -/
def setFreeStyleRepos (env : CreateEnv) (job : Job) : Except String Job :=
  setRepos env.FreestyleReposSpec job

/-- The function `setZadigTestingRepos`. -/
def setZadigTestingRepos (env : CreateEnv) (job : Job) : Except String Job :=
  setRepos env.ZadigTestingReposSpec job

/-- The function `setZadigScanningRepos`. -/
def setZadigScanningRepos (env : CreateEnv) (job : Job) : Except String Job :=
  setRepos env.ZadigScanningReposSpec job

/-- The four `if job.JobType == ...` blocks of the first job loop, on one job
that is not skipped. -/
def setJobRepos (env : CreateEnv) (job : Job) : Except String Job :=
  match (if job.JobType = JobZadigBuild then setZadigBuildRepos env job else .ok job) with
  | .error err => .error (AddDesc "ErrCreateTask" err)
  | .ok job1 =>
    match (if job1.JobType = JobFreestyle then setFreeStyleRepos env job1 else .ok job1) with
    | .error err => .error (AddDesc "ErrCreateTask" err)
    | .ok job2 =>
      match (if job2.JobType = JobZadigTesting then setZadigTestingRepos env job2
        else .ok job2) with
      | .error err => .error (AddDesc "ErrCreateTask" err)
      | .ok job3 =>
        match (if job3.JobType = JobZadigScanning then setZadigScanningRepos env job3
          else .ok job3) with
        | .error err => .error (AddDesc "ErrCreateTask" err)
        | .ok job4 => .ok job4

/-- The first loop over `stage.Jobs`: skipped jobs are passed over, the others
get their repository information; the result is the job list as mutated. -/
def prepareJobs (env : CreateEnv) : List Job → Except String (List Job)
  | [] => .ok []
  | job :: rest =>
    if env.JobSkiped job then
      match prepareJobs env rest with
      | .error err => .error err
      | .ok rest1 => .ok (job :: rest1)
    else
      match setJobRepos env job with
      | .error err => .error err
      | .ok job1 =>
        match prepareJobs env rest with
        | .error err => .error err
        | .ok rest1 => .ok (job1 :: rest1)

/-- The switch that adds `breakpoint_before` to a job task when the workflow
task is in debug mode. -/
def markBreakpoint (isDebug : Bool) (jobTask : JobTask) : JobTask :=
  if jobTask.JobType = JobFreestyle ∨ jobTask.JobType = JobZadigTesting ∨
      jobTask.JobType = JobZadigBuild ∨ jobTask.JobType = JobZadigScanning then
    if isDebug then { jobTask with BreakpointBefore := true } else jobTask
  else jobTask

/-- The second loop over `stage.Jobs`: `acc` is `stageTask.Jobs` so far. -/
def expandStageJobs (env : CreateEnv) (workflow : WorkflowV4) (nextTaskID : Int) (isDebug : Bool) :
    List Job → List JobTask → Except String (List JobTask)
  | [], acc => .ok acc
  | job :: rest, acc =>
    if env.JobSkiped job then expandStageJobs env workflow nextTaskID isDebug rest acc
    else
      match env.ToJobs job workflow nextTaskID with
      | .error err => .error (AddDesc "ErrCreateTask" err)
      | .ok jobs =>
        expandStageJobs env workflow nextTaskID isDebug rest
          (acc ++ jobs.map (markBreakpoint isDebug))

/-- The stage task literal of the stage loop with its expanded jobs;
`Approval` is the pointer it shares with the workflow stage. -/
structure StageTaskCell where
  Name : String
  Parallel : Bool
  Approval : Option Nat
  Jobs : List JobTask
deriving DecidableEq, Repr

/-- The stage task as the task shows it: the approval is read where the
pointer leads. -/
def StageTaskCell.read (heap : WorkflowHeap) (stageTask : StageTaskCell) : StageTask :=
  { Name := stageTask.Name, Parallel := stageTask.Parallel, Status := "", StartTime := 0,
    EndTime := 0, Error := "", Approval := stageTask.Approval.map heap.approval,
    Jobs := stageTask.Jobs }

/-- The loop `for _, stage := range workflow.Stages`.  The list argument holds
the indices that the loop has still to visit, out of those of the slice that
the `range` clause evaluated; `heap` is the heap as mutated so far, `acc` is
`workflowTask.Stages`.  The loop variable `stage` is the element
`heap.slot index` of the array behind that slice, read when the iteration
starts: the name, the parallel flag and the approval pointer are read through
it at that moment, the jobs before and after `RenderStageVariables`. -/
def createStages (env : CreateEnv) (args : CreateWorkflowTaskV4Args) (nextTaskID : Int)
    (isDebug : Bool) :
    List Nat → WorkflowHeap → List StageTaskCell →
      Except String (WorkflowHeap × List StageTaskCell)
  | [], heap, acc => .ok (heap, acc)
  | index :: rest, heap, acc =>
    match prepareJobs env (heap.stage (heap.slot index)).Jobs with
    | .error err => .error err
    | .ok jobs1 =>
      match env.RenderStageVariables (heap.setJobs (heap.slot index) jobs1) nextTaskID
          args.Name with
      | .error err => .error (AddDesc "ErrCreateTask" err)
      | .ok heap2 =>
        match expandStageJobs env heap2.read nextTaskID isDebug
            (heap2.stage (heap.slot index)).Jobs [] with
        | .error err => .error err
        | .ok stageJobs =>
          createStages env args nextTaskID isDebug rest heap2
            (if stageJobs.length > 0 then
              acc ++ [{ Name := (heap.stage (heap.slot index)).Name,
                        Parallel := (heap.stage (heap.slot index)).Parallel,
                        Approval := (heap.stage (heap.slot index)).Approval,
                        Jobs := stageJobs }]
             else acc)

/-- What a run of `CreateWorkflowTaskV4` leaves behind: the response pointer
(`none` for nil), how it ended, and the calls it made. -/
structure CreateResult where
  resp : Option CreateTaskV4Resp
  outcome : Outcome
  calls : List Call
deriving DecidableEq, Repr

/-- The snapshot of the original arguments: the copy with the four hook
controls set to nil. -/
def stripHooks (w : WorkflowV4) : WorkflowV4 :=
  { w with HookCtls := [], MeegoHookCtls := [], JiraHookCtls := [], GeneralHookCtls := [] }

/-- The workflow task as it stands when the stage loop starts. -/
def initialWorkflowTask (env : CreateEnv) (args : CreateWorkflowTaskV4Args) (user : Option UserInfo)
    (originTaskArgs : WorkflowV4) (nextTaskID : Int) (hash : String) (workflow : WorkflowV4) :
    WorkflowTask :=
  { TaskID := nextTaskID, WorkflowName := workflow.Name,
    WorkflowDisplayName := workflow.DisplayName, ProjectName := workflow.Project,
    Status := "", TaskCreator := args.Name, TaskRevoker := args.Name,
    TaskCreatorEmail := (user.map (fun u => u.Email)).getD "",
    TaskCreatorPhone := (user.map (fun u => u.Phone)).getD "",
    CreateTime := env.CreateTimeNow, StartTime := 0, EndTime := 0, Error := "",
    IsDebug := workflow.Debug, WorkflowHash := hash,
    Params := workflow.Params, KeyVals := workflow.KeyVals, ShareStorages := workflow.ShareStorages,
    Stages := [], OriginWorkflowArgs := some originTaskArgs, WorkflowArgs := none }

/-- The workflow task as it is handed on after the lint: the built stages, the
working copy of the arguments, status created and the start time. -/
def finishedWorkflowTask (workflowTask : WorkflowTask) (stages : List StageTask)
    (workflowArgs : WorkflowV4) (now : Int) : WorkflowTask :=
  { workflowTask with
    Stages := stages, WorkflowArgs := some workflowArgs, Status := StatusCreated, StartTime := now }

/-- The tail of `CreateWorkflowTaskV4`, from the stage loop to the return;
`calls` are the calls made before it.  When the loop starts the stages of the
workflow are distinct objects; the task is handed over with the approvals as
the heap holds them after the loop. -/
def createFromStages (env : CreateEnv) (args : CreateWorkflowTaskV4Args) (resp : CreateTaskV4Resp)
    (calls : List Call) (workflowTask : WorkflowTask) (workflow : WorkflowV4) : CreateResult :=
  match createStages env args workflowTask.TaskID workflowTask.IsDebug
      (List.range workflow.stageList.length) (WorkflowHeap.alloc workflow) [] with
  | .error err => { resp := some resp, outcome := .error err, calls := calls }
  | .ok built =>
    match workflowTaskLint
        { workflowTask with Stages := built.2.map (StageTaskCell.read built.1) } with
    | some err => { resp := some resp, outcome := .error err, calls := calls }
    | none =>
      match env.FillServiceModules2Jobs (stripHooks built.1.read) with
      | .error err =>
        { resp := some resp, outcome := .error (AddDesc "ErrCreateTask" err), calls := calls }
      | .ok workflowArgs =>
        let workflowTask2 :=
          finishedWorkflowTask workflowTask (built.2.map (StageTaskCell.read built.1))
            workflowArgs env.StartTimeNow
        match env.CreateTask workflowTask2 with
        | some err =>
          { resp := some resp, outcome := .error (AddDesc "ErrCreateTask" err),
            calls := calls ++
              [.SendWorkflowTaskNotifications workflowTask2, .CreateTask workflowTask2] }
        | none =>
          { resp := some resp, outcome := .ok,
            calls := calls ++
              [.SendWorkflowTaskNotifications workflowTask2, .CreateTask workflowTask2] }

/-- The function `setZadigParamRepos`: it mutates the repository of every
parameter of type repo. -/
def setZadigParamRepos (env : CreateEnv) (workflow : WorkflowV4) : WorkflowV4 :=
  { workflow with Params := env.setBuildInfo workflow.Params }

/-- The middle of `CreateWorkflowTaskV4`: from the snapshot of the original
arguments to the stage loop. -/
def createFromSnapshot (env : CreateEnv) (args : CreateWorkflowTaskV4Args)
    (resp : CreateTaskV4Resp) (hash : String) (user : Option UserInfo) (workflow : WorkflowV4) :
    CreateResult :=
  match env.IToi workflow with
  | .error err =>
    { resp := some resp, outcome := .error (AddDesc "ErrCreateTask" err), calls := [] }
  | .ok originTaskArgs =>
    match env.GetNextSeq (env.WorkflowTaskV4Fmt workflow.Name) with
    | .error err =>
      { resp := some resp, outcome := .error (AddDesc "ErrGetCounter" err),
        calls := [.GetNextSeq (env.WorkflowTaskV4Fmt workflow.Name)] }
    | .ok nextTaskID =>
      match env.RemoveFixedValueMarks workflow with
      | .error err =>
        { resp := some { resp with TaskID := nextTaskID },
          outcome := .error (AddDesc "ErrCreateTask" err),
          calls := [.GetNextSeq (env.WorkflowTaskV4Fmt workflow.Name)] }
      | .ok workflow2 =>
        match env.RenderGlobalVariables workflow2 nextTaskID args.Name with
        | .error err =>
          { resp := some { resp with TaskID := nextTaskID },
            outcome := .error (AddDesc "ErrCreateTask" err),
            calls := [.GetNextSeq (env.WorkflowTaskV4Fmt workflow.Name)] }
        | .ok workflow3 =>
          createFromStages env args { resp with TaskID := nextTaskID }
            [.GetNextSeq (env.WorkflowTaskV4Fmt workflow.Name)]
            (initialWorkflowTask env args user (stripHooks originTaskArgs) nextTaskID hash
              (setZadigParamRepos env workflow3))
            (setZadigParamRepos env workflow3)

/-- The lookup of the user when `args.UserID` is not empty: `none` when there
is nothing to look up, an error when the lookup fails or finds nobody. -/
def lookupUser (env : CreateEnv) (args : CreateWorkflowTaskV4Args) :
    Except String (Option UserInfo) :=
  if args.UserID ≠ "" then
    match env.GetUserByUid args.UserID with
    | .error _ => .error "failed to get user info by uid"
    | .ok none => .error "failed to get user info by uid"
    | .ok (some userInfo) => .ok (some userInfo)
  else .ok none

/-- The function `CreateWorkflowTaskV4`. -/
def CreateWorkflowTaskV4 (env : CreateEnv) (args : CreateWorkflowTaskV4Args)
    (workflow : WorkflowV4) : CreateResult :=
  let resp : CreateTaskV4Resp :=
    { ProjectName := workflow.Project, WorkflowName := workflow.Name, TaskID := 0 }
  match env.LintWorkflowV4 workflow with
  | some err => { resp := some resp, outcome := .error err, calls := [] }
  | none =>
    match env.FindWorkflowHash workflow.Name with
    | .error err => { resp := none, outcome := .error (AddDesc "ErrFindWorkflow" err), calls := [] }
    | .ok hash =>
      match env.InstantiateWorkflow workflow with
      | .error err =>
        { resp := some resp, outcome := .error (AddDesc "ErrCreateTask" err), calls := [] }
      | .ok workflow1 =>
        match lookupUser env args with
        | .error err => { resp := some resp, outcome := .error err, calls := [] }
        | .ok user => createFromSnapshot env args resp hash user workflow1

/-! ## The stage loop of the instantiator in closed form -/

/-- The fan-out of one stage in the words of the contract: the outputs of the
Job Expander for the jobs that are not skipped, concatenated in definition
order. -/
def stageFanOut (env : CreateEnv) (workflow : WorkflowV4) (nextTaskID : Int) (jobs : List Job) :
    List JobTask :=
  (jobs.filter (fun job => !env.JobSkiped job)).flatMap
    (fun job => match env.ToJobs job workflow nextTaskID with
      | .ok out => out
      | .error _ => [])

/-- What one iteration of the stage loop sees through its loop variable: the
name, the parallel flag and the approval pointer of the stage object when the
iteration starts, the workflow after `RenderStageVariables`, and the jobs of
the stage object after it. -/
structure StageView where
  Name : String
  Parallel : Bool
  Approval : Option Nat
  workflow : WorkflowV4
  jobs : List Job
deriving DecidableEq, Repr

/-- The views of the stage objects that the stage loop visits, one per index
in order, and the heap after the last iteration. -/
def stageViews (env : CreateEnv) (args : CreateWorkflowTaskV4Args) (nextTaskID : Int) :
    List Nat → WorkflowHeap → Except String (List StageView × WorkflowHeap)
  | [], heap => .ok ([], heap)
  | index :: rest, heap =>
    match prepareJobs env (heap.stage (heap.slot index)).Jobs with
    | .error err => .error err
    | .ok jobs1 =>
      match env.RenderStageVariables (heap.setJobs (heap.slot index) jobs1) nextTaskID
          args.Name with
      | .error err => .error (AddDesc "ErrCreateTask" err)
      | .ok heap2 =>
        match stageViews env args nextTaskID rest heap2 with
        | .error err => .error err
        | .ok views =>
          .ok ({ Name := (heap.stage (heap.slot index)).Name,
                 Parallel := (heap.stage (heap.slot index)).Parallel,
                 Approval := (heap.stage (heap.slot index)).Approval, workflow := heap2.read,
                 jobs := (heap2.stage (heap.slot index)).Jobs } :: views.1, views.2)

/-- The stage task the contract describes for one view, before empty stages
are dropped; `heap` is the heap after the loop. -/
def StageView.stageTask (env : CreateEnv) (nextTaskID : Int) (isDebug : Bool)
    (heap : WorkflowHeap) (v : StageView) : StageTask :=
  { Name := v.Name, Parallel := v.Parallel, Status := "", StartTime := 0, EndTime := 0,
    Error := "", Approval := v.Approval.map heap.approval,
    Jobs := (stageFanOut env v.workflow nextTaskID v.jobs).map (markBreakpoint isDebug) }

/-! ## Concrete workflows and collaborators -/

/-- An approval gate as defined in a workflow, before any decision. -/
def demoApproval : Approval :=
  { Enabled := true, ApprovalType := "native", Description := "release", Status := "",
    Timeout := 60, NeededApprovers := 1, StartTime := 0, EndTime := 0 }

/-- A workflow of two stages: every job of `prepare` is skipped, `deploy` has
an approval gate and one job. -/
def demoWorkflow : WorkflowV4 :=
  { Name := "w", DisplayName := "W", Project := "p", Debug := false, Params := [], KeyVals := [],
    ShareStorages := [],
    Stages := some
      [ { Name := "prepare", Parallel := false, Approval := none,
          Jobs := [{ Name := "lint", JobType := "freestyle", Skipped := true, Spec := "raw-lint" }] },
        { Name := "deploy", Parallel := false, Approval := some demoApproval,
          Jobs := [{ Name := "ship", JobType := "zadig-deploy", Skipped := false, Spec := "raw-ship" }] } ],
    HookCtls := ["hook"], MeegoHookCtls := ["meego"], JiraHookCtls := ["jira"],
    GeneralHookCtls := ["general"] }

/-- A job expander with no fan-out: one job task per job, keyed by the job
name, carrying the payload of the job. -/
def demoToJobs (job : Job) (_workflow : WorkflowV4) (_taskID : Int) : Except String (List JobTask) :=
  .ok [{ Name := job.Name, Key := job.Name, JobType := job.JobType, Status := "", StartTime := 0,
         EndTime := 0, Error := "", BreakpointBefore := false, BreakpointAfter := false,
         Spec := job.Spec }]

/-- A rendering step that rewrites the payload of every job. -/
def demoRender (w : WorkflowV4) : WorkflowV4 :=
  { w with Stages := w.Stages.map (fun stages => stages.map (fun stage =>
    { stage with Jobs := stage.Jobs.map (fun job => { job with Spec := "rendered" }) })) }

/-- Collaborators that always succeed; rendering the global variables rewrites
the payload of every job, so the working copy differs from the snapshot. -/
def demoCreateEnv : CreateEnv :=
  { LintWorkflowV4 := fun _ => none
    FindWorkflowHash := fun _ => .ok "hash"
    InstantiateWorkflow := fun w => .ok w
    GetUserByUid := fun _ => .ok (some { Email := "a@b", Phone := "1" })
    IToi := fun w => .ok w
    WorkflowTaskV4Fmt := fun name => "WorkflowTaskV4:" ++ name
    GetNextSeq := fun _ => .ok 1
    RemoveFixedValueMarks := fun w => .ok w
    RenderGlobalVariables := fun w _ _ => .ok (demoRender w)
    setBuildInfo := fun params => params
    JobSkiped := fun job => job.Skipped
    ZadigBuildReposSpec := fun spec => .ok spec
    FreestyleReposSpec := fun spec => .ok spec
    ZadigTestingReposSpec := fun spec => .ok spec
    ZadigScanningReposSpec := fun spec => .ok spec
    RenderStageVariables := fun w _ _ => .ok w
    ToJobs := demoToJobs
    FillServiceModules2Jobs := fun w => .ok w
    SendWorkflowTaskNotifications := fun _ => none
    CreateTask := fun _ => none
    CreateTimeNow := 100
    StartTimeNow := 101 }

/-- The ordinary collaborators with a rendering of stage variables that
rewrites the stage object `deploy` and its approval in place and replaces the
slice of stages by one that holds `deploy` alone. -/
def demoRestructureEnv : CreateEnv :=
  { demoCreateEnv with
    RenderStageVariables := fun heap _ _ =>
      .ok { heap with
        Stages := some [1]
        stage := fun p =>
          if p = 1 then
            { heap.stage 1 with
              Jobs := [{ Name := "extra-deploy", JobType := "zadig-deploy", Skipped := false,
                         Spec := "extra" }] }
          else heap.stage p
        approval := fun p =>
          if p = 1 then { heap.approval 1 with Description := "rendered" } else heap.approval p } }

/-- The ordinary collaborators with a rendering of stage variables that
assigns the pointer to the first stage to every element of `workflow.Stages`
in place. -/
def demoReslotEnv : CreateEnv :=
  { demoCreateEnv with
    RenderStageVariables := fun heap _ _ =>
      .ok { heap with
        Stages := heap.Stages.map (fun ptrs => ptrs.map (fun _ => heap.slot 0))
        slot := fun _ => heap.slot 0 } }

/-- A workflow whose jobs are all skipped: two stages, no job to run. -/
def demoSkippedWorkflow : WorkflowV4 :=
  { demoWorkflow with
    Name := "s",
    Stages := some
      [ { Name := "prepare", Parallel := false, Approval := none,
          Jobs := [{ Name := "lint", JobType := "freestyle", Skipped := true, Spec := "raw-lint" }] },
        { Name := "deploy", Parallel := false, Approval := some demoApproval,
          Jobs := [{ Name := "ship", JobType := "zadig-deploy", Skipped := true, Spec := "raw-ship" },
                   { Name := "tell", JobType := "notification", Skipped := true, Spec := "" }] } ] }

/-- The task that `CreateWorkflowTaskV4` hands to the controller for
`demoWorkflow`: the stage `prepare` is absent, `deploy` is its only stage. -/
def demoCreatedTask : WorkflowTask :=
  { TaskID := 1, WorkflowName := "w", WorkflowDisplayName := "W", ProjectName := "p",
    Status := "created", TaskCreator := "alice", TaskRevoker := "alice", TaskCreatorEmail := "",
    TaskCreatorPhone := "", CreateTime := 100, StartTime := 101, EndTime := 0, Error := "",
    IsDebug := false, WorkflowHash := "hash", Params := [], KeyVals := [], ShareStorages := [],
    Stages :=
      [ { Name := "deploy", Parallel := false, Status := "", StartTime := 0, EndTime := 0,
          Error := "", Approval := some demoApproval,
          Jobs := [{ Name := "ship", Key := "ship", JobType := "zadig-deploy", Status := "",
                     StartTime := 0, EndTime := 0, Error := "", BreakpointBefore := false,
                     BreakpointAfter := false, Spec := "rendered" }] } ],
    OriginWorkflowArgs := some (stripHooks demoWorkflow),
    WorkflowArgs := some (stripHooks (demoRender demoWorkflow)) }

/-- The created task after its run: the approval of `deploy` was rejected. -/
def demoRejectedTask : WorkflowTask :=
  { demoCreatedTask with
    Status := StatusReject, EndTime := 200
    Stages := demoCreatedTask.Stages.map (fun stage =>
      { stage with
        Status := StatusReject, StartTime := 150, EndTime := 200, Error := "rejected"
        Approval := stage.Approval.map (fun a =>
          { a with Status := StatusReject, StartTime := 150, EndTime := 200 })
        Jobs := stage.Jobs.map (fun job => { job with Status := StatusReject }) }) }

/-- A task of two stages whose first stage passed and whose second failed. -/
def demoFailedTask : WorkflowTask :=
  { demoCreatedTask with
    TaskID := 2, Status := StatusFailed, EndTime := 300
    Stages :=
      [ { Name := "prepare", Parallel := false, Status := StatusPassed, StartTime := 110,
          EndTime := 120, Error := "", Approval := none,
          Jobs := [{ Name := "lint", Key := "lint", JobType := "freestyle", Status := StatusPassed,
                     StartTime := 110, EndTime := 120, Error := "", BreakpointBefore := false,
                     BreakpointAfter := false, Spec := "done-lint" }] },
        { Name := "deploy", Parallel := false, Status := StatusFailed, StartTime := 130,
          EndTime := 300, Error := "job failed", Approval := none,
          Jobs := [{ Name := "ship", Key := "ship", JobType := "zadig-deploy",
                     Status := StatusFailed, StartTime := 130, EndTime := 300, Error := "boom",
                     BreakpointBefore := false, BreakpointAfter := false, Spec := "old-ship" }] } ] }

/-- Collaborators of the retry: task 1 is the rejected task, task 2 the failed
one, task 3 is still running; the job expander is the one of the creation. -/
def demoRetryEnv : RetryEnv :=
  { FindTask := fun _ taskID =>
      if taskID = 1 then .ok demoRejectedTask
      else if taskID = 2 then .ok demoFailedTask
      else if taskID = 3 then .ok { demoFailedTask with TaskID := 3, Status := "running" }
      else .error "not found"
    InitJobCtl := fun job args => .ok { ToJobs := fun taskID => demoToJobs job args taskID }
    SendWorkflowTaskNotifications := fun _ => none
    UpdateTask := fun _ => none
    Now := 400 }

/-! ## Breakpoint and debug control -/

/-- Modelled from the spec: the non-terminal statuses of `config.Status` that
the breakpoint control tells apart, declared in the `config` package. -/
def StatusRunning : Status := "running"
def StatusPrepare : Status := "prepare"
def StatusDebugBefore : Status := "debug_before"

/-- The pod phase `corev1.PodRunning`. -/
def PodRunning : String := "Running"

/-- The constant `checkShellStepStart`. -/
def checkShellStepStart : String := "ls /zadig/debug/shell_step"

/-- The constant `checkShellStepDone`. -/
def checkShellStepDone : String := "ls /zadig/debug/shell_step_done"

/-- The format `setOrUnsetBreakpoint` applied to a verb and a position. -/
def setOrUnsetBreakpoint (verb position : String) : String :=
  verb ++ " /zadig/debug/breakpoint_" ++ position

/-- The closure `touchOrRemove`. -/
def touchOrRemove (set : Bool) : String :=
  if set then "touch" else "rm"

/-- The fields of `commonmodels.JobTaskFreestyleSpec` that the control reads:
`Properties.ClusterID` and `Properties.Namespace`. -/
structure JobTaskFreestyleSpec where
  ClusterID : String
  Namespace : String
deriving DecidableEq, Repr

/-- The fields of a pod that the control reads: its name, `Status.Phase` and
the names of `Spec.Containers`. -/
structure Pod where
  Name : String
  Phase : String
  Containers : List String
deriving DecidableEq, Repr

/-- The record `podexec.ExecOptions`. -/
structure ExecOptions where
  Namespace : String
  PodName : String
  ContainerName : String
  Command : List String
deriving DecidableEq, Repr

/-- What the control does to the world, in order: the lock of the live task,
its `Ack`, and the calls to the cluster.  `Ack` carries the task as it stands
in memory when it is acknowledged. -/
inductive CtlEvent where
  | Lock
  | Unlock
  | Ack (task : WorkflowTask)
  | GetKubeClient (clusterID : String)
  | GetClientset (clusterID : String)
  | GetRESTConfig (clusterID : String)
  | ListPods (ns jobName : String)
  | KubeExec (opt : ExecOptions)
deriving DecidableEq, Repr

/-- Collaborators of the breakpoint control.  `GetWorkflowTaskInMap` is the
registry of live tasks (`none` for nil); `IToi` converts a job payload; the
three client getters return an error or nothing; `KubeExec n opt` is the
success flag of the remote command `opt` when `n` remote commands were sent
before it in the same call. -/
structure DebugEnv where
  GetWorkflowTaskInMap : String → Int → Option WorkflowTask
  IToi : String → Except String JobTaskFreestyleSpec
  GetKubeClient : String → Option String
  GetClientset : String → Option String
  GetRESTConfig : String → Option String
  ListPods : String → String → Except String (List Pod)
  KubeExec : Nat → ExecOptions → Bool

/-- The labelled loop `FOR`: the first job task with the given name, in stage
order then job order. -/
def findJob (jobName : String) : List StageTask → Option JobTask
  | [] => none
  | stage :: rest =>
    match stage.Jobs.find? (fun jobTask => jobTask.Name == jobName) with
    | some jobTask => some jobTask
    | none => findJob jobName rest

/-- A write through the pointer `task` inside one job list: the first job task
with the given name is replaced; the flag tells whether there was one. -/
def updateFirstJob (jobName : String) (f : JobTask → JobTask) : List JobTask → List JobTask × Bool
  | [] => ([], false)
  | jobTask :: rest =>
    if jobTask.Name == jobName then (f jobTask :: rest, true)
    else (jobTask :: (updateFirstJob jobName f rest).1, (updateFirstJob jobName f rest).2)

/-- A write through the pointer `task` that the loop `FOR` found. -/
def updateFoundJob (jobName : String) (f : JobTask → JobTask) : List StageTask → List StageTask
  | [] => []
  | stage :: rest =>
    if (updateFirstJob jobName f stage.Jobs).2 then
      { stage with Jobs := (updateFirstJob jobName f stage.Jobs).1 } :: rest
    else stage :: updateFoundJob jobName f rest

/-- The switch `update data in memory and ack`: the live task after it, and
whether `ack` was set. -/
def assignBreakpoint (jobName : String) (set : Bool) (position : String) (w : WorkflowTask) :
    WorkflowTask × Bool :=
  if position = "before" then
    ({ w with Stages :=
        updateFoundJob jobName (fun t => { t with BreakpointBefore := set }) w.Stages }, true)
  else if position = "after" then
    ({ w with Stages :=
        updateFoundJob jobName (fun t => { t with BreakpointAfter := set }) w.Stages }, true)
  else (w, false)

/-- The options that the closure `exec` builds for a command. -/
def execOptions (jobTaskSpec : JobTaskFreestyleSpec) (pod : Pod) (container : String)
    (cmd : String) : ExecOptions :=
  { Namespace := jobTaskSpec.Namespace, PodName := pod.Name, ContainerName := container,
    Command := ["sh", "-c", cmd] }

/-- The closure `exec`: the options it builds and the success flag, or `none`
when `pod.Spec.Containers[0]` is out of range. -/
def exec (env : DebugEnv) (sent : Nat) (jobTaskSpec : JobTaskFreestyleSpec) (pod : Pod)
    (cmd : String) : Option (ExecOptions × Bool) :=
  match pod.Containers with
  | [] => none
  | container :: _ =>
    some (execOptions jobTaskSpec pod container cmd,
          env.KubeExec sent (execOptions jobTaskSpec pod container cmd))

/-- The probe that `SetWorkflowTaskV4Breakpoint` sends for a position. -/
def probeFor (position : String) : String :=
  if position = "before" then checkShellStepStart else checkShellStepDone

/-- The events that prepare a remote command: the client getters and the
listing of pods. -/
def CtlEvent.isSetup : CtlEvent → Bool
  | .GetKubeClient _ => true
  | .GetClientset _ => true
  | .GetRESTConfig _ => true
  | .ListPods _ _ => true
  | _ => false

/-- A shell command of the shape `verb <sentinel>`. -/
def hasShape (verb cmd : String) : Prop :=
  ∃ sentinel, cmd = verb ++ " " ++ sentinel

/-- What the body of a control function leaves behind before the deferred
function runs: how it ended, the live task, the events, and whether the
variable `ack` is set. -/
structure CtlRun where
  outcome : Outcome
  task : WorkflowTask
  events : List CtlEvent
  ack : Bool
deriving DecidableEq, Repr

/-- What a control function leaves behind: how it ended, the live task
(`none` when it is not in the registry), and the events. -/
structure CtlResult where
  outcome : Outcome
  task : Option WorkflowTask
  events : List CtlEvent
deriving DecidableEq, Repr

/-- The frame `w.Lock()`, body, deferred `ack()` and `w.Unlock()`. -/
def underLock (run : CtlRun) : CtlResult :=
  { outcome := run.outcome, task := some run.task,
    events := [CtlEvent.Lock] ++ run.events ++ (if run.ack then [CtlEvent.Ack run.task] else [])
      ++ [CtlEvent.Unlock] }

/-- A probe followed by the command that sets or clears the sentinel, for one
position: the first switch on `position` in the running branch. -/
def probeThenSet (env : DebugEnv) (jobTaskSpec : JobTaskFreestyleSpec) (pod : Pod)
    (probe : String) (started : String) (set : Bool) (position : String) :
    List CtlEvent × Outcome :=
  match exec env 0 jobTaskSpec pod probe with
  | none => ([], .panic)
  | some (opt, true) => ([.KubeExec opt], .error (AddDesc "ErrSetBreakpoint" started))
  | some (opt, false) =>
    match exec env 1 jobTaskSpec pod (setOrUnsetBreakpoint (touchOrRemove set) position) with
    | none => ([.KubeExec opt], .panic)
    | some (opt2, _) => ([.KubeExec opt, .KubeExec opt2], .ok)

/-- The branch of `SetWorkflowTaskV4Breakpoint` for a job task that is
running: the pod is looked up, probed and commanded, then the flag is
assigned.  `setup` are the events before it. -/
def setBreakpointRunning (env : DebugEnv) (w : WorkflowTask) (task : JobTask)
    (jobTaskSpec : JobTaskFreestyleSpec) (jobName : String) (set : Bool) (position : String)
    (setup : List CtlEvent) : CtlRun :=
  match env.ListPods jobTaskSpec.Namespace task.K8sJobName with
  | .error _ =>
    { outcome := .error (AddDesc "ErrSetBreakpoint" "修改断点意外失败: ListPods"), task := w,
      events := setup ++ [.ListPods jobTaskSpec.Namespace task.K8sJobName], ack := false }
  | .ok [] =>
    { outcome := .error (AddDesc "ErrSetBreakpoint" "修改断点意外失败: ListPods num 0"), task := w,
      events := setup ++ [.ListPods jobTaskSpec.Namespace task.K8sJobName], ack := false }
  | .ok (pod :: _) =>
    if pod.Phase ≠ PodRunning then
      { outcome := .error (AddDesc "ErrSetBreakpoint"
          ("当前任务状态 " ++ pod.Phase ++ " 无法修改断点")),
        task := w, events := setup ++ [.ListPods jobTaskSpec.Namespace task.K8sJobName],
        ack := false }
    else
      let commanded : List CtlEvent × Outcome :=
        if position = "before" then
          probeThenSet env jobTaskSpec pod checkShellStepStart
            "当前任务已开始运行脚本，无法修改前断点" set position
        else if position = "after" then
          probeThenSet env jobTaskSpec pod checkShellStepDone
            "当前任务已运行完脚本，无法修改后断点" set position
        else ([], .ok)
      match commanded.2 with
      | .ok =>
        { outcome := .ok, task := (assignBreakpoint jobName set position w).1,
          events := setup ++ [.ListPods jobTaskSpec.Namespace task.K8sJobName] ++ commanded.1,
          ack := (assignBreakpoint jobName set position w).2 }
      | other =>
        { outcome := other, task := w,
          events := setup ++ [.ListPods jobTaskSpec.Namespace task.K8sJobName] ++ commanded.1,
          ack := false }

/-- The three client getters in the order of the source: the events of the
calls made, and the description of the first failure if there is one;
`what` is the head of that description. -/
def getClients (env : DebugEnv) (clusterID : String) (what : String) :
    List CtlEvent × Option String :=
  match env.GetKubeClient clusterID with
  | some _ => ([.GetKubeClient clusterID], some (what ++ ": get kube client"))
  | none =>
    match env.GetClientset clusterID with
    | some _ =>
      ([.GetKubeClient clusterID, .GetClientset clusterID],
        some (what ++ ": get kube client set"))
    | none =>
      match env.GetRESTConfig clusterID with
      | some _ =>
        ([.GetKubeClient clusterID, .GetClientset clusterID, .GetRESTConfig clusterID],
          some (what ++ ": get kube rest config"))
      | none =>
        ([.GetKubeClient clusterID, .GetClientset clusterID, .GetRESTConfig clusterID], none)

/-- The body of `SetWorkflowTaskV4Breakpoint` between `w.Lock()` and the
deferred function. -/
def setBreakpointBody (env : DebugEnv) (w : WorkflowTask) (jobName : String) (set : Bool)
    (position : String) : CtlRun :=
  match findJob jobName w.Stages with
  | none =>
    { outcome := .error (AddDesc "ErrSetBreakpoint" "当前任务不存在"), task := w, events := [],
      ack := false }
  | some task =>
    if task.Status = "" then
      { outcome := .ok, task := (assignBreakpoint jobName set position w).1, events := [],
        ack := (assignBreakpoint jobName set position w).2 }
    else
      match env.IToi task.Spec with
      | .error _ =>
        { outcome := .error (AddDesc "ErrSetBreakpoint" "修改断点意外失败: convert job task spec"),
          task := w, events := [], ack := false }
      | .ok jobTaskSpec =>
        match (getClients env jobTaskSpec.ClusterID "修改断点意外失败").2 with
        | some desc =>
          { outcome := .error (AddDesc "ErrSetBreakpoint" desc), task := w,
            events := (getClients env jobTaskSpec.ClusterID "修改断点意外失败").1, ack := false }
        | none =>
          if task.Status = StatusRunning ∨ task.Status = StatusDebugBefore ∨
              task.Status = StatusPrepare then
            setBreakpointRunning env w task jobTaskSpec jobName set position
              (getClients env jobTaskSpec.ClusterID "修改断点意外失败").1
          else
            { outcome := .error (AddDesc "ErrSetBreakpoint" "当前任务状态无法修改断点 "),
              task := w, events := (getClients env jobTaskSpec.ClusterID "修改断点意外失败").1,
              ack := false }

/-- The function `SetWorkflowTaskV4Breakpoint`. -/
def SetWorkflowTaskV4Breakpoint (env : DebugEnv) (workflowName jobName : String) (taskID : Int)
    (set : Bool) (position : String) : CtlResult :=
  match env.GetWorkflowTaskInMap workflowName taskID with
  | none =>
    { outcome := .error (AddDesc "ErrSetBreakpoint" "工作流任务已完成或不存在"), task := none,
      events := [] }
  | some w => underLock (setBreakpointBody env w jobName set position)

/-- The body of `EnableDebugWorkflowTaskV4`. -/
def enableDebugBody (w : WorkflowTask) : CtlRun :=
  if w.IsDebug then
    { outcome := .error (AddDesc "ErrStopDebugShell" "任务已开启调试模式"), task := w,
      events := [], ack := false }
  else { outcome := .ok, task := { w with IsDebug := true }, events := [], ack := true }

/-- The function `EnableDebugWorkflowTaskV4`. -/
def EnableDebugWorkflowTaskV4 (env : DebugEnv) (workflowName : String) (taskID : Int) :
    CtlResult :=
  match env.GetWorkflowTaskInMap workflowName taskID with
  | none =>
    { outcome := .error (AddDesc "ErrStopDebugShell" "工作流任务已完成或不存在"), task := none,
      events := [] }
  | some w => underLock (enableDebugBody w)

/-- The end of `StopDebugWorkflowTaskJobV4`: the probe of the sentinel of the
position, its removal, and `ack = w.Ack`. -/
def stopDebugOnPod (env : DebugEnv) (w : WorkflowTask) (jobTaskSpec : JobTaskFreestyleSpec)
    (pod : Pod) (position : String) (setup : List CtlEvent) : CtlRun :=
  match exec env 0 jobTaskSpec pod ("ls /zadig/debug/breakpoint_" ++ position) with
  | none => { outcome := .panic, task := w, events := setup, ack := false }
  | some (opt, false) =>
    { outcome := .error (AddDesc "ErrStopDebugShell" "未找到断点文件"), task := w,
      events := setup ++ [.KubeExec opt], ack := false }
  | some (opt, true) =>
    match exec env 1 jobTaskSpec pod ("rm /zadig/debug/breakpoint_" ++ position) with
    | none => { outcome := .panic, task := w, events := setup ++ [.KubeExec opt], ack := false }
    | some (opt2, _) =>
      { outcome := .ok, task := w, events := setup ++ [.KubeExec opt, .KubeExec opt2], ack := true }

/-- The body of `StopDebugWorkflowTaskJobV4`. -/
def stopDebugBody (env : DebugEnv) (w : WorkflowTask) (jobName : String) (position : String) :
    CtlRun :=
  match findJob jobName w.Stages with
  | none =>
    { outcome := .error (AddDesc "ErrStopDebugShell" "Job不存在"), task := w, events := [],
      ack := false }
  | some task =>
    match env.IToi task.Spec with
    | .error _ =>
      { outcome := .error (AddDesc "ErrStopDebugShell" "结束调试意外失败"), task := w,
        events := [], ack := false }
    | .ok jobTaskSpec =>
      match (getClients env jobTaskSpec.ClusterID "结束调试意外失败").2 with
      | some desc =>
        { outcome := .error (AddDesc "ErrSetBreakpoint" desc), task := w,
          events := (getClients env jobTaskSpec.ClusterID "结束调试意外失败").1, ack := false }
      | none =>
        match env.ListPods jobTaskSpec.Namespace task.K8sJobName with
        | .error _ =>
          { outcome := .error (AddDesc "ErrStopDebugShell" "结束调试意外失败: ListPods"), task := w,
            events := (getClients env jobTaskSpec.ClusterID "结束调试意外失败").1
              ++ [.ListPods jobTaskSpec.Namespace task.K8sJobName], ack := false }
        | .ok [] =>
          { outcome := .error (AddDesc "ErrStopDebugShell" "结束调试意外失败: ListPods num 0"),
            task := w,
            events := (getClients env jobTaskSpec.ClusterID "结束调试意外失败").1
              ++ [.ListPods jobTaskSpec.Namespace task.K8sJobName], ack := false }
        | .ok (pod :: _) =>
          if pod.Phase ≠ PodRunning then
            { outcome := .error (AddDesc "ErrStopDebugShell"
                ("Job 状态 " ++ pod.Phase ++ " 无法结束调试")),
              task := w,
              events := (getClients env jobTaskSpec.ClusterID "结束调试意外失败").1
                ++ [.ListPods jobTaskSpec.Namespace task.K8sJobName], ack := false }
          else
            stopDebugOnPod env w jobTaskSpec pod position
              ((getClients env jobTaskSpec.ClusterID "结束调试意外失败").1
                ++ [.ListPods jobTaskSpec.Namespace task.K8sJobName])

/-- The function `StopDebugWorkflowTaskJobV4`. -/
def StopDebugWorkflowTaskJobV4 (env : DebugEnv) (workflowName jobName : String) (taskID : Int)
    (position : String) : CtlResult :=
  match env.GetWorkflowTaskInMap workflowName taskID with
  | none =>
    { outcome := .error (AddDesc "ErrStopDebugShell" "工作流任务已完成或不存在"), task := none,
      events := [] }
  | some w => underLock (stopDebugBody env w jobName position)

/-! ## ApproveStage and the approval gate -/

/-- The arguments of one call of `workflowcontroller.ApproveStage`, in the
order of its parameters. -/
structure ApproveCall where
  workflowName : String
  stageName : String
  userName : String
  userID : String
  comment : String
  taskID : Int
  approve : Bool
deriving DecidableEq, Repr

/-- The function `ApproveStage`: how it ended and the calls it forwarded to
the controller; `controller` is `workflowcontroller.ApproveStage` (`none` for
a nil error). -/
def ApproveStage (controller : ApproveCall → Option String)
    (workflowName stageName userName userID comment : String) (taskID : Int) (approve : Bool) :
    Outcome × List ApproveCall :=
  if workflowName = "" ∨ stageName = "" ∨ taskID = 0 then
    (.error (AddDesc "ErrApproveTask"
      ("can not find approved workflow: " ++ workflowName ++ ", taskID: " ++ toString taskID
        ++ ",stage: " ++ stageName)), [])
  else
    match controller { workflowName := workflowName, stageName := stageName, userName := userName,
                       userID := userID, comment := comment, taskID := taskID, approve := approve } with
    | some err =>
      (.error (AddDesc "ErrApproveTask" err),
        [{ workflowName := workflowName, stageName := stageName, userName := userName,
           userID := userID, comment := comment, taskID := taskID, approve := approve }])
    | none =>
      (.ok,
        [{ workflowName := workflowName, stageName := stageName, userName := userName,
           userID := userID, comment := comment, taskID := taskID, approve := approve }])

/-- The status of an approval gate. -/
inductive GateStatus where
  | pending
  | passed
  | reject
deriving DecidableEq, Repr

/-- Modelled from the spec: the approval gate of the task controller, whose
code is not among the sources.  The gate tracks the configured minimum
approver count and the deciders who approved. -/
structure Gate where
  neededApprovers : Nat
  approved : List String
  status : GateStatus
deriving DecidableEq, Repr

/-- Modelled from the spec: a gate as configured, before any decision. -/
def Gate.new (neededApprovers : Nat) : Gate :=
  { neededApprovers := neededApprovers, approved := [], status := .pending }

/-- Modelled from the spec: `approve(decider, comment) -> bool`.  It requires
a pending gate and a decider who has not already decided; a replay changes
nothing.  The gate transitions to passed once the configured number of
distinct approvers have approved. -/
def Gate.approve (g : Gate) (decider : String) : Bool × Gate :=
  match g.status with
  | .pending =>
    if decider ∈ g.approved then (false, g)
    else
      (true,
        { g with approved := g.approved ++ [decider],
                 status := if g.neededApprovers ≤ (g.approved ++ [decider]).length then .passed
                           else .pending })
  | _ => (false, g)

/-- Modelled from the spec: `reject(decider, comment) -> bool`.  It requires a
pending gate; a rejection from any decider, one who approved before included,
moves the gate to reject whatever approvals it holds, no quorum required.  A
rejection that reaches a gate already decided changes nothing. -/
def Gate.reject (g : Gate) (_decider : String) : Bool × Gate :=
  match g.status with
  | .pending => (true, { g with status := .reject })
  | _ => (false, g)

/-- Modelled from the spec: the gate after a sequence of decisions
`(decider, approve)`. -/
def Gate.run (g : Gate) : List (String × Bool) → Gate
  | [] => g
  | (decider, true) :: rest => Gate.run (g.approve decider).2 rest
  | (decider, false) :: rest => Gate.run (g.reject decider).2 rest

/-! ## Allocation of task identities -/

/-- Modelled from the spec: the counter collection behind
`commonrepo.NewCounterColl().GetNextSeq`, whose code is not among the sources:
for each counter name the last sequence number handed out. -/
abbrev CounterStore := String → Int

/-- Modelled from the spec: `nextSequence(workflowName) -> int64`, a single
atomic increment: the number handed out and the store after it. -/
def nextSequence (store : CounterStore) (name : String) : Int × CounterStore :=
  (store name + 1, fun n => if n = name then store name + 1 else store n)

/-- One allocation request: the caller that issues it and the counter name. -/
structure SeqRequest where
  caller : Nat
  name : String
deriving DecidableEq, Repr

/-- One served allocation: the request and the number it received. -/
structure SeqGrant where
  caller : Nat
  name : String
  seq : Int
deriving DecidableEq, Repr

/-- Modelled from the spec: requests issued by any number of callers are
served one at a time, each by one atomic increment; the list is the order in
which the store serves them. -/
def serve (store : CounterStore) : List SeqRequest → List SeqGrant
  | [] => []
  | r :: rest =>
    { caller := r.caller, name := r.name, seq := (nextSequence store r.name).1 }
      :: serve (nextSequence store r.name).2 rest

/-! ## lintWorkflowTemplate -/

/-- The fields of `commonmodels.WorkflowV4Template` that the lint reads. -/
structure WorkflowV4Template where
  TemplateName : String
  Stages : List WorkflowStage
deriving DecidableEq, Repr

/-- The job loop of `lintWorkflowTemplate`: the map of job names after it, or
the description of the first violation.  `reg` is `reg.MatchString`,
`JobNameRegx` the constant `setting.JobNameRegx`. -/
def lintTemplateJobs (reg : String → Bool) (JobNameRegx : String) :
    List Job → List (String × String) → Except String (List (String × String))
  | [], jobNameMap => .ok jobNameMap
  | job :: rest, jobNameMap =>
    if reg job.Name = false then
      .error ("job name [" ++ job.Name ++ "] did not match " ++ JobNameRegx)
    else if jobNameMap.any (fun kv => kv.1 == job.Name) then
      .error ("duplicated job name: " ++ job.Name)
    else lintTemplateJobs reg JobNameRegx rest ((job.Name, job.JobType) :: jobNameMap)

/-- The stage loop of `lintWorkflowTemplate`. -/
def lintTemplateStages (reg : String → Bool) (JobNameRegx : String) :
    List WorkflowStage → List (String × Bool) → List (String × String) → Option String
  | [], _, _ => none
  | stage :: rest, stageNameMap, jobNameMap =>
    if stageNameMap.any (fun kv => kv.1 == stage.Name) then
      some (AddDesc "ErrLintWorkflowTemplate" ("duplicated stage name: " ++ stage.Name))
    else
      match lintTemplateJobs reg JobNameRegx stage.Jobs jobNameMap with
      | .error desc => some (AddDesc "ErrLintWorkflowTemplate" desc)
      | .ok jobNameMap1 =>
        lintTemplateStages reg JobNameRegx rest ((stage.Name, true) :: stageNameMap) jobNameMap1

/-- The function `lintWorkflowTemplate`; `compiled` is the result of
`regexp.Compile(setting.JobNameRegx)`. -/
def lintWorkflowTemplate (compiled : Except String (String → Bool)) (JobNameRegx : String)
    (template : WorkflowV4Template) : Option String :=
  match compiled with
  | .error err => some (AddDesc "ErrLintWorkflowTemplate" err)
  | .ok reg => lintTemplateStages reg JobNameRegx template.Stages [] []

/-- What the lint visits, in stage order then job order: the name of a stage,
then the names of its jobs. -/
inductive TemplateItem where
  | stage (name : String)
  | job (name : String)
deriving DecidableEq, Repr

/-- The items of a template in the order of the visit. -/
def templateItems : List WorkflowStage → List TemplateItem
  | [] => []
  | stage :: rest =>
    (.stage stage.Name :: stage.Jobs.map (fun job => TemplateItem.job job.Name))
      ++ templateItems rest

/-- The violation that an item commits given the items visited before it: a
stage name met before, a job name that fails the naming policy, a job name
met before. -/
def violation (reg : String → Bool) (JobNameRegx : String) (earlier : List TemplateItem) :
    TemplateItem → Option String
  | .stage name =>
    if TemplateItem.stage name ∈ earlier then some ("duplicated stage name: " ++ name) else none
  | .job name =>
    if reg name = false then some ("job name [" ++ name ++ "] did not match " ++ JobNameRegx)
    else if TemplateItem.job name ∈ earlier then some ("duplicated job name: " ++ name)
    else none

/-- The first violation met in the order of the visit. -/
def firstViolation (reg : String → Bool) (JobNameRegx : String) :
    List TemplateItem → List TemplateItem → Option String
  | _, [] => none
  | earlier, item :: rest =>
    match violation reg JobNameRegx earlier item with
    | some desc => some desc
    | none => firstViolation reg JobNameRegx (earlier ++ [item]) rest

/-! ## Concrete live task and cluster -/

/-- A live task with one stage: `sh` is running on a pod, `done` has passed,
`todo` has not started. -/
def demoLiveTask : WorkflowTask :=
  { TaskID := 1, WorkflowName := "w", WorkflowDisplayName := "W", ProjectName := "p",
    Status := StatusRunning, TaskCreator := "alice", TaskRevoker := "alice",
    TaskCreatorEmail := "", TaskCreatorPhone := "", CreateTime := 100, StartTime := 101,
    EndTime := 0, Error := "", IsDebug := true, WorkflowHash := "hash", Params := [],
    KeyVals := [], ShareStorages := [],
    Stages :=
      [ { Name := "build", Parallel := true, Status := StatusRunning, StartTime := 101,
          EndTime := 0, Error := "", Approval := none,
          Jobs :=
            [ { Name := "done", Key := "done", JobType := "freestyle", Status := StatusPassed,
                StartTime := 101, EndTime := 110, Error := "", BreakpointBefore := false,
                BreakpointAfter := false, Spec := "spec", K8sJobName := "job-0" },
              { Name := "sh", Key := "sh", JobType := "freestyle", Status := StatusRunning,
                StartTime := 101, EndTime := 0, Error := "", BreakpointBefore := false,
                BreakpointAfter := false, Spec := "spec", K8sJobName := "job-1" },
              { Name := "todo", Key := "todo", JobType := "freestyle", Status := "",
                StartTime := 0, EndTime := 0, Error := "", BreakpointBefore := true,
                BreakpointAfter := false, Spec := "spec", K8sJobName := "" } ] } ],
    OriginWorkflowArgs := none, WorkflowArgs := none }

/-- A cluster in which the pod of every job is running; on the pod the
scripted step has started and has not finished, and the sentinel of the
before breakpoint exists while the one of the after breakpoint does not. -/
def demoDebugEnv : DebugEnv :=
  { GetWorkflowTaskInMap := fun workflowName taskID =>
      if workflowName = "w" ∧ taskID = 1 then some demoLiveTask
      else if workflowName = "w" ∧ taskID = 2 then some { demoLiveTask with IsDebug := false }
      else none
    IToi := fun _ => .ok { ClusterID := "c", Namespace := "ns" }
    GetKubeClient := fun _ => none
    GetClientset := fun _ => none
    GetRESTConfig := fun _ => none
    ListPods := fun _ jobName =>
      .ok [{ Name := "pod-" ++ jobName, Phase := "Running", Containers := ["main"] }]
    KubeExec := fun _ opt =>
      decide (opt.Command = ["sh", "-c", "ls /zadig/debug/shell_step"]) ||
      decide (opt.Command = ["sh", "-c", "ls /zadig/debug/breakpoint_before"]) ||
      decide (opt.Command = ["sh", "-c", "touch /zadig/debug/breakpoint_after"]) ||
      decide (opt.Command = ["sh", "-c", "rm /zadig/debug/breakpoint_before"]) }

/-- A template whose second stage repeats a job name of the first. -/
def demoTemplate : WorkflowV4Template :=
  { TemplateName := "t",
    Stages :=
      [ { Name := "build", Parallel := false, Approval := none,
          Jobs := [{ Name := "compile", JobType := "zadig-build", Skipped := false, Spec := "" }] },
        { Name := "test", Parallel := false, Approval := none,
          Jobs := [{ Name := "unit", JobType := "zadig-testing", Skipped := false, Spec := "" },
                   { Name := "compile", JobType := "freestyle", Skipped := false, Spec := "" }] } ] }

/-- A naming policy for the concrete template: a job name is not empty and at
most 32 characters long. -/
def demoNamePolicy (name : String) : Bool :=
  decide (0 < name.length) && decide (name.length ≤ 32)

/-- The failed task with a job whose key the expander no longer produces. -/
def demoOrphanTask : WorkflowTask :=
  { demoFailedTask with
    TaskID := 4
    Stages := demoFailedTask.Stages.map (fun stage =>
      { stage with Jobs := stage.Jobs.map (fun job =>
          if job.Name = "ship" then { job with Key := "ship-0" } else job) }) }

/-- Collaborators of the retry that find the task with the orphan key. -/
def demoOrphanEnv : RetryEnv :=
  { demoRetryEnv with FindTask := fun _ _ => .ok demoOrphanTask }

/-! ## A workflow in debug mode -/

/-- A workflow in debug mode with one stage of two jobs, a freestyle job and a
deploy job. -/
def demoDebugWorkflow : WorkflowV4 :=
  { Name := "d", DisplayName := "D", Project := "p", Debug := true, Params := [], KeyVals := [],
    ShareStorages := [],
    Stages := some
      [ { Name := "run", Parallel := false, Approval := none,
          Jobs := [{ Name := "script", JobType := "freestyle", Skipped := false, Spec := "raw-script" },
                   { Name := "ship", JobType := "zadig-deploy", Skipped := false, Spec := "raw-ship" }] } ],
    HookCtls := [], MeegoHookCtls := [], JiraHookCtls := [], GeneralHookCtls := [] }

/-- The task that `CreateWorkflowTaskV4` hands to the controller for
`demoDebugWorkflow`: the freestyle job task has a before breakpoint, the
deploy job task has none. -/
def demoDebugCreatedTask : WorkflowTask :=
  { TaskID := 1, WorkflowName := "d", WorkflowDisplayName := "D", ProjectName := "p",
    Status := "created", TaskCreator := "alice", TaskRevoker := "alice", TaskCreatorEmail := "",
    TaskCreatorPhone := "", CreateTime := 100, StartTime := 101, EndTime := 0, Error := "",
    IsDebug := true, WorkflowHash := "hash", Params := [], KeyVals := [], ShareStorages := [],
    Stages :=
      [ { Name := "run", Parallel := false, Status := "", StartTime := 0, EndTime := 0,
          Error := "", Approval := none,
          Jobs := [{ Name := "script", Key := "script", JobType := "freestyle", Status := "",
                     StartTime := 0, EndTime := 0, Error := "", BreakpointBefore := true,
                     BreakpointAfter := false, Spec := "rendered" },
                   { Name := "ship", Key := "ship", JobType := "zadig-deploy", Status := "",
                     StartTime := 0, EndTime := 0, Error := "", BreakpointBefore := false,
                     BreakpointAfter := false, Spec := "rendered" }] } ],
    OriginWorkflowArgs := some (stripHooks demoDebugWorkflow),
    WorkflowArgs := some (stripHooks (demoRender demoDebugWorkflow)) }

/-! ## The listing of tasks: cleanWorkflowV4Tasks -/

/-- Modelled from the spec: the approval types `config.ApprovalType`, declared
in the `config` package. -/
def NativeApproval : String := "native"
def LarkApproval : String := "lark"
def DingTalkApproval : String := "dingtalk"

/-- The map literal from approval type to display name; `none` when the key is
missing. -/
def approvalMap (approvalType : String) : Option String :=
  if approvalType = NativeApproval then some "Zadig 审批"
  else if approvalType = LarkApproval then some "飞书审批"
  else if approvalType = DingTalkApproval then some "钉钉审批"
  else none

/-- The loop `for _, stage := range workflow.Stages` that the two cleaning
functions share.  `approval` reads `stage.Approval`, `approvalStage` builds the
synthetic stage, `notRun` is the assignment `stage.Status = StatusNotRun`,
`strip` what else the loop writes into the stage; `stageList` is the list
built so far. -/
def cleanStages {α : Type} (approval : α → Option Approval) (approvalStage : Approval → α)
    (notRun : α → α) (strip : α → α) : List α → List α → List α
  | [], stageList => stageList
  | stage :: rest, stageList =>
    match approval stage with
    | some a =>
      if a.Enabled then
        cleanStages approval approvalStage notRun strip rest
          (stageList ++
            [approvalStage a,
             strip (if a.Status ≠ StatusPassed then notRun stage else stage)])
      else cleanStages approval approvalStage notRun strip rest (stageList ++ [strip stage])
    | none => cleanStages approval approvalStage notRun strip rest (stageList ++ [strip stage])

/-- The synthetic stage of `cleanWorkflowV4Tasks`; indexing the map literal
with a missing key gives the empty name. -/
def approvalStageTask (a : Approval) : StageTask :=
  { Name := (approvalMap a.ApprovalType).getD "", Parallel := false, Status := a.Status,
    StartTime := a.StartTime, EndTime := a.EndTime, Error := "", Approval := none, Jobs := [] }

/-- The inner loop of `cleanWorkflowV4Tasks` over the jobs of a stage. -/
def stripJobs (stage : StageTask) : StageTask :=
  { stage with Jobs := stage.Jobs.map (fun job => { job with Spec := "", Outputs := [], JobInfo := "" }) }

/-- The function `cleanWorkflowV4Tasks`: the tasks after it. -/
def cleanWorkflowV4Tasks (workflows : List WorkflowTask) : List WorkflowTask :=
  workflows.map (fun workflow =>
    { workflow with
      WorkflowArgs := none, OriginWorkflowArgs := none
      Stages := cleanStages (fun stage => stage.Approval) approvalStageTask
        (fun stage => { stage with Status := "" }) stripJobs workflow.Stages [] })

/-- Modelled from the spec: the record `commonmodels.JobPreview` of the task
list, a job by name and type. -/
structure JobPreview where
  Name : String
  JobType : String
deriving DecidableEq, Repr

/-- Modelled from the spec: the record `commonmodels.StagePreview`, with the
fields that the task list fills in. -/
structure StagePreview where
  Name : String
  Status : Status
  StartTime : Int
  EndTime : Int
  Parallel : Bool
  Approval : Option Approval
  Error : String
  Jobs : List JobPreview
deriving DecidableEq, Repr

/-- Modelled from the spec: the record `commonmodels.WorkflowTaskPreview`, with
the fields that `cleanWorkflowV4TasksPreviews` reads or writes and the
identity of the task. -/
structure WorkflowTaskPreview where
  TaskID : Int
  WorkflowName : String
  Status : Status
  Stages : List StagePreview
  WorkflowArgs : Option WorkflowV4
deriving DecidableEq, Repr

/-- The synthetic stage of `cleanWorkflowV4TasksPreviews`; the name is
assigned only when the map has the key. -/
def approvalStagePreview (a : Approval) : StagePreview :=
  match approvalMap a.ApprovalType with
  | some name =>
    { Name := name, Status := a.Status, StartTime := a.StartTime, EndTime := a.EndTime,
      Parallel := false, Approval := none, Error := "", Jobs := [] }
  | none =>
    { Name := "", Status := a.Status, StartTime := a.StartTime, EndTime := a.EndTime,
      Parallel := false, Approval := none, Error := "", Jobs := [] }

/-- The function `cleanWorkflowV4TasksPreviews`: the previews after it. -/
def cleanWorkflowV4TasksPreviews (workflows : List WorkflowTaskPreview) :
    List WorkflowTaskPreview :=
  workflows.map (fun workflow =>
    { workflow with
      WorkflowArgs := none
      Stages := cleanStages (fun stage => stage.Approval) approvalStagePreview
        (fun stage => { stage with Status := "" }) id workflow.Stages [] })

/-- The stages of a task whose gates were decided: `build` has no gate, the
gate of `deploy` passed, the gate of `release` is waiting. -/
def demoGatedStages : List StageTask :=
  [ { Name := "build", Parallel := false, Status := StatusPassed, StartTime := 10, EndTime := 20,
      Error := "", Approval := none,
      Jobs := [{ Name := "compile", Key := "compile", JobType := "zadig-build",
                 Status := StatusPassed, StartTime := 10, EndTime := 20, Error := "",
                 BreakpointBefore := false, BreakpointAfter := false, Spec := "payload",
                 JobInfo := "info", Outputs := ["IMAGE"] }] },
    { Name := "deploy", Parallel := false, Status := StatusPassed, StartTime := 30, EndTime := 40,
      Error := "",
      Approval := some { demoApproval with Status := StatusPassed, StartTime := 21, EndTime := 29 },
      Jobs := [] },
    { Name := "release", Parallel := false, Status := "waitforapprove", StartTime := 41,
      EndTime := 0, Error := "",
      Approval := some { demoApproval with ApprovalType := "lark", Status := "waitforapprove",
                                           StartTime := 41 },
      Jobs := [] } ]

/-- The approval gate of a stage when it is enabled. -/
def enabledGate (approval : Option Approval) : Option Approval :=
  approval.filter (fun a => a.Enabled)

/-- Whether a stage is shown as not run: its approval is enabled and has not
passed. -/
def gateNotPassed (approval : Option Approval) : Bool :=
  match enabledGate approval with
  | some a => decide (a.Status ≠ StatusPassed)
  | none => false

/-! ## jobsToJobPreviews -/

/-- Modelled from the spec: the other job type tags `config.JobType` that
`jobsToJobPreviews` tells apart, declared in the `config` package. -/
def JobZadigDistributeImage : String := "zadig-distribute-image"
def JobZadigDeploy : String := "zadig-deploy"
def JobZadigHelmDeploy : String := "zadig-helm-deploy"
def JobPlugin : String := "plugin"
def JobCustomDeploy : String := "custom-deploy"
def JobK8sCanaryDeploy : String := "k8s-canary-deploy"
def JobK8sCanaryRelease : String := "k8s-canary-release"
def JobK8sBlueGreenDeploy : String := "k8s-blue-green-deploy"
def JobK8sBlueGreenRelease : String := "k8s-blue-green-release"

/-- The value of an `int64` expression: the integer wrapped into the range of
64-bit two's complement. -/
def wrapInt64 (x : Int) : Int :=
  (x + 2 ^ 63) % 2 ^ 64 - 2 ^ 63

/-- The record `JobTaskPreview`; the type-specific `Spec` and the display
fields `JobInfo` are uninterpreted values. -/
structure JobTaskPreview where
  Name : String
  JobType : String
  Status : Status
  StartTime : Int
  EndTime : Int
  CostSeconds : Int
  Error : String
  BreakpointBefore : Bool
  BreakpointAfter : Bool
  Spec : String
  JobInfo : String
deriving DecidableEq, Repr

/-- The collaborators of `jobsToJobPreviews`.  `IToi target spec` converts the
payload of a job task to the record named `target`.  `previewSpec` stands for
the statements of a case of the switch that fill in the type-specific preview
from the converted payload (they read the global context, the environments
and the clusters, and write nothing but the preview spec). -/
structure PreviewEnv where
  IToi : String → String → Except String String
  previewSpec : String → String → JobTask → List (String × String) → String → String

/-- The record that a case of the switch converts the payload to; `none` for
the default case. -/
def taskJobSpecOf (jobType : String) : Option String :=
  if jobType = JobFreestyle ∨ jobType = JobZadigBuild then some "JobTaskFreestyleSpec"
  else if jobType = JobZadigDistributeImage then some "JobTaskFreestyleSpec"
  else if jobType = JobZadigTesting then some "JobTaskFreestyleSpec"
  else if jobType = JobZadigScanning then some "JobTaskFreestyleSpec"
  else if jobType = JobZadigDeploy then some "JobTaskDeploySpec"
  else if jobType = JobZadigHelmDeploy then some "JobTaskHelmDeploySpec"
  else if jobType = JobPlugin then some "JobTaskPluginSpec"
  else if jobType = JobCustomDeploy then some "JobTaskCustomDeploySpec"
  else if jobType = JobK8sCanaryDeploy then some "JobTaskCanaryDeploySpec"
  else if jobType = JobK8sCanaryRelease then some "JobTaskCanaryReleaseSpec"
  else if jobType = JobK8sBlueGreenDeploy then some "JobTaskBlueGreenDeploySpec"
  else if jobType = JobK8sBlueGreenRelease then some "JobTaskBlueGreenReleaseSpec"
  else none

/-- The variable `costSeconds` of an iteration. -/
def costSeconds (now : Int) (job : JobTask) : Int :=
  if job.StartTime ≠ 0 then
    if job.EndTime ≠ 0 then wrapInt64 (job.EndTime - job.StartTime)
    else wrapInt64 (now - job.StartTime)
  else 0

/-- The literal `jobPreview` of an iteration, before the switch. -/
def newJobPreview (now : Int) (job : JobTask) : JobTaskPreview :=
  { Name := job.Name, Status := job.Status, StartTime := job.StartTime, EndTime := job.EndTime,
    Error := job.Error, JobType := job.JobType, BreakpointBefore := job.BreakpointBefore,
    BreakpointAfter := job.BreakpointAfter, CostSeconds := costSeconds now job, Spec := "",
    JobInfo := job.JobInfo }

/-- The job task after an iteration: the case of a helm deploy writes the
deploy tag into `job.JobType`, no other case writes to the job. -/
def previewedJob (job : JobTask) : JobTask :=
  if job.JobType = JobZadigHelmDeploy then { job with JobType := JobZadigDeploy } else job

/-- One iteration of the loop of `jobsToJobPreviews`: the preview that it
appends to `resp`, or `none` when the iteration ends with `continue` because
the payload does not convert. -/
def jobPreviewOf (env : PreviewEnv) (context : List (String × String)) (now : Int)
    (projectName : String) (job : JobTask) : Option JobTaskPreview :=
  match taskJobSpecOf job.JobType with
  | none => some { newJobPreview now job with Spec := job.Spec }
  | some target =>
    match env.IToi target job.Spec with
    | .error _ => none
    | .ok taskJobSpec =>
      some { newJobPreview now job with
        JobType := (previewedJob job).JobType
        Spec := env.previewSpec job.JobType taskJobSpec job context projectName }

/-- The loop of `jobsToJobPreviews`; `resp` is the slice built so far.  It
gives the previews and the job tasks as the loop leaves them. -/
def jobPreviewsLoop (env : PreviewEnv) (context : List (String × String)) (now : Int)
    (projectName : String) :
    List JobTask → List JobTaskPreview → List JobTaskPreview × List JobTask
  | [], resp => (resp, [])
  | job :: rest, resp =>
    match jobPreviewOf env context now projectName job with
    | none =>
      ((jobPreviewsLoop env context now projectName rest resp).1,
        previewedJob job :: (jobPreviewsLoop env context now projectName rest resp).2)
    | some jobPreview =>
      ((jobPreviewsLoop env context now projectName rest (resp ++ [jobPreview])).1,
        previewedJob job ::
          (jobPreviewsLoop env context now projectName rest (resp ++ [jobPreview])).2)

/-- The function `jobsToJobPreviews`: the previews it returns and the job
tasks as it leaves them. -/
def jobsToJobPreviews (env : PreviewEnv) (jobs : List JobTask)
    (context : List (String × String)) (now : Int) (projectName : String) :
    List JobTaskPreview × List JobTask :=
  jobPreviewsLoop env context now projectName jobs []

/-- Collaborators for the previews: the payload `broken` does not convert. -/
def demoPreviewEnv : PreviewEnv :=
  { IToi := fun _ spec => if spec = "broken" then .error "cannot convert" else .ok spec
    previewSpec := fun jobType taskJobSpec _ _ _ => jobType ++ ":" ++ taskJobSpec }

/-- Four job tasks: a finished build, a running freestyle job whose payload
does not convert, a helm deploy that has not started, and a job of a type
without a case of its own. -/
def demoPreviewJobs : List JobTask :=
  [ { Name := "build", Key := "build", JobType := "zadig-build", Status := StatusPassed,
      StartTime := 100, EndTime := 160, Error := "", BreakpointBefore := false,
      BreakpointAfter := false, Spec := "b" },
    { Name := "script", Key := "script", JobType := "freestyle", Status := StatusRunning,
      StartTime := 170, EndTime := 0, Error := "", BreakpointBefore := true,
      BreakpointAfter := false, Spec := "broken" },
    { Name := "helm", Key := "helm", JobType := "zadig-helm-deploy", Status := "",
      StartTime := 0, EndTime := 0, Error := "", BreakpointBefore := false,
      BreakpointAfter := false, Spec := "h" },
    { Name := "notify", Key := "notify", JobType := "notification", Status := StatusRunning,
      StartTime := 180, EndTime := 0, Error := "", BreakpointBefore := false,
      BreakpointAfter := true, Spec := "n" } ]

/-- The cluster of `demoDebugEnv` with a pod on which every remote command
fails: the probes find no sentinel, and `touch` and `rm` fail too. -/
def demoDeafEnv : DebugEnv :=
  { demoDebugEnv with KubeExec := fun _ _ => false }

/-! ## RemoveExtraSpaces -/

/-- The predicate `unicode.IsSpace` of the Go library, by which
`strings.TrimSpace` trims: tab, newline, vertical tab, form feed, carriage
return, space, U+0085, U+00A0, and the other characters with the Unicode
property White_Space. -/
def isSpace (c : Char) : Bool :=
  decide (c.toNat = 0x09) || decide (c.toNat = 0x0A) || decide (c.toNat = 0x0B) ||
  decide (c.toNat = 0x0C) || decide (c.toNat = 0x0D) || decide (c.toNat = 0x20) ||
  decide (c.toNat = 0x85) || decide (c.toNat = 0xA0) || decide (c.toNat = 0x1680) ||
  (decide (0x2000 ≤ c.toNat) && decide (c.toNat ≤ 0x200A)) ||
  decide (c.toNat = 0x2028) || decide (c.toNat = 0x2029) || decide (c.toNat = 0x202F) ||
  decide (c.toNat = 0x205F) || decide (c.toNat = 0x3000)

/-- The class `\s` of the Go `regexp` package: tab, newline, form feed,
carriage return and space. -/
def reSpace (c : Char) : Bool :=
  decide (c.toNat = 0x09) || decide (c.toNat = 0x0A) || decide (c.toNat = 0x0C) ||
  decide (c.toNat = 0x0D) || decide (c.toNat = 0x20)

/-- The function `strings.TrimSpace` on the characters of a string: leading,
then trailing white space is removed. -/
def TrimSpace (s : List Char) : List Char :=
  (s.dropWhile isSpace).rdropWhile isSpace

/-- The call `regex.ReplaceAllString(trimmed, " ")` for the expression `\s+`:
every maximal run of characters of the class is replaced by one space.
`inRun` tells that the character before was of the class. -/
def replaceSpaceRuns (inRun : Bool) : List Char → List Char
  | [] => []
  | c :: rest =>
    if reSpace c then
      if inRun then replaceSpaceRuns true rest else ' ' :: replaceSpaceRuns true rest
    else c :: replaceSpaceRuns false rest

/-- The function `RemoveExtraSpaces`. -/
def RemoveExtraSpaces (input : String) : String :=
  String.mk (replaceSpaceRuns false (TrimSpace input.data))

/-- The fields of a list of characters between the characters that satisfy
`sep`: the first field and the fields after it. -/
def splitFields (sep : Char → Bool) : List Char → List Char × List (List Char)
  | [] => ([], [])
  | c :: rest =>
    if sep c then ([], (splitFields sep rest).1 :: (splitFields sep rest).2)
    else (c :: (splitFields sep rest).1, (splitFields sep rest).2)

/-- The words of a list of characters: the maximal runs of characters that do
not satisfy `sep`, in order. -/
def words (sep : Char → Bool) (s : List Char) : List (List Char) :=
  ((splitFields sep s).1 :: (splitFields sep s).2).filter (fun w => !w.isEmpty)

/-! ## containersChanged -/

/-- The fields of `commonmodels.Container` that `containersChanged` reads. -/
structure Container where
  Name : String
  Image : String
deriving DecidableEq, Repr

/-- The type `sets.String` of the Kubernetes library, a set of strings: the
list of its members, each once. -/
abbrev StringSet := List String

/-- The method `Insert` of `sets.String`. -/
def StringSet.Insert (s : StringSet) (item : String) : StringSet :=
  if item ∈ s then s else s ++ [item]

/-- The method `IsSuperset` of `sets.String`: every member of `s2` is a member
of `s1`. -/
def StringSet.IsSuperset (s1 s2 : StringSet) : Bool :=
  s2.all (fun item => decide (item ∈ s1))

/-- The method `Equal` of `sets.String`: the same number of members, and a
superset. -/
def StringSet.Equal (s1 s2 : StringSet) : Bool :=
  decide (s1.length = s2.length) && StringSet.IsSuperset s1 s2

/-- The key `fmt.Sprintf("%s-%s", container.Name, container.Image)`. -/
def containerKey (container : Container) : String :=
  container.Name ++ "-" ++ container.Image

/-- The two loops of `containersChanged`: the keys of the containers inserted
into a set, starting from `set`. -/
def insertKeys (set : StringSet) : List Container → StringSet
  | [] => set
  | container :: rest => insertKeys (set.Insert (containerKey container)) rest

/-- The function `containersChanged`. -/
def containersChanged (oldContainers newContainers : List Container) : Bool :=
  if oldContainers.length ≠ newContainers.length then true
  else !(StringSet.Equal (insertKeys [] oldContainers) (insertKeys [] newContainers))

/-! ## The statistics calculators -/

/-- The values of type `float64`, the binary64 format of IEEE 754: a finite
value other than the negative zero, as the rational number it stands for; the
negative zero; an infinity; or not-a-number. -/
inductive Float64 where
  | finite (q : ℚ)
  | negZero
  | posInf
  | negInf
  | nan
deriving DecidableEq

/-- The zero of the sign given. -/
def signedZero (negative : Bool) : Float64 :=
  if negative then .negZero else .finite 0

/-- The infinity of the sign given. -/
def signedInf (negative : Bool) : Float64 :=
  if negative then .negInf else .posInf

/-- The integer part of the binary logarithm of `n`, 0 for `n = 0`; the first
argument bounds the number of halvings. -/
def log2Fuel : Nat → Nat → Nat
  | 0, _ => 0
  | fuel + 1, n => if 2 ≤ n then log2Fuel fuel (n / 2) + 1 else 0

/-- The quotient `n / d` rounded to the nearest integer, a tie to the even
one. -/
def roundHalfEven (n d : Nat) : Nat :=
  if d < 2 * (n % d) ∨ (2 * (n % d) = d ∧ (n / d) % 2 = 1) then n / d + 1 else n / d

/-- The `float64` value of the exact result `num / den` with the sign given,
by the rounding of every `float64` operation of Go: to the nearest value of
the format, a tie to the one with an even significand.  The significand has
53 bits; below `2 ^ (-1022)` the values are `2 ^ (-1074)` apart; a result that
rounds to `2 ^ 1024` or more is an infinity, and one that rounds to nothing is
a zero. -/
def roundFraction (negative : Bool) (num den : Nat) : Float64 :=
  if num = 0 then signedZero negative
  else
    let e0 : Int := (log2Fuel num num : Int) - (log2Fuel den den : Int)
    let e : Int :=
      if (if 0 ≤ e0 then den * 2 ^ e0.toNat ≤ num else den ≤ num * 2 ^ (-e0).toNat) then e0
      else e0 - 1
    let k : Int := (if e < -1022 then -1022 else e) - 52
    let m : Nat :=
      if 0 ≤ k then roundHalfEven num (den * 2 ^ k.toNat)
      else roundHalfEven (num * 2 ^ (-k).toNat) den
    if m = 0 then signedZero negative
    else if 1024 ≤ (log2Fuel m m : Int) + k then signedInf negative
    else if 0 ≤ k then
      .finite (mkRat ((if negative then -1 else 1) * (m * 2 ^ k.toNat : Nat)) 1)
    else
      .finite (mkRat ((if negative then -1 else 1) * (m : Int)) (2 ^ (-k).toNat))

/-- The sign bit of a `float64` value. -/
def Float64.isNegative : Float64 → Bool
  | .finite q => decide (q.num < 0)
  | .negZero => true
  | .posInf => false
  | .negInf => true
  | .nan => false

/-- The absolute value of a finite `float64` value, as numerator and
denominator; `none` for the infinities and not-a-number. -/
def Float64.fraction : Float64 → Option (Nat × Nat)
  | .finite q => some (q.num.natAbs, q.den)
  | .negZero => some (0, 1)
  | _ => none

/-- The conversion `float64(n)` of an integer. -/
def Float64.ofInt (n : Int) : Float64 :=
  roundFraction (decide (n < 0)) n.natAbs 1

/-- The product `x * y` of two `float64` values. -/
def Float64.mul (x y : Float64) : Float64 :=
  if x = .nan ∨ y = .nan then .nan
  else
    match x.fraction, y.fraction with
    | some (a, b), some (c, d) => roundFraction (xor x.isNegative y.isNegative) (a * c) (b * d)
    | some (a, _), none => if a = 0 then .nan else signedInf (xor x.isNegative y.isNegative)
    | none, some (c, _) => if c = 0 then .nan else signedInf (xor x.isNegative y.isNegative)
    | none, none => signedInf (xor x.isNegative y.isNegative)

/-- The quotient `x / y` of two `float64` values: a division by zero does not
panic, it gives an infinity, or not-a-number for `0 / 0`. -/
def Float64.div (x y : Float64) : Float64 :=
  if x = .nan ∨ y = .nan then .nan
  else
    match x.fraction, y.fraction with
    | some (a, b), some (c, d) =>
      if c = 0 then
        if a = 0 then .nan else signedInf (xor x.isNegative y.isNegative)
      else roundFraction (xor x.isNegative y.isNegative) (a * d) (b * c)
    | some _, none => signedZero (xor x.isNegative y.isNegative)
    | none, some _ => signedInf (xor x.isNegative y.isNegative)
    | none, none => .nan

/-- Modelled from the spec: the record `models.JobInfo` of a finished job, with
the fields that the calculators read. -/
structure JobInfo where
  Status : String
  Duration : Int
deriving DecidableEq, Repr

/-- The type `util.KeyValue`; the values are strings. -/
structure KeyValue where
  Key : String
  Value : String
deriving DecidableEq, Repr

/-- Modelled from the spec: the field `APIConfig` of a dashboard
configuration. -/
structure APIConfig where
  ExternalSystemId : String
  ApiPath : String
  Queries : List KeyValue
deriving DecidableEq, Repr

/-- Modelled from the spec: the record `StatDashboardConfig`, with the fields
that the calculators read. -/
structure StatDashboardConfig where
  ID : String
  Source : String
  APIConfig : APIConfig
  Weight : Int
  Function : String
deriving DecidableEq, Repr

/-- Modelled from the spec: the record of an external system, with the fields
that the calculators read. -/
structure ExternalSystem where
  Server : String
  Headers : List KeyValue
deriving DecidableEq, Repr

/-- The type `GeneralCalculator`. -/
structure GeneralCalculator where
  Host : String
  Path : String
  Queries : List KeyValue
  Headers : List KeyValue
  Weight : Int
  Function : String
deriving DecidableEq, Repr

/-- The interface `StatCalculator` with its implementations: the general
calculator, and the calculators on the data of the platform, each a type with
a weight and a function. -/
inductive StatCalculator where
  | general (c : GeneralCalculator)
  | zadig (calculator : String) (Weight : Int) (Function : String)
deriving DecidableEq, Repr

/-- A request `httpclient.Get` with its query parameters and headers. -/
structure HttpRequest where
  url : String
  queries : List (String × String)
  headers : List (String × String)
deriving DecidableEq, Repr

/-- The collaborators of the calculators: the collections of job records, of
dashboard configurations and of external systems, and the HTTP client, which
gives the field `data` of the response. -/
structure StatEnv where
  GetBuildJobs : Int → Int → String → Except String (List JobInfo)
  GetDeployJobs : Int → Int → String → Except String (List JobInfo)
  GetProductionDeployJobs : Int → Int → String → Except String (List JobInfo)
  FindByOptions : String → String → Except String StatDashboardConfig
  GetByID : String → Except String ExternalSystem
  Get : HttpRequest → Except String Float64

/-- What `GetFact` returns: the fact, whether it exists, and the error. -/
structure Fact where
  fact : Float64
  present : Bool
  err : Option String
deriving DecidableEq

/-- The variable `daysBetween` of the frequency calculators:
`int(endTime-startTime) / 86400`, an integer division that truncates. -/
def daysBetween (startTime endTime : Int) : Int :=
  Int.tdiv (wrapInt64 (endTime - startTime)) 86400

/-- The method `GetFact` of `BuildFrequencyCalculator`. -/
def BuildFrequencyCalculator.GetFact (env : StatEnv) (startTime endTime : Int)
    (project : String) : Fact :=
  match env.GetBuildJobs startTime endTime project with
  | .error err => { fact := .finite 0, present := false, err := some err }
  | .ok buildJobList =>
    if buildJobList.length = 0 then { fact := .finite 0, present := false, err := none }
    else
      { fact :=
          ((Float64.ofInt buildJobList.length).mul (Float64.ofInt 7)).div
            (Float64.ofInt (daysBetween startTime endTime)),
        present := true, err := none }

/-- The method `GetFact` of `DeployFrequencyCalculator`. -/
def DeployFrequencyCalculator.GetFact (env : StatEnv) (startTime endTime : Int)
    (project : String) : Fact :=
  match env.GetDeployJobs startTime endTime project with
  | .error err => { fact := .finite 0, present := false, err := some err }
  | .ok deployJobList =>
    if deployJobList.length = 0 then { fact := .finite 0, present := false, err := none }
    else
      { fact :=
          ((Float64.ofInt deployJobList.length).mul (Float64.ofInt 7)).div
            (Float64.ofInt (daysBetween startTime endTime)),
        present := true, err := none }

/-- The method `GetFact` of `ReleaseFrequencyCalculator`. -/
def ReleaseFrequencyCalculator.GetFact (env : StatEnv) (startTime endTime : Int)
    (project : String) : Fact :=
  match env.GetProductionDeployJobs startTime endTime project with
  | .error err => { fact := .finite 0, present := false, err := some err }
  | .ok releaseJobList =>
    if releaseJobList.length = 0 then { fact := .finite 0, present := false, err := none }
    else
      { fact :=
          ((Float64.ofInt releaseJobList.length).mul (Float64.ofInt 7)).div
            (Float64.ofInt (daysBetween startTime endTime)),
        present := true, err := none }

/-- Modelled from the spec: the identifiers `config.DashboardDataType...` of
the dashboard items, declared in the `config` package, each with the
calculator type that `CreateCalculatorFromConfig` returns for it. -/
def zadigCalculators : List (String × String) :=
  [ ("test_pass_rate", "TestPassRateCalculator"),
    ("test_average_duration", "TestAverageDurationCalculator"),
    ("build_success_rate", "BuildSuccessRateCalculator"),
    ("build_average_duration", "BuildAverageDurationCalculator"),
    ("build_frequency", "BuildFrequencyCalculator"),
    ("deploy_success_rate", "DeploySuccessRateCalculator"),
    ("deploy_average_duration", "DeployAverageDurationCalculator"),
    ("deploy_frequency", "DeployFrequencyCalculator"),
    ("release_success_rate", "ReleaseSuccessRateCalculator"),
    ("release_average_duration", "ReleaseAverageDurationCalculator"),
    ("release_frequency", "ReleaseFrequencyCalculator") ]

/-- The function `CreateCalculatorFromConfig`. -/
def CreateCalculatorFromConfig (env : StatEnv) (cfg : StatDashboardConfig) :
    Except String StatCalculator :=
  if cfg.Source = "api" then
    match env.GetByID cfg.APIConfig.ExternalSystemId with
    | .error err => .error err
    | .ok externalSystem =>
      .ok (.general
        { Host := externalSystem.Server, Path := cfg.APIConfig.ApiPath,
          Queries := cfg.APIConfig.Queries, Headers := externalSystem.Headers,
          Weight := cfg.Weight, Function := cfg.Function })
  else
    match zadigCalculators.lookup cfg.ID with
    | some calculator => .ok (.zadig calculator cfg.Weight cfg.Function)
    | none => .error ("unsupported config id: " ++ cfg.ID)

/-- The function `strings.TrimSuffix` for the suffix `/`. -/
def trimSlash (s : String) : String :=
  match s.data.reverse with
  | '/' :: rest => String.mk rest.reverse
  | _ => s

/-- An assignment `m[key] = value` to a map of strings. -/
def setKey (m : List (String × String)) (key value : String) : List (String × String) :=
  m.filter (fun kv => kv.1 ≠ key) ++ [(key, value)]

/-- A loop that copies key-value pairs into a map of strings. -/
def mapOf (kvs : List KeyValue) : List (String × String) :=
  kvs.foldl (fun m kv => setKey m kv.Key kv.Value) []

/-- The request that `GetFact` of the general calculator sends;
`formatInt` is `strconv.FormatInt` in base 10. -/
def GeneralCalculator.request (c : GeneralCalculator) (formatInt : Int → String)
    (startTime endTime : Int) (project : String) : HttpRequest :=
  { url := trimSlash c.Host ++ "/" ++ c.Path
    queries :=
      setKey (setKey (setKey (mapOf c.Queries) "start_time" (formatInt startTime))
        "end_time" (formatInt endTime)) "project_name" project
    headers := mapOf c.Headers }

/-- The method `GetFact` of `GeneralCalculator`. -/
def GeneralCalculator.GetFact (env : StatEnv) (formatInt : Int → String) (c : GeneralCalculator)
    (startTime endTime : Int) (project : String) : Fact :=
  match env.Get (c.request formatInt startTime endTime project) with
  | .error err => { fact := .finite 0, present := false, err := some err }
  | .ok data => { fact := data, present := true, err := none }

/-- What a lead-time function leaves behind: the fact or the error it
returns, and the calculator it built, if it came that far. -/
structure LeadTime where
  result : Except String Float64
  caculator : Option GeneralCalculator

/-- The function `GetRequirementDevelopmentLeadTime`. -/
def GetRequirementDevelopmentLeadTime (env : StatEnv) (formatInt : Int → String)
    (startTime endTime : Int) (project : String) : LeadTime :=
  match env.FindByOptions "schedule" "requirement_development_lead_time" with
  | .error err => { result := .error err, caculator := none }
  | .ok boardConfig =>
    match env.GetByID boardConfig.APIConfig.ExternalSystemId with
    | .error err => { result := .error err, caculator := none }
    | .ok externalSystem =>
      let caculator : GeneralCalculator :=
        { Host := boardConfig.APIConfig.ExternalSystemId, Path := boardConfig.APIConfig.ApiPath,
          Queries := boardConfig.APIConfig.Queries, Headers := externalSystem.Headers,
          Weight := boardConfig.Weight, Function := boardConfig.Function }
      match (GeneralCalculator.GetFact env formatInt caculator startTime endTime project).err with
      | some err => { result := .error err, caculator := some caculator }
      | none =>
        { result :=
            .ok (GeneralCalculator.GetFact env formatInt caculator startTime endTime project).fact,
          caculator := some caculator }

/-- The function `GetRequirementDeliveryLeadTime`. -/
def GetRequirementDeliveryLeadTime (env : StatEnv) (formatInt : Int → String)
    (startTime endTime : Int) (project : String) : LeadTime :=
  match env.FindByOptions "schedule" "requirement_delivery_lead_time" with
  | .error err => { result := .error err, caculator := none }
  | .ok boardConfig =>
    match env.GetByID boardConfig.APIConfig.ExternalSystemId with
    | .error err => { result := .error err, caculator := none }
    | .ok externalSystem =>
      let caculator : GeneralCalculator :=
        { Host := boardConfig.APIConfig.ExternalSystemId, Path := boardConfig.APIConfig.ApiPath,
          Queries := boardConfig.APIConfig.Queries, Headers := externalSystem.Headers,
          Weight := boardConfig.Weight, Function := boardConfig.Function }
      match (GeneralCalculator.GetFact env formatInt caculator startTime endTime project).err with
      | some err => { result := .error err, caculator := some caculator }
      | none =>
        { result :=
            .ok (GeneralCalculator.GetFact env formatInt caculator startTime endTime project).fact,
          caculator := some caculator }

/-- The configuration of a lead-time item, fed by the external system `sys-1`. -/
def demoBoardConfig (itemKey : String) : StatDashboardConfig :=
  { ID := itemKey, Source := "api",
    APIConfig := { ExternalSystemId := "sys-1", ApiPath := "api/lead",
                   Queries := [{ Key := "team", Value := "core" }] },
    Weight := 20, Function := "x" }

/-- Collaborators of the calculators: one build, one deploy and one release
in every window; the external system `sys-1` is served at
`https://jira.example.com/`, where the lead time is 3 and a half. -/
def demoStatEnv : StatEnv :=
  { GetBuildJobs := fun _ _ _ => .ok [{ Status := "passed", Duration := 30 }]
    GetDeployJobs := fun _ _ _ => .ok [{ Status := "passed", Duration := 40 }]
    GetProductionDeployJobs := fun _ _ _ => .ok [{ Status := "failed", Duration := 50 }]
    FindByOptions := fun _ itemKey => .ok (demoBoardConfig itemKey)
    GetByID := fun id =>
      if id = "sys-1" then
        .ok { Server := "https://jira.example.com/",
              Headers := [{ Key := "Authorization", Value := "token" }] }
      else .error "external system not found"
    Get := fun request =>
      if request.url = "https://jira.example.com/api/lead" then .ok (.finite (7 / 2))
      else .error "no such host" }

/-- A rendering of integers for the concrete requests. -/
def demoFormatInt (n : Int) : String :=
  if n = 0 then "0" else if n = 3600 then "3600" else "n"

/-! ## Lemmas on the patch phase of the retry -/

theorem retryJobs_passed_kept (m : JobTaskMap) :
    ∀ (js : List JobTask) (j : Nat) (jt : JobTask), js[j]? = some jt →
      jt.Status = StatusPassed → (retryJobs m js).1[j]? = some jt := by
  intro js
  induction js with
  | nil => intro j jt h; simp at h
  | cons hd rest ih =>
    intro j jt h hp
    cases j with
    | zero =>
      simp at h
      subst h
      simp [retryJobs, hp]
    | succ n =>
      simp at h
      unfold retryJobs
      split
      · simpa using ih n jt h hp
      · split
        · simpa using ih n jt h hp
        · simpa using h

theorem retryJobs_keys (m : JobTaskMap) (js : List JobTask) :
    (retryJobs m js).1.map (fun j => (j.Key, j.Name)) = js.map (fun j => (j.Key, j.Name)) := by
  induction js with
  | nil => rfl
  | cons hd rest ih =>
    unfold retryJobs
    split
    · simp [ih]
    · split <;> simp [ih]

theorem retryJobs_reset (m : JobTaskMap) :
    ∀ (js : List JobTask), (retryJobs m js).2 = none →
      ∀ (j : Nat) (jt : JobTask), js[j]? = some jt → jt.Status ≠ StatusPassed →
        ∃ t, m.get jt.Key = some t ∧
          (retryJobs m js).1[j]? =
            some { jt with Status := "", StartTime := 0, EndTime := 0, Error := "", Spec := t.Spec } := by
  intro js
  induction js with
  | nil => intro _ j jt h; simp at h
  | cons hd rest ih =>
    intro hnone j jt h hp
    unfold retryJobs at hnone ⊢
    split at hnone
    · rename_i hpass
      cases j with
      | zero =>
        simp at h
        subst h
        exact absurd hpass hp
      | succ n =>
        simp at h
        simp only [hpass, if_true]
        simpa using ih hnone n jt h hp
    · rename_i hpass
      split at hnone
      · rename_i t ht
        simp only [hpass, if_false, ht]
        cases j with
        | zero =>
          simp at h
          subst h
          exact ⟨t, ht, by simp⟩
        | succ n =>
          simp at h
          simpa using ih hnone n jt h hp
      · simp at hnone

theorem retryStages_passed_kept (o : List WorkflowStage) (m : JobTaskMap) :
    ∀ (ss : List StageTask) (i k : Nat) (s : StageTask), ss[k]? = some s →
      s.Status = StatusPassed → (retryStages o m i ss).1[k]? = some s := by
  intro ss
  induction ss with
  | nil => intro i k s h; simp at h
  | cons hd rest ih =>
    intro i k s h hp
    cases k with
    | zero =>
      simp at h
      subst h
      simp [retryStages, hp]
    | succ n =>
      simp at h
      unfold retryStages
      simp only
      split
      · simpa using ih (i + 1) n s h hp
      · split
        · split
          · simpa using h
          · split
            · simpa using h
            · simpa using ih (i + 1) n s h hp
        · split
          · simpa using h
          · simpa using ih (i + 1) n s h hp

theorem retryStages_shape (o : List WorkflowStage) (m : JobTaskMap) :
    ∀ (ss : List StageTask) (i k : Nat) (s : StageTask), ss[k]? = some s →
      ∃ s', (retryStages o m i ss).1[k]? = some s' ∧ s'.Name = s.Name ∧
        (s'.Jobs = s.Jobs ∨ s'.Jobs = (retryJobs m s.Jobs).1) := by
  intro ss
  induction ss with
  | nil => intro i k s h; simp at h
  | cons hd rest ih =>
    intro i k s h
    cases k with
    | zero =>
      simp at h
      subst h
      unfold retryStages
      simp only
      split
      · simp
      · split
        · split
          · simp
          · split
            · simp
            · simp
        · split
          · simp
          · simp
    | succ n =>
      simp at h
      unfold retryStages
      simp only
      split
      · simpa using ih (i + 1) n s h
      · split
        · split
          · exact ⟨s, by simpa using h, rfl, Or.inl rfl⟩
          · split
            · exact ⟨s, by simpa using h, rfl, Or.inl rfl⟩
            · simpa using ih (i + 1) n s h
        · split
          · exact ⟨s, by simpa using h, rfl, Or.inl rfl⟩
          · simpa using ih (i + 1) n s h

theorem retryStages_length (o : List WorkflowStage) (m : JobTaskMap) :
    ∀ (ss : List StageTask) (i : Nat), (retryStages o m i ss).1.length = ss.length := by
  intro ss
  induction ss with
  | nil => intro i; rfl
  | cons hd rest ih =>
    intro i
    unfold retryStages
    simp only
    split
    · simp [ih]
    · split
      · split
        · simp
        · split <;> simp [ih]
      · split <;> simp [ih]

theorem retryStages_reset (o : List WorkflowStage) (m : JobTaskMap) :
    ∀ (ss : List StageTask) (i : Nat), (retryStages o m i ss).2 = .ok →
      ∀ (k : Nat) (s : StageTask), ss[k]? = some s → s.Status ≠ StatusPassed →
        ∃ s', (retryStages o m i ss).1[k]? = some s' ∧ s'.Status = "" ∧ s'.StartTime = 0 ∧
          s'.EndTime = 0 ∧ s'.Error = "" ∧ (retryJobs m s.Jobs).2 = none ∧
          s'.Jobs = (retryJobs m s.Jobs).1 := by
  intro ss
  induction ss with
  | nil => intro i _ k s h; simp at h
  | cons hd rest ih =>
    intro i hok k s h hp
    unfold retryStages at hok ⊢
    simp only at hok ⊢
    split at hok
    · rename_i hpass
      simp only [hpass, if_true]
      cases k with
      | zero =>
        simp at h
        subst h
        exact absurd hpass hp
      | succ n =>
        simp at h
        simpa using ih (i + 1) hok n s h hp
    · rename_i hpass
      simp only [hpass, if_false]
      split at hok
      · rename_i hreset
        simp only [hreset, if_true]
        split at hok
        · simp at hok
        · rename_i originStage hget
          split at hok
          · simp at hok
          · rename_i hjobs
            simp only [hjobs]
            cases k with
            | zero =>
              simp at h
              subst h
              simp [hjobs]
            | succ n =>
              simp at h
              simpa using ih (i + 1) hok n s h hp
      · rename_i hreset
        simp only [hreset]
        split at hok
        · simp at hok
        · rename_i hjobs
          try simp only [hjobs]
          cases k with
          | zero =>
            simp at h
            subst h
            simp [hjobs]
          | succ n =>
            simp at h
            simpa using ih (i + 1) hok n s h hp

/-! ## Lemmas on the whole retry -/

theorem retry_task_shape (env : RetryEnv) (workflowName : String) (taskID : Int)
    (task : WorkflowTask) (hfind : env.FindTask workflowName taskID = .ok task) :
    ∃ task', (RetryWorkflowTaskV4 env workflowName taskID).task = some task' ∧
      (task'.Stages = task.Stages ∨
        ∃ o m, task'.Stages = (retryStages o m 0 task.Stages).1) := by
  cases hst : retryableStatus task.Status with
  | false => exact ⟨task, by simp [RetryWorkflowTaskV4, hfind, hst], Or.inl rfl⟩
  | true =>
    cases horigin : task.OriginWorkflowArgs.bind (fun o => o.Stages) with
    | none => exact ⟨task, by simp [RetryWorkflowTaskV4, hfind, hst, horigin], Or.inl rfl⟩
    | some originStages =>
      cases hargs : task.WorkflowArgs with
      | none => exact ⟨task, by simp [RetryWorkflowTaskV4, hfind, hst, horigin, hargs], Or.inl rfl⟩
      | some args =>
        cases hmap : expandStagesInto env args taskID args.stageList [] with
        | error e =>
          exact ⟨task, by simp [RetryWorkflowTaskV4, hfind, hst, horigin, hargs, hmap], Or.inl rfl⟩
        | ok jobTaskMap =>
          cases hpatched : (retryStages originStages jobTaskMap 0 task.Stages).2 with
          | ok =>
            cases hupd : env.UpdateTask
                (resumedTask task (retryStages originStages jobTaskMap 0 task.Stages).1 env.Now) with
            | none =>
              refine ⟨resumedTask task (retryStages originStages jobTaskMap 0 task.Stages).1 env.Now,
                ?_, Or.inr ⟨originStages, jobTaskMap, rfl⟩⟩
              simp [RetryWorkflowTaskV4, hfind, hst, horigin, hargs, hmap, hpatched, hupd]
            | some e =>
              refine ⟨resumedTask task (retryStages originStages jobTaskMap 0 task.Stages).1 env.Now,
                ?_, Or.inr ⟨originStages, jobTaskMap, rfl⟩⟩
              simp [RetryWorkflowTaskV4, hfind, hst, horigin, hargs, hmap, hpatched, hupd]
          | error msg =>
            refine ⟨{ task with Stages := (retryStages originStages jobTaskMap 0 task.Stages).1 },
              ?_, Or.inr ⟨originStages, jobTaskMap, rfl⟩⟩
            simp [RetryWorkflowTaskV4, hfind, hst, horigin, hargs, hmap, hpatched]
          | panic =>
            refine ⟨{ task with Stages := (retryStages originStages jobTaskMap 0 task.Stages).1 },
              ?_, Or.inr ⟨originStages, jobTaskMap, rfl⟩⟩
            simp [RetryWorkflowTaskV4, hfind, hst, horigin, hargs, hmap, hpatched]

theorem retry_ok_inv (env : RetryEnv) (workflowName : String) (taskID : Int)
    (hok : (RetryWorkflowTaskV4 env workflowName taskID).outcome = .ok) :
    ∃ task originStages args jobTaskMap,
      env.FindTask workflowName taskID = .ok task ∧
      retryableStatus task.Status = true ∧
      task.OriginWorkflowArgs.bind (fun o => o.Stages) = some originStages ∧
      task.WorkflowArgs = some args ∧
      expandStagesInto env args taskID args.stageList [] = .ok jobTaskMap ∧
      (retryStages originStages jobTaskMap 0 task.Stages).2 = .ok ∧
      RetryWorkflowTaskV4 env workflowName taskID =
        { outcome := .ok,
          task := some (resumedTask task (retryStages originStages jobTaskMap 0 task.Stages).1 env.Now),
          calls := [.FindTask workflowName taskID,
            .SendWorkflowTaskNotifications
              (resumedTask task (retryStages originStages jobTaskMap 0 task.Stages).1 env.Now),
            .UpdateTask
              (resumedTask task (retryStages originStages jobTaskMap 0 task.Stages).1 env.Now)] } := by
  cases hfind : env.FindTask workflowName taskID with
  | error e => simp [RetryWorkflowTaskV4, hfind] at hok
  | ok task =>
  cases hst : retryableStatus task.Status with
  | false => simp [RetryWorkflowTaskV4, hfind, hst] at hok
  | true =>
  cases horigin : task.OriginWorkflowArgs.bind (fun o => o.Stages) with
  | none => simp [RetryWorkflowTaskV4, hfind, hst, horigin] at hok
  | some originStages =>
  cases hargs : task.WorkflowArgs with
  | none => simp [RetryWorkflowTaskV4, hfind, hst, horigin, hargs] at hok
  | some args =>
  cases hmap : expandStagesInto env args taskID args.stageList [] with
  | error e => simp [RetryWorkflowTaskV4, hfind, hst, horigin, hargs, hmap] at hok
  | ok jobTaskMap =>
  cases hpatched : (retryStages originStages jobTaskMap 0 task.Stages).2 with
  | error msg => simp [RetryWorkflowTaskV4, hfind, hst, horigin, hargs, hmap, hpatched] at hok
  | panic => simp [RetryWorkflowTaskV4, hfind, hst, horigin, hargs, hmap, hpatched] at hok
  | ok =>
  cases hupd : env.UpdateTask
      (resumedTask task (retryStages originStages jobTaskMap 0 task.Stages).1 env.Now) with
  | some e => simp [RetryWorkflowTaskV4, hfind, hst, horigin, hargs, hmap, hpatched, hupd] at hok
  | none =>
    refine ⟨task, originStages, args, jobTaskMap, rfl, hst, horigin, hargs, hmap, hpatched, ?_⟩
    simp [RetryWorkflowTaskV4, hfind, hst, horigin, hargs, hmap, hpatched, hupd]

end Zadig

namespace Zadig

/-- The payload of a job task after the patch phase is the one it had or the
one of the job task that the map holds for its key. -/
theorem retryJobs_source (m : JobTaskMap) :
    ∀ (js : List JobTask) (j : Nat) (jt : JobTask), js[j]? = some jt →
      ∃ jt', (retryJobs m js).1[j]? = some jt' ∧
        (jt'.Spec = jt.Spec ∨ ∃ t, m.get jt.Key = some t ∧ jt'.Spec = t.Spec) := by
  intro js
  induction js with
  | nil => intro j jt h; simp at h
  | cons hd rest ih =>
    intro j jt h
    unfold retryJobs
    split
    · cases j with
      | zero =>
        simp at h
        subst h
        exact ⟨hd, by simp, Or.inl rfl⟩
      | succ n =>
        simp at h
        simpa using ih n jt h
    · split
      · rename_i t ht
        cases j with
        | zero =>
          simp at h
          subst h
          exact ⟨{ hd with Status := "", StartTime := 0, EndTime := 0, Error := "",
                           Spec := t.Spec }, by simp, Or.inr ⟨t, ht, rfl⟩⟩
        | succ n =>
          simp at h
          simpa using ih n jt h
      · cases j with
        | zero =>
          simp at h
          subst h
          exact ⟨{ hd with Status := "", StartTime := 0, EndTime := 0, Error := "" },
            by simp, Or.inl rfl⟩
        | succ n =>
          simp at h
          exact ⟨jt, by simpa using h, Or.inl rfl⟩

/-- The task object at the end of a run, whatever its outcome: its stages are
those of the loaded task, or those that the patch phase leaves with the map
filled by the expansion of the working copy. -/
theorem retry_task_source (env : RetryEnv) (workflowName : String) (taskID : Int)
    (task : WorkflowTask) (args : WorkflowV4)
    (hfind : env.FindTask workflowName taskID = .ok task)
    (hargs : task.WorkflowArgs = some args) :
    ∃ task', (RetryWorkflowTaskV4 env workflowName taskID).task = some task' ∧
      (task'.Stages = task.Stages ∨
        ∃ o m, expandStagesInto env args taskID args.stageList [] = .ok m ∧
          task'.Stages = (retryStages o m 0 task.Stages).1) := by
  cases hst : retryableStatus task.Status with
  | false => exact ⟨task, by simp [RetryWorkflowTaskV4, hfind, hst], Or.inl rfl⟩
  | true =>
    cases horigin : task.OriginWorkflowArgs.bind (fun o => o.Stages) with
    | none => exact ⟨task, by simp [RetryWorkflowTaskV4, hfind, hst, horigin], Or.inl rfl⟩
    | some originStages =>
      cases hmap : expandStagesInto env args taskID args.stageList [] with
      | error e =>
        exact ⟨task, by simp [RetryWorkflowTaskV4, hfind, hst, horigin, hargs, hmap], Or.inl rfl⟩
      | ok jobTaskMap =>
        cases hpatched : (retryStages originStages jobTaskMap 0 task.Stages).2 with
        | ok =>
          cases hupd : env.UpdateTask
              (resumedTask task (retryStages originStages jobTaskMap 0 task.Stages).1 env.Now) with
          | none =>
            refine ⟨resumedTask task (retryStages originStages jobTaskMap 0 task.Stages).1 env.Now,
              ?_, Or.inr ⟨originStages, jobTaskMap, rfl, rfl⟩⟩
            simp [RetryWorkflowTaskV4, hfind, hst, horigin, hargs, hmap, hpatched, hupd]
          | some e =>
            refine ⟨resumedTask task (retryStages originStages jobTaskMap 0 task.Stages).1 env.Now,
              ?_, Or.inr ⟨originStages, jobTaskMap, rfl, rfl⟩⟩
            simp [RetryWorkflowTaskV4, hfind, hst, horigin, hargs, hmap, hpatched, hupd]
        | error msg =>
          refine ⟨{ task with Stages := (retryStages originStages jobTaskMap 0 task.Stages).1 },
            ?_, Or.inr ⟨originStages, jobTaskMap, rfl, rfl⟩⟩
          simp [RetryWorkflowTaskV4, hfind, hst, horigin, hargs, hmap, hpatched]
        | panic =>
          refine ⟨{ task with Stages := (retryStages originStages jobTaskMap 0 task.Stages).1 },
            ?_, Or.inr ⟨originStages, jobTaskMap, rfl, rfl⟩⟩
          simp [RetryWorkflowTaskV4, hfind, hst, horigin, hargs, hmap, hpatched]

theorem retryStages_names (o : List WorkflowStage) (m : JobTaskMap) :
    ∀ (ss : List StageTask) (i : Nat),
      (retryStages o m i ss).1.map (fun s => s.Name) = ss.map (fun s => s.Name) := by
  intro ss
  induction ss with
  | nil => intro i; rfl
  | cons hd rest ih =>
    intro i
    unfold retryStages
    simp only
    split
    · simp [ih]
    · split
      · split
        · simp
        · split <;> simp [ih]
      · split <;> simp [ih]

theorem retryStages_jobKeys (o : List WorkflowStage) (m : JobTaskMap) :
    ∀ (ss : List StageTask) (i : Nat),
      (retryStages o m i ss).1.map (fun s => s.Jobs.map (fun j => (j.Key, j.Name))) =
        ss.map (fun s => s.Jobs.map (fun j => (j.Key, j.Name))) := by
  intro ss
  induction ss with
  | nil => intro i; rfl
  | cons hd rest ih =>
    intro i
    unfold retryStages
    simp only
    split
    · simp [ih]
    · split
      · split
        · simp
        · split <;> simp [ih, retryJobs_keys]
      · split <;> simp [ih, retryJobs_keys]

/-! ## Lemmas on the expansion phase of the retry -/

theorem insertJobTasks_eq (ts : List JobTask) :
    ∀ m : JobTaskMap, insertJobTasks m ts = (ts.map (fun t => (t.Key, t))).reverse ++ m := by
  induction ts with
  | nil => intro m; rfl
  | cons hd rest ih =>
    intro m
    simp [insertJobTasks, ih, JobTaskMap.set]

theorem expandJobsInto_eq (env : RetryEnv) (args : WorkflowV4) (taskID : Int) :
    ∀ (jobs : List Job) (m : JobTaskMap),
      expandJobsInto env args taskID jobs m =
        match expandJobList env args taskID jobs with
        | .error err => .error err
        | .ok fresh => .ok ((fresh.map (fun t => (t.Key, t))).reverse ++ m) := by
  intro jobs
  induction jobs with
  | nil => intro m; simp [expandJobsInto, expandJobList]
  | cons job rest ih =>
    intro m
    cases hctl : env.InitJobCtl job args with
    | error err => simp [expandJobsInto, expandJobList, expandJob, hctl]
    | ok jobCtl =>
      cases hjobs : jobCtl.ToJobs taskID with
      | error err => simp [expandJobsInto, expandJobList, expandJob, hctl, hjobs]
      | ok jobTasks =>
        cases hrest : expandJobList env args taskID rest with
        | error err =>
          simp [expandJobsInto, expandJobList, expandJob, hctl, hjobs, ih, hrest]
        | ok more =>
          simp [expandJobsInto, expandJobList, expandJob, hctl, hjobs, ih, hrest,
            insertJobTasks_eq]

theorem expandJobList_append (env : RetryEnv) (args : WorkflowV4) (taskID : Int) :
    ∀ (xs ys : List Job),
      expandJobList env args taskID (xs ++ ys) =
        match expandJobList env args taskID xs with
        | .error err => .error err
        | .ok fresh =>
          match expandJobList env args taskID ys with
          | .error err => .error err
          | .ok more => .ok (fresh ++ more) := by
  intro xs
  induction xs with
  | nil =>
    intro ys
    simp only [List.nil_append, expandJobList]
    cases expandJobList env args taskID ys <;> simp
  | cons job rest ih =>
    intro ys
    cases hjob : expandJob env args taskID job with
    | error err => simp [expandJobList, hjob]
    | ok jobTasks =>
      cases hrest : expandJobList env args taskID rest with
      | error err => simp [expandJobList, hjob, ih, hrest]
      | ok fresh =>
        cases hys : expandJobList env args taskID ys with
        | error err => simp [expandJobList, hjob, ih, hrest, hys]
        | ok more => simp [expandJobList, hjob, ih, hrest, hys]

theorem expandStagesInto_eq (env : RetryEnv) (args : WorkflowV4) (taskID : Int) :
    ∀ (stages : List WorkflowStage) (m : JobTaskMap),
      expandStagesInto env args taskID stages m =
        match expandJobList env args taskID (stages.flatMap (fun stage => stage.Jobs)) with
        | .error err => .error err
        | .ok fresh => .ok ((fresh.map (fun t => (t.Key, t))).reverse ++ m) := by
  intro stages
  induction stages with
  | nil => intro m; simp [expandStagesInto, expandJobList]
  | cons stage rest ih =>
    intro m
    cases hstage : expandJobList env args taskID stage.Jobs with
    | error err =>
      simp [expandStagesInto, expandJobList_append, expandJobsInto_eq, hstage]
    | ok fresh =>
      cases hrest : expandJobList env args taskID (rest.flatMap (fun stage => stage.Jobs)) with
      | error err =>
        simp [expandStagesInto, expandJobList_append, expandJobsInto_eq, hstage, ih, hrest]
      | ok more =>
        simp [expandStagesInto, expandJobList_append, expandJobsInto_eq, hstage, ih, hrest]

theorem jobTaskMap_get_fresh (fresh : List JobTask) (k : String) :
    JobTaskMap.get ((fresh.map (fun t => (t.Key, t))).reverse ++ []) k = freshByKey fresh k := by
  simp only [JobTaskMap.get, freshByKey, List.append_nil, ← List.map_reverse, List.find?_map,
    Option.map_map]
  have : ((fun p : String × JobTask => p.2) ∘ fun t : JobTask => (t.Key, t)) = id := rfl
  rw [this]
  simp
  rfl

theorem expandJobList_mem (env : RetryEnv) (args : WorkflowV4) (taskID : Int) :
    ∀ (jobs : List Job) (fresh : List JobTask), expandJobList env args taskID jobs = .ok fresh →
      ∀ t ∈ fresh, ∃ job ∈ jobs, ∃ ts, expandJob env args taskID job = .ok ts ∧ t ∈ ts := by
  intro jobs
  induction jobs with
  | nil =>
    intro fresh h t ht
    simp [expandJobList] at h
    subst h
    simp at ht
  | cons job rest ih =>
    intro fresh h t ht
    simp only [expandJobList] at h
    cases hjob : expandJob env args taskID job with
    | error err => simp [hjob] at h
    | ok jobTasks =>
      cases hrest : expandJobList env args taskID rest with
      | error err => simp [hjob, hrest] at h
      | ok more =>
        simp [hjob, hrest] at h
        subst h
        rcases List.mem_append.mp ht with hl | hr
        · exact ⟨job, by simp, jobTasks, hjob, hl⟩
        · obtain ⟨job', hmem, ts, hts, htin⟩ := ih more hrest t hr
          exact ⟨job', by simp [hmem], ts, hts, htin⟩

theorem freshByKey_spec (fresh : List JobTask) (k : String) (t : JobTask)
    (h : freshByKey fresh k = some t) : t ∈ fresh ∧ t.Key = k := by
  unfold freshByKey at h
  have hmem := List.mem_of_find?_eq_some h
  have hp := List.find?_some h
  exact ⟨by simpa using hmem, by simpa using hp⟩

end Zadig
namespace Zadig

/-! ## Lemmas on the lint and the stage loop of the instantiator -/

theorem lintStages_none_iff (workflowName : String) (taskID : Int) (stages : List StageTask) :
    lintStages workflowName taskID stages = none ↔ ∀ s ∈ stages, s.Jobs ≠ [] := by
  induction stages with
  | nil => simp [lintStages]
  | cons hd rest ih =>
    unfold lintStages
    by_cases h : hd.Jobs.length ≤ 0
    · have : hd.Jobs = [] := by
        cases hj : hd.Jobs with
        | nil => rfl
        | cons a l => simp [hj] at h
      simp [this]
    · have : hd.Jobs ≠ [] := by
        intro hnil
        simp [hnil] at h
      simp [h, ih, this]

theorem workflowTaskLint_none_iff (t : WorkflowTask) :
    workflowTaskLint t = none ↔ t.Stages ≠ [] ∧ ∀ s ∈ t.Stages, s.Jobs ≠ [] := by
  unfold workflowTaskLint
  by_cases h : t.Stages.length ≤ 0
  · have : t.Stages = [] := by
      cases hs : t.Stages with
      | nil => rfl
      | cons a l => simp [hs] at h
    simp [this]
  · have : t.Stages ≠ [] := by
      intro hnil
      simp [hnil] at h
    simp [h, this, lintStages_none_iff]

theorem expandStageJobs_eq (env : CreateEnv) (workflow : WorkflowV4) (nextTaskID : Int)
    (isDebug : Bool) :
    ∀ (jobs : List Job) (acc r : List JobTask),
      expandStageJobs env workflow nextTaskID isDebug jobs acc = .ok r →
        r = acc ++ (stageFanOut env workflow nextTaskID jobs).map (markBreakpoint isDebug) ∧
        ∀ job ∈ jobs, env.JobSkiped job = false →
          ∃ out, env.ToJobs job workflow nextTaskID = .ok out := by
  intro jobs
  induction jobs with
  | nil =>
    intro acc r h
    simp [expandStageJobs] at h
    simp [stageFanOut, h]
  | cons job rest ih =>
    intro acc r h
    unfold expandStageJobs at h
    cases hskip : env.JobSkiped job with
    | true =>
      simp only [hskip, if_true] at h
      obtain ⟨hr, hall⟩ := ih acc r h
      refine ⟨?_, ?_⟩
      · simpa [stageFanOut, hskip] using hr
      · intro job' hmem hns
        rcases List.mem_cons.mp hmem with heq | hin
        · subst heq
          simp [hskip] at hns
        · exact hall job' hin hns
    | false =>
      simp only [hskip] at h
      cases hjobs : env.ToJobs job workflow nextTaskID with
      | error err => simp [hjobs] at h
      | ok out =>
        simp only [hjobs] at h
        obtain ⟨hr, hall⟩ := ih _ r (by simpa using h)
        refine ⟨?_, ?_⟩
        · rw [hr]
          simp [stageFanOut, hskip, hjobs]
        · intro job' hmem hns
          rcases List.mem_cons.mp hmem with heq | hin
          · subst heq
            exact ⟨out, hjobs⟩
          · exact hall job' hin hns

theorem createStages_views (env : CreateEnv) (args : CreateWorkflowTaskV4Args) (nextTaskID : Int)
    (isDebug : Bool) :
    ∀ (indices : List Nat) (heap : WorkflowHeap) (acc : List StageTaskCell)
      (built : WorkflowHeap × List StageTaskCell),
      createStages env args nextTaskID isDebug indices heap acc = .ok built →
        ∃ views, stageViews env args nextTaskID indices heap = .ok (views, built.1) ∧
          views.length = indices.length ∧
          (∀ last : WorkflowHeap,
            built.2.map (StageTaskCell.read last) =
              acc.map (StageTaskCell.read last) ++
                (views.map (StageView.stageTask env nextTaskID isDebug last)).filter
                  (fun s => decide (s.Jobs.length > 0))) ∧
          ∀ v ∈ views, ∀ job ∈ v.jobs, env.JobSkiped job = false →
            ∃ out, env.ToJobs job v.workflow nextTaskID = .ok out := by
  intro indices
  induction indices with
  | nil =>
    intro heap acc built h
    simp [createStages] at h
    subst h
    exact ⟨[], by simp [stageViews], rfl, by simp, by simp⟩
  | cons index rest ih =>
    intro heap acc built h
    unfold createStages at h
    cases hprep : prepareJobs env (heap.stage (heap.slot index)).Jobs with
    | error err => simp [hprep] at h
    | ok jobs1 =>
      simp only [hprep] at h
      cases hrender : env.RenderStageVariables (heap.setJobs (heap.slot index) jobs1) nextTaskID args.Name with
      | error err => simp [hrender] at h
      | ok heap2 =>
        simp only [hrender] at h
        cases hexp : expandStageJobs env heap2.read nextTaskID isDebug
            (heap2.stage (heap.slot index)).Jobs [] with
        | error err => simp [hexp] at h
        | ok stageJobs =>
          simp only [hexp] at h
          obtain ⟨hjobs, hall⟩ := expandStageJobs_eq env heap2.read nextTaskID isDebug _ _ _ hexp
          obtain ⟨views, hviews, hlen, hbuilt, hrest⟩ := ih heap2 _ built h
          simp only [List.nil_append] at hjobs
          refine ⟨{ Name := (heap.stage (heap.slot index)).Name, Parallel := (heap.stage (heap.slot index)).Parallel,
                    Approval := (heap.stage (heap.slot index)).Approval, workflow := heap2.read,
                    jobs := (heap2.stage (heap.slot index)).Jobs } :: views, ?_, ?_, ?_, ?_⟩
          · simp [stageViews, hprep, hrender, hviews]
          · simp [hlen]
          · intro last
            rw [hbuilt last]
            by_cases hlen : stageJobs.length > 0
            · have hlen' : 0 < (stageFanOut env heap2.read nextTaskID (heap2.stage (heap.slot index)).Jobs).length := by
                rw [hjobs] at hlen
                simpa using hlen
              simp [hlen, hlen', StageView.stageTask, StageTaskCell.read, hjobs, List.filter_cons]
            · have hlen' : ¬ 0 < (stageFanOut env heap2.read nextTaskID (heap2.stage (heap.slot index)).Jobs).length := by
                rw [hjobs] at hlen
                simpa using hlen
              simp only [hlen, if_false]
              simp [hlen', StageView.stageTask, List.filter_cons]
          · intro v hv
            rcases List.mem_cons.mp hv with heq | hin
            · subst heq
              exact hall
            · exact hrest v hin

end Zadig
namespace Zadig

/-! ## Lemmas on the whole instantiation -/

theorem createFromStages_cases (env : CreateEnv) (args : CreateWorkflowTaskV4Args)
    (resp : CreateTaskV4Resp) (calls : List Call) (workflowTask : WorkflowTask)
    (workflow : WorkflowV4) :
    ((∃ msg, (createFromStages env args resp calls workflowTask workflow).outcome = .error msg) ∧
      (createFromStages env args resp calls workflowTask workflow).calls = calls ∧
      ∀ built, createStages env args workflowTask.TaskID workflowTask.IsDebug
          (List.range workflow.stageList.length) (WorkflowHeap.alloc workflow) []
            = .ok built →
        workflowTaskLint
          { workflowTask with Stages := built.2.map (StageTaskCell.read built.1) } = none →
        ∃ err, env.FillServiceModules2Jobs (stripHooks built.1.read) = .error err) ∨
    (∃ built workflowArgs,
      createStages env args workflowTask.TaskID workflowTask.IsDebug
        (List.range workflow.stageList.length) (WorkflowHeap.alloc workflow) []
          = .ok built ∧
      workflowTaskLint
        { workflowTask with Stages := built.2.map (StageTaskCell.read built.1) } = none ∧
      env.FillServiceModules2Jobs (stripHooks built.1.read) = .ok workflowArgs ∧
      (createFromStages env args resp calls workflowTask workflow).calls =
        calls ++
          [.SendWorkflowTaskNotifications
              (finishedWorkflowTask workflowTask (built.2.map (StageTaskCell.read built.1))
                workflowArgs env.StartTimeNow),
            .CreateTask
              (finishedWorkflowTask workflowTask (built.2.map (StageTaskCell.read built.1))
                workflowArgs env.StartTimeNow)] ∧
      ((createFromStages env args resp calls workflowTask workflow).outcome = .ok ∨
        ∃ msg, (createFromStages env args resp calls workflowTask workflow).outcome = .error msg)) := by
  cases hbuilt : createStages env args workflowTask.TaskID workflowTask.IsDebug
      (List.range workflow.stageList.length) (WorkflowHeap.alloc workflow) [] with
  | error err =>
    left
    simp [createFromStages, hbuilt]
  | ok built =>
    cases hlint : workflowTaskLint
        { workflowTask with Stages := built.2.map (StageTaskCell.read built.1) } with
    | some err =>
      left
      simp [createFromStages, hbuilt, hlint]
    | none =>
      cases hfill : env.FillServiceModules2Jobs (stripHooks built.1.read) with
      | error err =>
        left
        simp [createFromStages, hbuilt, hlint, hfill]
      | ok workflowArgs =>
        right
        refine ⟨built, workflowArgs, rfl, hlint, hfill, ?_⟩
        cases hcreate : env.CreateTask
            (finishedWorkflowTask workflowTask (built.2.map (StageTaskCell.read built.1))
              workflowArgs env.StartTimeNow) with
        | none => simp [createFromStages, hbuilt, hlint, hfill, hcreate]
        | some err => simp [createFromStages, hbuilt, hlint, hfill, hcreate]

theorem createFromSnapshot_cases (env : CreateEnv) (args : CreateWorkflowTaskV4Args)
    (resp : CreateTaskV4Resp) (hash : String) (user : Option UserInfo) (workflow : WorkflowV4) :
    ((∃ msg, (createFromSnapshot env args resp hash user workflow).outcome = .error msg) ∧
      ∀ t, Call.CreateTask t ∉ (createFromSnapshot env args resp hash user workflow).calls) ∨
    (∃ originTaskArgs nextTaskID workflow2 workflow3,
      env.IToi workflow = .ok originTaskArgs ∧
      env.GetNextSeq (env.WorkflowTaskV4Fmt workflow.Name) = .ok nextTaskID ∧
      env.RemoveFixedValueMarks workflow = .ok workflow2 ∧
      env.RenderGlobalVariables workflow2 nextTaskID args.Name = .ok workflow3 ∧
      createFromSnapshot env args resp hash user workflow =
        createFromStages env args { resp with TaskID := nextTaskID }
          [.GetNextSeq (env.WorkflowTaskV4Fmt workflow.Name)]
          (initialWorkflowTask env args user (stripHooks originTaskArgs) nextTaskID hash
            (setZadigParamRepos env workflow3))
          (setZadigParamRepos env workflow3)) := by
  cases hitoi : env.IToi workflow with
  | error err => left; simp [createFromSnapshot, hitoi]
  | ok originTaskArgs =>
  cases hseq : env.GetNextSeq (env.WorkflowTaskV4Fmt workflow.Name) with
  | error err => left; simp [createFromSnapshot, hitoi, hseq]
  | ok nextTaskID =>
  cases hmarks : env.RemoveFixedValueMarks workflow with
  | error err => left; simp [createFromSnapshot, hitoi, hseq, hmarks]
  | ok workflow2 =>
  cases hglobal : env.RenderGlobalVariables workflow2 nextTaskID args.Name with
  | error err => left; simp [createFromSnapshot, hitoi, hseq, hmarks, hglobal]
  | ok workflow3 =>
    right
    refine ⟨originTaskArgs, nextTaskID, workflow2, workflow3, ?_, ?_, ?_, ?_, ?_⟩
    · rfl
    · rfl
    · rfl
    · exact hglobal
    · simp [createFromSnapshot, hitoi, hseq, hmarks, hglobal]

theorem create_cases (env : CreateEnv) (args : CreateWorkflowTaskV4Args) (workflow : WorkflowV4) :
    ((∃ msg, (CreateWorkflowTaskV4 env args workflow).outcome = .error msg) ∧
      ∀ t, Call.CreateTask t ∉ (CreateWorkflowTaskV4 env args workflow).calls) ∨
    (∃ hash workflow1 user,
      env.InstantiateWorkflow workflow = .ok workflow1 ∧
      CreateWorkflowTaskV4 env args workflow =
        createFromSnapshot env args
          { ProjectName := workflow.Project, WorkflowName := workflow.Name, TaskID := 0 }
          hash user workflow1) := by
  cases hlint : env.LintWorkflowV4 workflow with
  | some err => left; simp [CreateWorkflowTaskV4, hlint]
  | none =>
  cases hhash : env.FindWorkflowHash workflow.Name with
  | error err => left; simp [CreateWorkflowTaskV4, hlint, hhash]
  | ok hash =>
  cases hinst : env.InstantiateWorkflow workflow with
  | error err => left; simp [CreateWorkflowTaskV4, hlint, hhash, hinst]
  | ok workflow1 =>
  cases huser : lookupUser env args with
  | error err => left; simp [CreateWorkflowTaskV4, hlint, hhash, hinst, huser]
  | ok user =>
    right
    refine ⟨hash, workflow1, user, ?_, ?_⟩
    · rfl
    · simp [CreateWorkflowTaskV4, hlint, hhash, hinst, huser]

/-- Every task handed to the controller by the instantiator, with the steps
that led to it. -/
theorem create_submitted_inv (env : CreateEnv) (args : CreateWorkflowTaskV4Args)
    (workflow : WorkflowV4) (t : WorkflowTask)
    (h : Call.CreateTask t ∈ (CreateWorkflowTaskV4 env args workflow).calls) :
    ∃ hash workflow1 user originTaskArgs nextTaskID workflow2 workflow3 built workflowArgs,
      env.InstantiateWorkflow workflow = .ok workflow1 ∧
      env.IToi workflow1 = .ok originTaskArgs ∧
      env.GetNextSeq (env.WorkflowTaskV4Fmt workflow1.Name) = .ok nextTaskID ∧
      env.RemoveFixedValueMarks workflow1 = .ok workflow2 ∧
      env.RenderGlobalVariables workflow2 nextTaskID args.Name = .ok workflow3 ∧
      createStages env args nextTaskID workflow3.Debug
        (List.range (setZadigParamRepos env workflow3).stageList.length)
        (WorkflowHeap.alloc (setZadigParamRepos env workflow3)) [] = .ok built ∧
      workflowTaskLint
        { initialWorkflowTask env args user (stripHooks originTaskArgs) nextTaskID hash
            (setZadigParamRepos env workflow3) with
          Stages := built.2.map (StageTaskCell.read built.1) } = none ∧
      env.FillServiceModules2Jobs (stripHooks built.1.read) = .ok workflowArgs ∧
      t = finishedWorkflowTask
        (initialWorkflowTask env args user (stripHooks originTaskArgs) nextTaskID hash
          (setZadigParamRepos env workflow3))
        (built.2.map (StageTaskCell.read built.1)) workflowArgs env.StartTimeNow := by
  rcases create_cases env args workflow with ⟨_, hno⟩ | ⟨hash, workflow1, user, hinst, heq⟩
  · exact absurd h (hno t)
  · rw [heq] at h
    rcases createFromSnapshot_cases env args
        { ProjectName := workflow.Project, WorkflowName := workflow.Name, TaskID := 0 }
        hash user workflow1 with
      ⟨_, hno⟩ | ⟨originTaskArgs, nextTaskID, workflow2, workflow3, hitoi, hseq, hmarks, hglobal, heq2⟩
    · exact absurd h (hno t)
    · rw [heq2] at h
      rcases createFromStages_cases env args
          { ProjectName := workflow.Project, WorkflowName := workflow.Name, TaskID := nextTaskID }
          [.GetNextSeq (env.WorkflowTaskV4Fmt workflow1.Name)]
          (initialWorkflowTask env args user (stripHooks originTaskArgs) nextTaskID hash
            (setZadigParamRepos env workflow3))
          (setZadigParamRepos env workflow3) with
        ⟨_, hcalls, _⟩ | ⟨built, workflowArgs, hbuilt, hlint, hfill, hcalls, _⟩
      · rw [hcalls] at h
        simp at h
      · rw [hcalls] at h
        simp at h
        refine ⟨hash, workflow1, user, originTaskArgs, nextTaskID, workflow2, workflow3, built,
          workflowArgs, hinst, hitoi, hseq, hmarks, hglobal, ?_, hlint, hfill, h⟩
        simpa [initialWorkflowTask, setZadigParamRepos] using hbuilt

end Zadig
namespace Zadig

/-! ## The claims about the retry -/

/-- C1: `RetryWorkflowTaskV4` is accepted only for a task whose status is
failed, timeout, cancelled or reject.  For a task with any other status it
returns an error, the task (so every stage and every job of it) is left as it
was loaded, and `UpdateTask` is not called. -/
theorem retry_rejected_unless_failed (env : RetryEnv) (workflowName : String) (taskID : Int)
    (task : WorkflowTask) (hfind : env.FindTask workflowName taskID = .ok task)
    (hfailed : task.Status ≠ StatusFailed) (htimeout : task.Status ≠ StatusTimeout)
    (hcancelled : task.Status ≠ StatusCancelled) (hreject : task.Status ≠ StatusReject) :
    (∃ msg, (RetryWorkflowTaskV4 env workflowName taskID).outcome = .error msg) ∧
    (RetryWorkflowTaskV4 env workflowName taskID).task = some task ∧
    ∀ t, Call.UpdateTask t ∉ (RetryWorkflowTaskV4 env workflowName taskID).calls := by
  have hst : retryableStatus task.Status = false := by
    simp [retryableStatus, hfailed, htimeout, hcancelled, hreject]
  simp [RetryWorkflowTaskV4, hfind, hst]

/-- Witness of C1: task 3 of the concrete collaborators is running. -/
theorem retry_rejected_unless_failed_witness :
    (∃ msg, (RetryWorkflowTaskV4 demoRetryEnv "w" 3).outcome = .error msg) ∧
    (RetryWorkflowTaskV4 demoRetryEnv "w" 3).task =
      some { demoFailedTask with TaskID := 3, Status := "running" } ∧
    ∀ t, Call.UpdateTask t ∉ (RetryWorkflowTaskV4 demoRetryEnv "w" 3).calls :=
  retry_rejected_unless_failed demoRetryEnv "w" 3
    { demoFailedTask with TaskID := 3, Status := "running" } rfl (by decide) (by decide)
    (by decide) (by decide)

/-- C2: for every task, on every path of `RetryWorkflowTaskV4` (success, error
or panic), a stage whose status is passed is left completely unchanged, and in
every stage a job whose status is passed is left unchanged. -/
theorem retry_keeps_passed (env : RetryEnv) (workflowName : String) (taskID : Int)
    (task : WorkflowTask) (hfind : env.FindTask workflowName taskID = .ok task) :
    ∃ task', (RetryWorkflowTaskV4 env workflowName taskID).task = some task' ∧
      ∀ (i : Nat) (s : StageTask), task.Stages[i]? = some s →
        (s.Status = StatusPassed → task'.Stages[i]? = some s) ∧
        ∃ s', task'.Stages[i]? = some s' ∧
          ∀ (j : Nat) (jt : JobTask), s.Jobs[j]? = some jt → jt.Status = StatusPassed →
            s'.Jobs[j]? = some jt := by
  obtain ⟨task', htask, hshape⟩ := retry_task_shape env workflowName taskID task hfind
  refine ⟨task', htask, ?_⟩
  intro i s hs
  rcases hshape with hsame | ⟨o, m, hpatched⟩
  · rw [hsame]
    exact ⟨fun _ => hs, s, hs, fun j jt hj _ => hj⟩
  · rw [hpatched]
    refine ⟨fun hp => retryStages_passed_kept o m task.Stages 0 i s hs hp, ?_⟩
    obtain ⟨s', hs', _, hjobs⟩ := retryStages_shape o m task.Stages 0 i s hs
    refine ⟨s', hs', ?_⟩
    intro j jt hj hp
    rcases hjobs with h | h
    · rw [h]; exact hj
    · rw [h]; exact retryJobs_passed_kept m s.Jobs j jt hj hp

/-- Witness of C2: the failed task, whose first stage passed. -/
theorem retry_keeps_passed_witness :
    demoRetryEnv.FindTask "w" 2 = .ok demoFailedTask ∧
    ∃ task', (RetryWorkflowTaskV4 demoRetryEnv "w" 2).task = some task' ∧
      ∀ (i : Nat) (s : StageTask), demoFailedTask.Stages[i]? = some s →
        (s.Status = StatusPassed → task'.Stages[i]? = some s) ∧
        ∃ s', task'.Stages[i]? = some s' ∧
          ∀ (j : Nat) (jt : JobTask), s.Jobs[j]? = some jt → jt.Status = StatusPassed →
            s'.Jobs[j]? = some jt :=
  ⟨rfl, retry_keeps_passed demoRetryEnv "w" 2 demoFailedTask rfl⟩

/-- C3: after a successful `RetryWorkflowTaskV4`, every stage that was not
passed has status empty, start time 0, end time 0 and empty error, and every
job of such a stage that was not passed has status empty, start time 0, end
time 0, empty error and the `Spec` of a freshly expanded job task with the same
`Key` (a job task that the expander returns for a job of the stored workflow
arguments). -/
theorem retry_success_resets (env : RetryEnv) (workflowName : String) (taskID : Int)
    (hok : (RetryWorkflowTaskV4 env workflowName taskID).outcome = .ok) :
    ∃ task task' args,
      env.FindTask workflowName taskID = .ok task ∧
      (RetryWorkflowTaskV4 env workflowName taskID).task = some task' ∧
      task.WorkflowArgs = some args ∧
      ∀ (i : Nat) (s : StageTask), task.Stages[i]? = some s → s.Status ≠ StatusPassed →
        ∃ s', task'.Stages[i]? = some s' ∧ s'.Status = "" ∧ s'.StartTime = 0 ∧
          s'.EndTime = 0 ∧ s'.Error = "" ∧
          ∀ (j : Nat) (jt : JobTask), s.Jobs[j]? = some jt → jt.Status ≠ StatusPassed →
            ∃ jt' t, s'.Jobs[j]? = some jt' ∧ jt'.Status = "" ∧ jt'.StartTime = 0 ∧
              jt'.EndTime = 0 ∧ jt'.Error = "" ∧
              (∃ stage ∈ args.stageList, ∃ job ∈ stage.Jobs, ∃ ts,
                expandJob env args taskID job = .ok ts ∧ t ∈ ts) ∧
              t.Key = jt.Key ∧ jt'.Spec = t.Spec := by
  obtain ⟨task, originStages, args, jobTaskMap, hfind, _, _, hargs, hmap, hpatched, heq⟩ :=
    retry_ok_inv env workflowName taskID hok
  refine ⟨task, _, args, hfind, by rw [heq], hargs, ?_⟩
  intro i s hs hp
  obtain ⟨s', hs', h1, h2, h3, h4, hnone, hjobs⟩ :=
    retryStages_reset originStages jobTaskMap task.Stages 0 hpatched i s hs hp
  refine ⟨s', by simpa [resumedTask] using hs', h1, h2, h3, h4, ?_⟩
  intro j jt hj hjp
  obtain ⟨t, hget, hjt'⟩ := retryJobs_reset jobTaskMap s.Jobs hnone j jt hj hjp
  rw [expandStagesInto_eq] at hmap
  cases hfresh : expandJobList env args taskID (args.stageList.flatMap (fun stage => stage.Jobs)) with
  | error err => simp [hfresh] at hmap
  | ok fresh =>
    simp only [hfresh, Except.ok.injEq] at hmap
    rw [← hmap, jobTaskMap_get_fresh] at hget
    obtain ⟨hmem, hkey⟩ := freshByKey_spec fresh jt.Key t hget
    obtain ⟨job, hjob, ts, hts, htin⟩ := expandJobList_mem env args taskID _ fresh hfresh t hmem
    obtain ⟨stage, hstage, hjobin⟩ := List.mem_flatMap.mp hjob
    refine ⟨{ jt with Status := "", StartTime := 0, EndTime := 0, Error := "", Spec := t.Spec },
      t, by rw [hjobs]; exact hjt', rfl, rfl, rfl, rfl,
      ⟨stage, hstage, job, hjobin, ts, hts, htin⟩, hkey, rfl⟩

/-- Witness of C3: the failed task is retried with success. -/
theorem retry_success_resets_witness :
    (RetryWorkflowTaskV4 demoRetryEnv "w" 2).outcome = .ok ∧
    ∃ task task' args,
      demoRetryEnv.FindTask "w" 2 = .ok task ∧
      (RetryWorkflowTaskV4 demoRetryEnv "w" 2).task = some task' ∧
      task.WorkflowArgs = some args ∧
      ∀ (i : Nat) (s : StageTask), task.Stages[i]? = some s → s.Status ≠ StatusPassed →
        ∃ s', task'.Stages[i]? = some s' ∧ s'.Status = "" ∧ s'.StartTime = 0 ∧
          s'.EndTime = 0 ∧ s'.Error = "" ∧
          ∀ (j : Nat) (jt : JobTask), s.Jobs[j]? = some jt → jt.Status ≠ StatusPassed →
            ∃ jt' t, s'.Jobs[j]? = some jt' ∧ jt'.Status = "" ∧ jt'.StartTime = 0 ∧
              jt'.EndTime = 0 ∧ jt'.Error = "" ∧
              (∃ stage ∈ args.stageList, ∃ job ∈ stage.Jobs, ∃ ts,
                expandJob demoRetryEnv args 2 job = .ok ts ∧ t ∈ ts) ∧
              t.Key = jt.Key ∧ jt'.Spec = t.Spec :=
  ⟨by decide, retry_success_resets demoRetryEnv "w" 2 (by decide)⟩

end Zadig
namespace Zadig

/-- C4, counterexample: the rejected task is retried with success; its job
`ship` receives the payload expanded from the stored working copy
(`WorkflowArgs`), and no job task expanded from the original arguments
(`OriginWorkflowArgs`) with that key carries this payload. -/
theorem retry_payload_not_from_origin :
    (RetryWorkflowTaskV4 demoRetryEnv "w" 1).outcome = .ok ∧
    ∃ task' s' jt' origin fresh,
      (RetryWorkflowTaskV4 demoRetryEnv "w" 1).task = some task' ∧
      task'.Stages[0]? = some s' ∧ s'.Jobs[0]? = some jt' ∧
      demoRejectedTask.OriginWorkflowArgs = some origin ∧
      freshJobTasks demoRetryEnv origin 1 = .ok fresh ∧
      ¬ ∃ t ∈ fresh, t.Key = jt'.Key ∧ jt'.Spec = t.Spec :=
  ⟨by decide, _, _, _, _, _, rfl, rfl, rfl, rfl, rfl, by decide⟩

/-- C4, amended: the fresh job-task payloads that `RetryWorkflowTaskV4` looks
up by key are obtained by re-running the Job Expander over the stages and jobs
of the working copy of the arguments stored on the task (`WorkflowArgs`).
Whatever the outcome of the run, the payload that a job task has at the end is
the one it had or the one of the fresh job task, expanded from `WorkflowArgs`,
that is looked up by its key; and in a run that succeeds every job task that
has not passed, in a stage that has not passed, has the payload looked up. -/
theorem retry_payload_from_working_copy (env : RetryEnv) (workflowName : String)
    (taskID : Int) :
    (∀ (task : WorkflowTask) (args : WorkflowV4),
      env.FindTask workflowName taskID = .ok task → task.WorkflowArgs = some args →
      ∃ task', (RetryWorkflowTaskV4 env workflowName taskID).task = some task' ∧
        ∀ (i : Nat) (s : StageTask), task.Stages[i]? = some s →
          ∃ s', task'.Stages[i]? = some s' ∧
            ∀ (j : Nat) (jt : JobTask), s.Jobs[j]? = some jt →
              ∃ jt', s'.Jobs[j]? = some jt' ∧
                (jt'.Spec = jt.Spec ∨
                  ∃ fresh t, freshJobTasks env args taskID = .ok fresh ∧
                    freshByKey fresh jt.Key = some t ∧ jt'.Spec = t.Spec)) ∧
    ((RetryWorkflowTaskV4 env workflowName taskID).outcome = .ok →
      ∃ task task' args fresh,
        env.FindTask workflowName taskID = .ok task ∧
        (RetryWorkflowTaskV4 env workflowName taskID).task = some task' ∧
        task.WorkflowArgs = some args ∧
        freshJobTasks env args taskID = .ok fresh ∧
        ∀ (i : Nat) (s : StageTask), task.Stages[i]? = some s → s.Status ≠ StatusPassed →
          ∃ s', task'.Stages[i]? = some s' ∧
            ∀ (j : Nat) (jt : JobTask), s.Jobs[j]? = some jt → jt.Status ≠ StatusPassed →
              ∃ jt' t, s'.Jobs[j]? = some jt' ∧ freshByKey fresh jt.Key = some t ∧
                jt'.Spec = t.Spec) := by
  constructor
  · intro task args hfind hargs
    obtain ⟨task', htask', hstages⟩ :=
      retry_task_source env workflowName taskID task args hfind hargs
    refine ⟨task', htask', ?_⟩
    intro i s hs
    rcases hstages with hsame | ⟨o, m, hmap, hpatched⟩
    · refine ⟨s, by rw [hsame]; exact hs, ?_⟩
      intro j jt hj
      exact ⟨jt, hj, Or.inl rfl⟩
    · obtain ⟨s', hs', _, hjobs⟩ := retryStages_shape o m task.Stages 0 i s hs
      refine ⟨s', by rw [hpatched]; exact hs', ?_⟩
      intro j jt hj
      rcases hjobs with hjobs | hjobs
      · exact ⟨jt, by rw [hjobs]; exact hj, Or.inl rfl⟩
      · obtain ⟨jt', hjt', hsrc⟩ := retryJobs_source m s.Jobs j jt hj
        refine ⟨jt', by rw [hjobs]; exact hjt', ?_⟩
        rcases hsrc with hkeep | ⟨t, hget, hspec⟩
        · exact Or.inl hkeep
        · rw [expandStagesInto_eq] at hmap
          cases hfresh : expandJobList env args taskID
              (args.stageList.flatMap (fun stage => stage.Jobs)) with
          | error err => simp [hfresh] at hmap
          | ok fresh =>
            simp only [hfresh, Except.ok.injEq] at hmap
            rw [← hmap, jobTaskMap_get_fresh] at hget
            exact Or.inr ⟨fresh, t, hfresh, hget, hspec⟩
  · intro hok
    obtain ⟨task, originStages, args, jobTaskMap, hfind, _, _, hargs, hmap, hpatched, heq⟩ :=
      retry_ok_inv env workflowName taskID hok
    rw [expandStagesInto_eq] at hmap
    cases hfresh : expandJobList env args taskID
        (args.stageList.flatMap (fun stage => stage.Jobs)) with
    | error err => simp [hfresh] at hmap
    | ok fresh =>
      simp only [hfresh, Except.ok.injEq] at hmap
      refine ⟨task, _, args, fresh, hfind, by rw [heq], hargs, hfresh, ?_⟩
      intro i s hs hp
      obtain ⟨s', hs', _, _, _, _, hnone, hjobs⟩ :=
        retryStages_reset originStages jobTaskMap task.Stages 0 hpatched i s hs hp
      refine ⟨s', by simpa [resumedTask] using hs', ?_⟩
      intro j jt hj hjp
      obtain ⟨t, hget, hjt'⟩ := retryJobs_reset jobTaskMap s.Jobs hnone j jt hj hjp
      rw [← hmap, jobTaskMap_get_fresh] at hget
      exact ⟨{ jt with Status := "", StartTime := 0, EndTime := 0, Error := "", Spec := t.Spec },
        t, by rw [hjobs]; exact hjt', hget, rfl⟩

/-- Witness of C4, amended: the rejected task, whose working copy is the
rendered workflow; it is retried with success. -/
theorem retry_payload_from_working_copy_witness :
    (RetryWorkflowTaskV4 demoRetryEnv "w" 1).outcome = .ok ∧
    demoRetryEnv.FindTask "w" 1 = .ok demoRejectedTask ∧
    demoRejectedTask.WorkflowArgs = some (stripHooks (demoRender demoWorkflow)) ∧
    (∃ task', (RetryWorkflowTaskV4 demoRetryEnv "w" 1).task = some task' ∧
      ∀ (i : Nat) (s : StageTask), demoRejectedTask.Stages[i]? = some s →
        ∃ s', task'.Stages[i]? = some s' ∧
          ∀ (j : Nat) (jt : JobTask), s.Jobs[j]? = some jt →
            ∃ jt', s'.Jobs[j]? = some jt' ∧
              (jt'.Spec = jt.Spec ∨
                ∃ fresh t,
                  freshJobTasks demoRetryEnv (stripHooks (demoRender demoWorkflow)) 1 = .ok fresh ∧
                  freshByKey fresh jt.Key = some t ∧ jt'.Spec = t.Spec)) ∧
    ∃ task task' args fresh,
      demoRetryEnv.FindTask "w" 1 = .ok task ∧
      (RetryWorkflowTaskV4 demoRetryEnv "w" 1).task = some task' ∧
      task.WorkflowArgs = some args ∧
      freshJobTasks demoRetryEnv args 1 = .ok fresh ∧
      ∀ (i : Nat) (s : StageTask), task.Stages[i]? = some s → s.Status ≠ StatusPassed →
        ∃ s', task'.Stages[i]? = some s' ∧
          ∀ (j : Nat) (jt : JobTask), s.Jobs[j]? = some jt → jt.Status ≠ StatusPassed →
            ∃ jt' t, s'.Jobs[j]? = some jt' ∧ freshByKey fresh jt.Key = some t ∧
              jt'.Spec = t.Spec :=
  ⟨by decide, rfl, rfl,
    (retry_payload_from_working_copy demoRetryEnv "w" 1).1 demoRejectedTask
      (stripHooks (demoRender demoWorkflow)) rfl rfl,
    (retry_payload_from_working_copy demoRetryEnv "w" 1).2 (by decide)⟩

/-- C5, the failing input evaluated: `CreateWorkflowTaskV4` hands
`demoCreatedTask` to the controller, whose only stage `deploy` is the second
stage of the original arguments; after the approval of `deploy` was rejected,
`RetryWorkflowTaskV4` succeeds and leaves `deploy` with the approval of the
first stage of the original arguments (none) instead of its own. -/
theorem retry_approval_taken_by_task_index :
    Call.CreateTask demoCreatedTask ∈
      (CreateWorkflowTaskV4 demoCreateEnv { Name := "alice", UserID := "" } demoWorkflow).calls ∧
    demoRetryEnv.FindTask "w" 1 = .ok demoRejectedTask ∧
    demoRejectedTask.Stages.map (fun s => (s.Name, s.Status, s.Approval.map (fun a => a.Status)))
      = [("deploy", StatusReject, some StatusReject)] ∧
    (RetryWorkflowTaskV4 demoRetryEnv "w" 1).outcome = .ok ∧
    (RetryWorkflowTaskV4 demoRetryEnv "w" 1).task.map
        (fun t => t.Stages.map (fun s => (s.Name, s.Approval)))
      = some [("deploy", none)] ∧
    demoRejectedTask.OriginWorkflowArgs.map
        (fun o => o.stageList.map (fun st => (st.Name, st.Approval)))
      = some [("prepare", none), ("deploy", some demoApproval)] :=
  ⟨by decide, rfl, by decide, by decide, by decide, by decide⟩

/-- C6: a successful `RetryWorkflowTaskV4` resumes the same record: `TaskID`
and `WorkflowName` are unchanged, the sequence of stage names and, per stage,
the sequence of job keys and names are unchanged, the status of the task is
created, and the calls made are the lookup, the notification and `UpdateTask`
on that task; `CreateTask` is not called. -/
theorem retry_success_resumes (env : RetryEnv) (workflowName : String) (taskID : Int)
    (hok : (RetryWorkflowTaskV4 env workflowName taskID).outcome = .ok) :
    ∃ task task',
      env.FindTask workflowName taskID = .ok task ∧
      (RetryWorkflowTaskV4 env workflowName taskID).task = some task' ∧
      task'.TaskID = task.TaskID ∧ task'.WorkflowName = task.WorkflowName ∧
      task'.Stages.map (fun s => s.Name) = task.Stages.map (fun s => s.Name) ∧
      task'.Stages.map (fun s => s.Jobs.map (fun j => (j.Key, j.Name))) =
        task.Stages.map (fun s => s.Jobs.map (fun j => (j.Key, j.Name))) ∧
      task'.Status = StatusCreated ∧
      (RetryWorkflowTaskV4 env workflowName taskID).calls =
        [.FindTask workflowName taskID, .SendWorkflowTaskNotifications task', .UpdateTask task'] ∧
      ∀ t, Call.CreateTask t ∉ (RetryWorkflowTaskV4 env workflowName taskID).calls := by
  obtain ⟨task, originStages, args, jobTaskMap, hfind, _, _, _, _, _, heq⟩ :=
    retry_ok_inv env workflowName taskID hok
  refine ⟨task, resumedTask task (retryStages originStages jobTaskMap 0 task.Stages).1 env.Now,
    hfind, by rw [heq], rfl, rfl, ?_, ?_, rfl, by rw [heq], ?_⟩
  · simpa [resumedTask] using retryStages_names originStages jobTaskMap task.Stages 0
  · simpa [resumedTask] using retryStages_jobKeys originStages jobTaskMap task.Stages 0
  · rw [heq]
    simp

/-- Witness of C6: the failed task is retried with success. -/
theorem retry_success_resumes_witness :
    (RetryWorkflowTaskV4 demoRetryEnv "w" 2).outcome = .ok ∧
    ∃ task task',
      demoRetryEnv.FindTask "w" 2 = .ok task ∧
      (RetryWorkflowTaskV4 demoRetryEnv "w" 2).task = some task' ∧
      task'.TaskID = task.TaskID ∧ task'.WorkflowName = task.WorkflowName ∧
      task'.Stages.map (fun s => s.Name) = task.Stages.map (fun s => s.Name) ∧
      task'.Stages.map (fun s => s.Jobs.map (fun j => (j.Key, j.Name))) =
        task.Stages.map (fun s => s.Jobs.map (fun j => (j.Key, j.Name))) ∧
      task'.Status = StatusCreated ∧
      (RetryWorkflowTaskV4 demoRetryEnv "w" 2).calls =
        [.FindTask "w" 2, .SendWorkflowTaskNotifications task', .UpdateTask task'] ∧
      ∀ t, Call.CreateTask t ∉ (RetryWorkflowTaskV4 demoRetryEnv "w" 2).calls :=
  ⟨by decide, retry_success_resumes demoRetryEnv "w" 2 (by decide)⟩

/-! ## The claims about the lint and the instantiation -/

/-- C7: `workflowTaskLint` returns an error if and only if the task has zero
stages or at least one of its stages has zero jobs. -/
theorem workflowTaskLint_error_iff (workflowTask : WorkflowTask) :
    (workflowTaskLint workflowTask).isSome = true ↔
      workflowTask.Stages = [] ∨ ∃ s ∈ workflowTask.Stages, s.Jobs = [] := by
  have h := workflowTaskLint_none_iff workflowTask
  cases hl : workflowTaskLint workflowTask with
  | none =>
    obtain ⟨h1, h2⟩ := h.mp hl
    simp only [Option.isSome_none, Bool.false_eq_true, false_iff, not_or, not_exists, not_and]
    exact ⟨h1, h2⟩
  | some err =>
    simp only [Option.isSome_some, true_iff]
    by_contra hcon
    simp only [not_or, not_exists, not_and] at hcon
    have := h.mpr ⟨hcon.1, hcon.2⟩
    rw [hl] at this
    exact absurd this (by simp)

end Zadig
namespace Zadig

/-- The stage tasks that the stage loop builds are the stage tasks of its
views that have a job. -/
theorem createStages_built (env : CreateEnv) (args : CreateWorkflowTaskV4Args) (nextTaskID : Int)
    (isDebug : Bool) (indices : List Nat) (heap : WorkflowHeap)
    (built : WorkflowHeap × List StageTaskCell)
    (h : createStages env args nextTaskID isDebug indices heap [] = .ok built) :
    ∃ views, stageViews env args nextTaskID indices heap = .ok (views, built.1) ∧
      views.length = indices.length ∧
      built.2.map (StageTaskCell.read built.1) =
        (views.map (StageView.stageTask env nextTaskID isDebug built.1)).filter
          (fun s => decide (s.Jobs.length > 0)) ∧
      ∀ v ∈ views, ∀ job ∈ v.jobs, env.JobSkiped job = false →
        ∃ out, env.ToJobs job v.workflow nextTaskID = .ok out := by
  obtain ⟨views, hviews, hlen, hbuilt, hall⟩ :=
    createStages_views env args nextTaskID isDebug indices heap [] built h
  exact ⟨views, hviews, hlen, by simpa using hbuilt built.1, hall⟩

/-- C8, counterexample: every job of the stage `prepare` of `demoWorkflow` is
skipped, so the stage has zero job tasks, and `CreateWorkflowTaskV4` still
returns a nil error and hands a task to the controller. -/
theorem create_accepts_workflow_with_empty_stage :
    (∃ stage ∈ demoWorkflow.stageList, ∀ job ∈ stage.Jobs, demoCreateEnv.JobSkiped job = true) ∧
    (CreateWorkflowTaskV4 demoCreateEnv { Name := "alice", UserID := "" } demoWorkflow).outcome
      = .ok ∧
    Call.CreateTask demoCreatedTask ∈
      (CreateWorkflowTaskV4 demoCreateEnv { Name := "alice", UserID := "" } demoWorkflow).calls := by
  decide

/-- C8, amended: `CreateWorkflowTaskV4` leaves a stage that has zero job tasks
out of the task, so every task it hands to the controller has at least one
stage and at least one job in every stage, and the lint of the task it built
fails exactly when the task has zero stages; when in the run no job that is
not skipped expands to a job task (every stage has zero job tasks after
skipping and fan-out, so the task would have zero stages), it rejects the
request with an error and hands no task to the controller. -/
theorem create_rejects_only_empty_task (env : CreateEnv) (args : CreateWorkflowTaskV4Args)
    (workflow : WorkflowV4) :
    (∀ t, Call.CreateTask t ∈ (CreateWorkflowTaskV4 env args workflow).calls →
      t.Stages ≠ [] ∧ ∀ s ∈ t.Stages, s.Jobs ≠ []) ∧
    (∀ (nextTaskID : Int) (isDebug : Bool) (indices : List Nat) (heap : WorkflowHeap)
        (built : WorkflowHeap × List StageTaskCell) (workflowTask : WorkflowTask),
      createStages env args nextTaskID isDebug indices heap [] = .ok built →
        (workflowTaskLint
            { workflowTask with Stages := built.2.map (StageTaskCell.read built.1) } = none ↔
          built.2 ≠ [])) ∧
    ((∀ workflow1 workflow2 workflow3 nextTaskID views last,
        env.InstantiateWorkflow workflow = .ok workflow1 →
        env.GetNextSeq (env.WorkflowTaskV4Fmt workflow1.Name) = .ok nextTaskID →
        env.RemoveFixedValueMarks workflow1 = .ok workflow2 →
        env.RenderGlobalVariables workflow2 nextTaskID args.Name = .ok workflow3 →
        stageViews env args nextTaskID
          (List.range (setZadigParamRepos env workflow3).stageList.length)
          (WorkflowHeap.alloc (setZadigParamRepos env workflow3)) = .ok (views, last) →
        ∀ v ∈ views, stageFanOut env v.workflow nextTaskID v.jobs = []) →
      (∃ msg, (CreateWorkflowTaskV4 env args workflow).outcome = .error msg) ∧
      ∀ t, Call.CreateTask t ∉ (CreateWorkflowTaskV4 env args workflow).calls) := by
  refine ⟨?_, ?_, ?_⟩
  · intro t ht
    obtain ⟨hash, workflow1, user, originTaskArgs, nextTaskID, workflow2, workflow3, built,
      workflowArgs, _, _, _, _, _, _, hlint, _, heq⟩ := create_submitted_inv env args workflow t ht
    have := (workflowTaskLint_none_iff _).mp hlint
    subst heq
    simpa [finishedWorkflowTask] using this
  · intro nextTaskID isDebug indices heap built workflowTask hbuilt
    obtain ⟨views, _, _, hstages, _⟩ :=
      createStages_built env args nextTaskID isDebug indices heap built hbuilt
    rw [workflowTaskLint_none_iff]
    constructor
    · rintro ⟨hne, _⟩ hnil
      simp [hnil] at hne
    · intro hne
      refine ⟨by simpa using hne, ?_⟩
      intro s hs
      have hs' : s ∈ built.2.map (StageTaskCell.read built.1) := hs
      rw [hstages] at hs'
      have hlen := (List.mem_filter.mp hs').2
      intro hnil
      simp [hnil] at hlen
  · intro hempty
    have hno : ∀ t, Call.CreateTask t ∉ (CreateWorkflowTaskV4 env args workflow).calls := by
      intro t ht
      obtain ⟨hash, workflow1, user, originTaskArgs, nextTaskID, workflow2, workflow3, built,
        workflowArgs, hinst, _, hseq, hmarks, hglobal, hbuilt, hlint, _, _⟩ :=
        create_submitted_inv env args workflow t ht
      obtain ⟨views, hviews, _, hstages, _⟩ :=
        createStages_built env args nextTaskID workflow3.Debug _ _ built hbuilt
      have hfan := hempty workflow1 workflow2 workflow3 nextTaskID views built.1 hinst hseq hmarks
        hglobal hviews
      have hnil : built.2.map (StageTaskCell.read built.1) = [] := by
        rw [hstages, List.filter_eq_nil_iff]
        intro s hs
        obtain ⟨v, hv, hsv⟩ := List.mem_map.mp hs
        subst hsv
        simp [StageView.stageTask, hfan v hv]
      have := ((workflowTaskLint_none_iff _).mp hlint).1
      exact this hnil
    refine ⟨?_, hno⟩
    rcases create_cases env args workflow with ⟨herr, _⟩ | ⟨hash, workflow1, user, _, heq⟩
    · exact herr
    · rcases createFromSnapshot_cases env args
          { ProjectName := workflow.Project, WorkflowName := workflow.Name, TaskID := 0 }
          hash user workflow1 with
        ⟨herr, _⟩ | ⟨originTaskArgs, nextTaskID, workflow2, workflow3, _, _, _, _, heq2⟩
      · rw [heq]; exact herr
      · rcases createFromStages_cases env args
            { ProjectName := workflow.Project, WorkflowName := workflow.Name, TaskID := nextTaskID }
            [.GetNextSeq (env.WorkflowTaskV4Fmt workflow1.Name)]
            (initialWorkflowTask env args user (stripHooks originTaskArgs) nextTaskID hash
              (setZadigParamRepos env workflow3))
            (setZadigParamRepos env workflow3) with
          ⟨herr, _, _⟩ | ⟨built, workflowArgs, _, _, _, hcalls, _⟩
        · rw [heq, heq2]; exact herr
        · exfalso
          refine hno (finishedWorkflowTask
            (initialWorkflowTask env args user (stripHooks originTaskArgs) nextTaskID hash
              (setZadigParamRepos env workflow3)) (built.2.map (StageTaskCell.read built.1))
              workflowArgs env.StartTimeNow) ?_
          rw [heq, heq2, hcalls]
          simp

/-- Witness of C8, amended: with the ordinary collaborators the request for
`demoSkippedWorkflow`, whose jobs are all skipped, is rejected. -/
theorem create_rejects_only_empty_task_witness :
    (∀ stage ∈ demoSkippedWorkflow.stageList, ∀ job ∈ stage.Jobs,
      demoCreateEnv.JobSkiped job = true) ∧
    (∃ msg, (CreateWorkflowTaskV4 demoCreateEnv { Name := "alice", UserID := "" }
      demoSkippedWorkflow).outcome = .error msg) ∧
    ∀ t, Call.CreateTask t ∉
      (CreateWorkflowTaskV4 demoCreateEnv { Name := "alice", UserID := "" }
        demoSkippedWorkflow).calls :=
  ⟨by decide,
    (create_rejects_only_empty_task demoCreateEnv { Name := "alice", UserID := "" }
      demoSkippedWorkflow).2.2 (by
        intro workflow1 workflow2 workflow3 nextTaskID views last hinst hseq hmarks hglobal hviews
        simp only [demoCreateEnv, Except.ok.injEq] at hinst
        subst hinst
        simp only [demoCreateEnv, Except.ok.injEq] at hseq
        subst hseq
        simp only [demoCreateEnv, Except.ok.injEq] at hmarks
        subst hmarks
        simp only [demoCreateEnv, Except.ok.injEq] at hglobal
        subst hglobal
        have hc : ((stageViews demoCreateEnv { Name := "alice", UserID := "" } 1
            (List.range (setZadigParamRepos demoCreateEnv (demoRender demoSkippedWorkflow)).stageList.length)
            (WorkflowHeap.alloc (setZadigParamRepos demoCreateEnv
              (demoRender demoSkippedWorkflow)))).toOption.map
            (fun r => r.1.all (fun v =>
              (stageFanOut demoCreateEnv v.workflow 1 v.jobs).isEmpty))) = some true := by
          decide
        rw [hviews] at hc
        simp only [Except.toOption, Option.map_some', Option.some.injEq, List.all_eq_true,
          List.isEmpty_iff] at hc
        exact hc)⟩

/-- The heap of a workflow shows the workflow. -/
theorem alloc_read (w : WorkflowV4) : (WorkflowHeap.alloc w).read = w := by
  have hstage : ∀ (stages : List WorkflowStage), w.stageList = stages →
      (List.range stages.length).map (WorkflowHeap.alloc w).readStage = stages := by
    intro stages hw
    apply List.ext_getElem
    · simp
    · intro p h1 h2
      have hp : w.stageList[p]? = some stages[p] := by
        rw [hw]
        exact List.getElem?_eq_getElem h2
      simp only [List.getElem_map, List.getElem_range, WorkflowHeap.readStage,
        WorkflowHeap.alloc, hp, Option.bind_some]
      cases hq : stages[p] with
      | mk name parallel approval jobs =>
        cases approval <;> simp [hp, hq]
  cases w with
  | mk name displayName project debug params keyVals shareStorages stages hookCtls meego jira
      general =>
    cases stages with
    | none => rfl
    | some stages =>
      have h := hstage stages (by simp [WorkflowV4.stageList])
      simp only [WorkflowHeap.read]
      have h2 : (WorkflowHeap.alloc
          { Name := name, DisplayName := displayName, Project := project, Debug := debug,
            Params := params, KeyVals := keyVals, ShareStorages := shareStorages,
            Stages := some stages, HookCtls := hookCtls, MeegoHookCtls := meego,
            JiraHookCtls := jira, GeneralHookCtls := general }).Stages =
          some (List.range stages.length) := rfl
      rw [h2, Option.map_some', h]
      rfl

/-- The stage loop reads the element of an iteration when the iteration
starts: with a rendering that assigns the pointer to `prepare`, whose jobs are
all skipped, to every element in place, the second iteration visits `prepare`
again, no stage has a job task, and the request is rejected. -/
theorem demoReslot_rejected :
    (CreateWorkflowTaskV4 demoReslotEnv { Name := "alice", UserID := "" } demoWorkflow).outcome =
      .error (AddDesc "ErrCreateTask" "no stage found in workflow task: w,taskID: 1") ∧
    (CreateWorkflowTaskV4 demoReslotEnv { Name := "alice", UserID := "" } demoWorkflow).calls =
      [.GetNextSeq (demoReslotEnv.WorkflowTaskV4Fmt "w")] := by
  decide

/-- The stage loop ranges over the slice it evaluated when it started and
reads the stage objects through the pointers in it: with a rendering that
rewrites `deploy` in place and assigns a slice that holds `deploy` alone to
`workflow.Stages`, the loop still visits both stages, and the task has the
stage `deploy` alone, with the job and the approval as rewritten. -/
theorem demoRestructure_task :
    (CreateWorkflowTaskV4 demoRestructureEnv { Name := "alice", UserID := "" }
        demoWorkflow).calls.filterMap
      (fun call => match call with
        | .CreateTask t =>
          some (t.Stages.map (fun stage =>
            (stage.Name, stage.Jobs.map (fun job => job.Name),
              stage.Approval.map (fun a => a.Description))))
        | _ => none) =
      [[("deploy", ["extra-deploy"], some "rendered")]] := by
  decide

/-- C9: in every task that `CreateWorkflowTaskV4` hands to the controller, the
stage tasks are, in the order of the workflow stages (one view per stage, read
through the loop variable), those of the stages that have at least one job
task, and the job list of each is the concatenation, in definition order, of
the outputs of the Job Expander (`ToJobs`, which succeeded) for the jobs of
the stage that are not skipped; no job task comes from a skipped job.  The job
tasks are the objects the expander returned, as they stand when the task is
handed over: the debug switch has set `BreakpointBefore` on them in place
(`markBreakpoint`), and outside debug mode they are exactly what the expander
returned. -/
theorem create_stage_jobs (env : CreateEnv) (args : CreateWorkflowTaskV4Args)
    (workflow : WorkflowV4) (t : WorkflowTask)
    (h : Call.CreateTask t ∈ (CreateWorkflowTaskV4 env args workflow).calls) :
    ∃ workflow1 workflow2 workflow3 views last,
      env.InstantiateWorkflow workflow = .ok workflow1 ∧
      env.RemoveFixedValueMarks workflow1 = .ok workflow2 ∧
      env.RenderGlobalVariables workflow2 t.TaskID args.Name = .ok workflow3 ∧
      stageViews env args t.TaskID
        (List.range (setZadigParamRepos env workflow3).stageList.length)
        (WorkflowHeap.alloc (setZadigParamRepos env workflow3)) = .ok (views, last) ∧
      views.length = workflow3.stageList.length ∧
      (∀ v ∈ views, ∀ job ∈ v.jobs, env.JobSkiped job = false →
        ∃ out, env.ToJobs job v.workflow t.TaskID = .ok out) ∧
      t.Stages =
        (views.map (fun v =>
          ({ Name := v.Name, Parallel := v.Parallel, Status := "", StartTime := 0, EndTime := 0,
             Error := "", Approval := v.Approval.map last.approval,
             Jobs := ((v.jobs.filter (fun job => !env.JobSkiped job)).flatMap
                (fun job => match env.ToJobs job v.workflow t.TaskID with
                  | .ok out => out
                  | .error _ => [])).map (markBreakpoint t.IsDebug) } : StageTask))).filter
          (fun s => decide (s.Jobs.length > 0)) ∧
      (t.IsDebug = false →
        t.Stages =
          (views.map (fun v =>
            ({ Name := v.Name, Parallel := v.Parallel, Status := "", StartTime := 0,
               EndTime := 0, Error := "", Approval := v.Approval.map last.approval,
               Jobs := (v.jobs.filter (fun job => !env.JobSkiped job)).flatMap
                  (fun job => match env.ToJobs job v.workflow t.TaskID with
                    | .ok out => out
                    | .error _ => []) } : StageTask))).filter
            (fun s => decide (s.Jobs.length > 0))) := by
  obtain ⟨hash, workflow1, user, originTaskArgs, nextTaskID, workflow2, workflow3, built,
    workflowArgs, hinst, _, _, hmarks, hglobal, hbuilt, _, _, heq⟩ :=
    create_submitted_inv env args workflow t h
  obtain ⟨views, hviews, hlen, hstages, hall⟩ :=
    createStages_built env args nextTaskID workflow3.Debug _ _ built hbuilt
  subst heq
  have hmain : built.2.map (StageTaskCell.read built.1) =
      (views.map (fun v =>
        ({ Name := v.Name, Parallel := v.Parallel, Status := "", StartTime := 0, EndTime := 0,
           Error := "", Approval := v.Approval.map built.1.approval,
           Jobs := ((v.jobs.filter (fun job => !env.JobSkiped job)).flatMap
              (fun job => match env.ToJobs job v.workflow nextTaskID with
                | .ok out => out
                | .error _ => [])).map (markBreakpoint workflow3.Debug) } : StageTask))).filter
        (fun s => decide (s.Jobs.length > 0)) := by
    rw [hstages]
    rfl
  refine ⟨workflow1, workflow2, workflow3, views, built.1, hinst, hmarks, hglobal, hviews, ?_,
    hall, ?_, ?_⟩
  · rw [hlen, List.length_range]
    rfl
  · simpa [finishedWorkflowTask, initialWorkflowTask, setZadigParamRepos] using hmain
  · intro hdebug
    have hd : workflow3.Debug = false := by
      simpa [finishedWorkflowTask, initialWorkflowTask, setZadigParamRepos] using hdebug
    have hid : markBreakpoint false = id := by
      funext jobTask
      simp [markBreakpoint]
    rw [hd, hid] at hmain
    simpa [finishedWorkflowTask, initialWorkflowTask, setZadigParamRepos] using hmain

/-- Witness of C9: the instantiation of `demoWorkflow`. -/
theorem create_stage_jobs_witness :
    Call.CreateTask demoCreatedTask ∈
      (CreateWorkflowTaskV4 demoCreateEnv { Name := "alice", UserID := "" } demoWorkflow).calls ∧
    ∃ workflow1 workflow2 workflow3 views last,
      demoCreateEnv.InstantiateWorkflow demoWorkflow = .ok workflow1 ∧
      demoCreateEnv.RemoveFixedValueMarks workflow1 = .ok workflow2 ∧
      demoCreateEnv.RenderGlobalVariables workflow2 demoCreatedTask.TaskID "alice" = .ok workflow3 ∧
      stageViews demoCreateEnv { Name := "alice", UserID := "" } demoCreatedTask.TaskID
        (List.range (setZadigParamRepos demoCreateEnv workflow3).stageList.length)
        (WorkflowHeap.alloc (setZadigParamRepos demoCreateEnv workflow3)) = .ok (views, last) ∧
      views.length = workflow3.stageList.length ∧
      (∀ v ∈ views, ∀ job ∈ v.jobs, demoCreateEnv.JobSkiped job = false →
        ∃ out, demoCreateEnv.ToJobs job v.workflow demoCreatedTask.TaskID = .ok out) ∧
      demoCreatedTask.Stages =
        (views.map (fun v =>
          ({ Name := v.Name, Parallel := v.Parallel, Status := "", StartTime := 0, EndTime := 0,
             Error := "", Approval := v.Approval.map last.approval,
             Jobs := ((v.jobs.filter (fun job => !demoCreateEnv.JobSkiped job)).flatMap
                (fun job => match demoCreateEnv.ToJobs job v.workflow demoCreatedTask.TaskID with
                  | .ok out => out
                  | .error _ => [])).map (markBreakpoint demoCreatedTask.IsDebug) }
            : StageTask))).filter
          (fun s => decide (s.Jobs.length > 0)) ∧
      (demoCreatedTask.IsDebug = false →
        demoCreatedTask.Stages =
          (views.map (fun v =>
            ({ Name := v.Name, Parallel := v.Parallel, Status := "", StartTime := 0,
               EndTime := 0, Error := "", Approval := v.Approval.map last.approval,
               Jobs := (v.jobs.filter (fun job => !demoCreateEnv.JobSkiped job)).flatMap
                  (fun job => match demoCreateEnv.ToJobs job v.workflow demoCreatedTask.TaskID with
                    | .ok out => out
                    | .error _ => []) } : StageTask))).filter
            (fun s => decide (s.Jobs.length > 0))) :=
  ⟨by decide,
    create_stage_jobs demoCreateEnv { Name := "alice", UserID := "" } demoWorkflow demoCreatedTask
      (by decide)⟩

/-- C10: in every task that `CreateWorkflowTaskV4` hands to the controller,
the snapshot `OriginWorkflowArgs` is the copy that `IToi` made of the workflow
arguments as they stood after `InstantiateWorkflow`, with `HookCtls`,
`MeegoHookCtls`, `JiraHookCtls` and `GeneralHookCtls` empty; when the copy is
faithful every other field equals the field of those arguments, whatever the
later steps (removing fixed-value marks, rendering, clearing the hooks of the
working copy) do to the working copy. -/
theorem create_snapshot (env : CreateEnv) (args : CreateWorkflowTaskV4Args)
    (workflow : WorkflowV4) (t : WorkflowTask)
    (h : Call.CreateTask t ∈ (CreateWorkflowTaskV4 env args workflow).calls)
    (hcopy : ∀ w snapshot, env.IToi w = .ok snapshot → snapshot = w) :
    ∃ workflow1,
      env.InstantiateWorkflow workflow = .ok workflow1 ∧
      t.OriginWorkflowArgs =
        some { workflow1 with
          HookCtls := [], MeegoHookCtls := [], JiraHookCtls := [], GeneralHookCtls := [] } := by
  obtain ⟨hash, workflow1, user, originTaskArgs, nextTaskID, workflow2, workflow3, built,
    workflowArgs, hinst, hitoi, _, _, _, _, _, _, heq⟩ :=
    create_submitted_inv env args workflow t h
  have hsnap := hcopy workflow1 originTaskArgs hitoi
  subst heq hsnap
  exact ⟨_, hinst, rfl⟩

/-- Witness of C10: the instantiation of `demoWorkflow`, whose hooks are set
and whose working copy is rewritten by the rendering. -/
theorem create_snapshot_witness :
    Call.CreateTask demoCreatedTask ∈
      (CreateWorkflowTaskV4 demoCreateEnv { Name := "alice", UserID := "" } demoWorkflow).calls ∧
    (∀ w snapshot, demoCreateEnv.IToi w = .ok snapshot → snapshot = w) ∧
    ∃ workflow1,
      demoCreateEnv.InstantiateWorkflow demoWorkflow = .ok workflow1 ∧
      demoCreatedTask.OriginWorkflowArgs =
        some { workflow1 with
          HookCtls := [], MeegoHookCtls := [], JiraHookCtls := [], GeneralHookCtls := [] } :=
  have hcopy : ∀ w snapshot, demoCreateEnv.IToi w = .ok snapshot → snapshot = w := by
    intro w snapshot h
    simp only [demoCreateEnv, Except.ok.injEq] at h
    exact h.symm
  ⟨by decide, hcopy,
    create_snapshot demoCreateEnv { Name := "alice", UserID := "" } demoWorkflow demoCreatedTask
      (by decide) hcopy⟩

end Zadig
namespace Zadig

/-! ## The retry when a key is missing -/

theorem retry_update_inv (env : RetryEnv) (workflowName : String) (taskID : Int)
    (t : WorkflowTask)
    (h : Call.UpdateTask t ∈ (RetryWorkflowTaskV4 env workflowName taskID).calls) :
    ∃ task originStages args jobTaskMap,
      env.FindTask workflowName taskID = .ok task ∧
      task.WorkflowArgs = some args ∧
      expandStagesInto env args taskID args.stageList [] = .ok jobTaskMap ∧
      (retryStages originStages jobTaskMap 0 task.Stages).2 = .ok := by
  cases hfind : env.FindTask workflowName taskID with
  | error e => simp [RetryWorkflowTaskV4, hfind] at h
  | ok task =>
  cases hst : retryableStatus task.Status with
  | false => simp [RetryWorkflowTaskV4, hfind, hst] at h
  | true =>
  cases horigin : task.OriginWorkflowArgs.bind (fun o => o.Stages) with
  | none => simp [RetryWorkflowTaskV4, hfind, hst, horigin] at h
  | some originStages =>
  cases hargs : task.WorkflowArgs with
  | none => simp [RetryWorkflowTaskV4, hfind, hst, horigin, hargs] at h
  | some args =>
  cases hmap : expandStagesInto env args taskID args.stageList [] with
  | error e => simp [RetryWorkflowTaskV4, hfind, hst, horigin, hargs, hmap] at h
  | ok jobTaskMap =>
  cases hpatched : (retryStages originStages jobTaskMap 0 task.Stages).2 with
  | error msg => simp [RetryWorkflowTaskV4, hfind, hst, horigin, hargs, hmap, hpatched] at h
  | panic => simp [RetryWorkflowTaskV4, hfind, hst, horigin, hargs, hmap, hpatched] at h
  | ok => exact ⟨task, originStages, args, jobTaskMap, rfl, hargs, hmap, hpatched⟩

theorem retry_panic_inv (env : RetryEnv) (workflowName : String) (taskID : Int)
    (h : (RetryWorkflowTaskV4 env workflowName taskID).outcome = .panic) :
    ∃ task originStages,
      env.FindTask workflowName taskID = .ok task ∧
      task.OriginWorkflowArgs.bind (fun o => o.Stages) = some originStages ∧
      (task.WorkflowArgs = none ∨
        ∃ jobTaskMap, (retryStages originStages jobTaskMap 0 task.Stages).2 = .panic) := by
  cases hfind : env.FindTask workflowName taskID with
  | error e => simp [RetryWorkflowTaskV4, hfind] at h
  | ok task =>
  cases hst : retryableStatus task.Status with
  | false => simp [RetryWorkflowTaskV4, hfind, hst] at h
  | true =>
  cases horigin : task.OriginWorkflowArgs.bind (fun o => o.Stages) with
  | none => simp [RetryWorkflowTaskV4, hfind, hst, horigin] at h
  | some originStages =>
  cases hargs : task.WorkflowArgs with
  | none => exact ⟨task, originStages, rfl, horigin, Or.inl hargs⟩
  | some args =>
  cases hmap : expandStagesInto env args taskID args.stageList [] with
  | error e => simp [RetryWorkflowTaskV4, hfind, hst, horigin, hargs, hmap] at h
  | ok jobTaskMap =>
  cases hpatched : (retryStages originStages jobTaskMap 0 task.Stages).2 with
  | error msg => simp [RetryWorkflowTaskV4, hfind, hst, horigin, hargs, hmap, hpatched] at h
  | panic => exact ⟨task, originStages, rfl, horigin, Or.inr ⟨jobTaskMap, hpatched⟩⟩
  | ok =>
    cases hupd : env.UpdateTask
        (resumedTask task (retryStages originStages jobTaskMap 0 task.Stages).1 env.Now) with
    | some e => simp [RetryWorkflowTaskV4, hfind, hst, horigin, hargs, hmap, hpatched, hupd] at h
    | none => simp [RetryWorkflowTaskV4, hfind, hst, horigin, hargs, hmap, hpatched, hupd] at h

theorem retryStages_panic (o : List WorkflowStage) (m : JobTaskMap) :
    ∀ (ss : List StageTask) (i : Nat), (retryStages o m i ss).2 = .panic →
      o.length < i + ss.length := by
  intro ss
  induction ss with
  | nil => intro i h; simp [retryStages] at h
  | cons hd rest ih =>
    intro i h
    unfold retryStages at h
    simp only at h
    split at h
    · have := ih (i + 1) h
      simp only [List.length_cons]
      omega
    · split at h
      · split at h
        · rename_i hnone
          have := List.getElem?_eq_none_iff.mp hnone
          simp only [List.length_cons]
          omega
        · split at h
          · simp at h
          · have := ih (i + 1) h
            simp only [List.length_cons]
            omega
      · split at h
        · simp at h
        · have := ih (i + 1) h
          simp only [List.length_cons]
          omega

theorem patched_ok_lookup (env : RetryEnv) (args : WorkflowV4) (taskID : Int)
    (originStages : List WorkflowStage) (jobTaskMap : JobTaskMap) (stages : List StageTask)
    (hmap : expandStagesInto env args taskID args.stageList [] = .ok jobTaskMap)
    (hpatched : (retryStages originStages jobTaskMap 0 stages).2 = .ok) :
    ∃ fresh, freshJobTasks env args taskID = .ok fresh ∧
      ∀ (i : Nat) (s : StageTask) (j : Nat) (jt : JobTask), stages[i]? = some s →
        s.Status ≠ StatusPassed → s.Jobs[j]? = some jt → jt.Status ≠ StatusPassed →
        ∃ t ∈ fresh, t.Key = jt.Key := by
  rw [expandStagesInto_eq] at hmap
  cases hfresh : expandJobList env args taskID (args.stageList.flatMap (fun stage => stage.Jobs)) with
  | error err => simp [hfresh] at hmap
  | ok fresh =>
    simp only [hfresh, Except.ok.injEq] at hmap
    refine ⟨fresh, hfresh, ?_⟩
    intro i s j jt hs hp hj hjp
    obtain ⟨s', _, _, _, _, _, hnone, _⟩ :=
      retryStages_reset originStages jobTaskMap stages 0 hpatched i s hs hp
    obtain ⟨t, hget, _⟩ := retryJobs_reset jobTaskMap s.Jobs hnone j jt hj hjp
    rw [← hmap, jobTaskMap_get_fresh] at hget
    obtain ⟨hmem, hkey⟩ := freshByKey_spec fresh jt.Key t hget
    exact ⟨t, hmem, hkey⟩

/-- C20: if some job that is not passed, in a stage that is not passed, has a
`Key` carried by no job task freshly expanded from the stored arguments,
`RetryWorkflowTaskV4` does not return a nil error and does not call
`UpdateTask`; it returns an error whenever the original arguments have a stage
at every index of a task stage (otherwise the approval reset may panic). -/
theorem retry_missing_key_rejected (env : RetryEnv) (workflowName : String) (taskID : Int)
    (task : WorkflowTask) (args : WorkflowV4)
    (hfind : env.FindTask workflowName taskID = .ok task)
    (hargs : task.WorkflowArgs = some args)
    (hmissing : ∃ (i : Nat) (s : StageTask) (j : Nat) (jt : JobTask),
      task.Stages[i]? = some s ∧ s.Status ≠ StatusPassed ∧
      s.Jobs[j]? = some jt ∧ jt.Status ≠ StatusPassed ∧
      ∀ fresh, freshJobTasks env args taskID = .ok fresh → ∀ t ∈ fresh, t.Key ≠ jt.Key) :
    (RetryWorkflowTaskV4 env workflowName taskID).outcome ≠ .ok ∧
    (∀ t, Call.UpdateTask t ∉ (RetryWorkflowTaskV4 env workflowName taskID).calls) ∧
    ((∀ o stages, task.OriginWorkflowArgs = some o → o.Stages = some stages →
        task.Stages.length ≤ stages.length) →
      ∃ msg, (RetryWorkflowTaskV4 env workflowName taskID).outcome = .error msg) := by
  obtain ⟨i, s, j, jt, hs, hp, hj, hjp, hno⟩ := hmissing
  have hnoUpdate : ∀ t, Call.UpdateTask t ∉ (RetryWorkflowTaskV4 env workflowName taskID).calls := by
    intro t ht
    obtain ⟨task', originStages, args', jobTaskMap, hfind', hargs', hmap, hpatched⟩ :=
      retry_update_inv env workflowName taskID t ht
    rw [hfind] at hfind'
    cases hfind'
    rw [hargs] at hargs'
    cases hargs'
    obtain ⟨fresh, hfresh, hall⟩ :=
      patched_ok_lookup env args taskID originStages jobTaskMap task.Stages hmap hpatched
    obtain ⟨t', hmem, hkey⟩ := hall i s j jt hs hp hj hjp
    exact hno fresh hfresh t' hmem hkey
  have hnotOk : (RetryWorkflowTaskV4 env workflowName taskID).outcome ≠ .ok := by
    intro hok
    obtain ⟨task', originStages, _, jobTaskMap, _, _, _, _, _, _, heq⟩ :=
      retry_ok_inv env workflowName taskID hok
    refine hnoUpdate
      (resumedTask task' (retryStages originStages jobTaskMap 0 task'.Stages).1 env.Now) ?_
    rw [heq]
    simp
  refine ⟨hnotOk, hnoUpdate, ?_⟩
  intro hlen
  cases hout : (RetryWorkflowTaskV4 env workflowName taskID).outcome with
  | ok => exact absurd hout hnotOk
  | error msg => exact ⟨msg, rfl⟩
  | panic =>
    exfalso
    obtain ⟨task', originStages, hfind', horigin, hcase⟩ :=
      retry_panic_inv env workflowName taskID hout
    rw [hfind] at hfind'
    cases hfind'
    rcases hcase with hnone | ⟨jobTaskMap, hpanic⟩
    · rw [hargs] at hnone
      cases hnone
    · have hlt := retryStages_panic originStages jobTaskMap task.Stages 0 hpanic
      cases ho : task.OriginWorkflowArgs with
      | none => simp [ho] at horigin
      | some o =>
        simp only [ho, Option.some_bind] at horigin
        have := hlen o originStages ho horigin
        omega

end Zadig
namespace Zadig

/-- Witness of C20: the key `ship-0` of the failed job is produced by no job
of the stored arguments. -/
theorem retry_missing_key_rejected_witness :
    (∃ (i : Nat) (s : StageTask) (j : Nat) (jt : JobTask),
      demoOrphanTask.Stages[i]? = some s ∧ s.Status ≠ StatusPassed ∧
      s.Jobs[j]? = some jt ∧ jt.Status ≠ StatusPassed ∧
      ∀ fresh, freshJobTasks demoOrphanEnv (stripHooks (demoRender demoWorkflow)) 4 = .ok fresh →
        ∀ t ∈ fresh, t.Key ≠ jt.Key) ∧
    (RetryWorkflowTaskV4 demoOrphanEnv "w" 4).outcome ≠ .ok ∧
    (∀ t, Call.UpdateTask t ∉ (RetryWorkflowTaskV4 demoOrphanEnv "w" 4).calls) ∧
    ((∀ o stages, demoOrphanTask.OriginWorkflowArgs = some o → o.Stages = some stages →
        demoOrphanTask.Stages.length ≤ stages.length) →
      ∃ msg, (RetryWorkflowTaskV4 demoOrphanEnv "w" 4).outcome = .error msg) :=
  have hmissing : ∃ (i : Nat) (s : StageTask) (j : Nat) (jt : JobTask),
      demoOrphanTask.Stages[i]? = some s ∧ s.Status ≠ StatusPassed ∧
      s.Jobs[j]? = some jt ∧ jt.Status ≠ StatusPassed ∧
      ∀ fresh, freshJobTasks demoOrphanEnv (stripHooks (demoRender demoWorkflow)) 4 = .ok fresh →
        ∀ t ∈ fresh, t.Key ≠ jt.Key := by
    refine ⟨1, _, 0, _, rfl, by decide, rfl, by decide, ?_⟩
    intro fresh hfresh
    have hval : freshJobTasks demoOrphanEnv (stripHooks (demoRender demoWorkflow)) 4 =
        .ok [ { Name := "lint", Key := "lint", JobType := "freestyle", Status := "",
                StartTime := 0, EndTime := 0, Error := "", BreakpointBefore := false,
                BreakpointAfter := false, Spec := "rendered" },
              { Name := "ship", Key := "ship", JobType := "zadig-deploy", Status := "",
                StartTime := 0, EndTime := 0, Error := "", BreakpointBefore := false,
                BreakpointAfter := false, Spec := "rendered" } ] := rfl
    rw [hval] at hfresh
    cases hfresh
    decide
  ⟨hmissing,
    retry_missing_key_rejected demoOrphanEnv "w" 4 demoOrphanTask
      (stripHooks (demoRender demoWorkflow)) rfl rfl hmissing⟩

end Zadig
namespace Zadig

/-! ## The lint of workflow templates -/

theorem firstViolation_append (reg : String → Bool) (JobNameRegx : String) :
    ∀ (xs ys earlier : List TemplateItem),
      firstViolation reg JobNameRegx earlier (xs ++ ys) =
        match firstViolation reg JobNameRegx earlier xs with
        | some desc => some desc
        | none => firstViolation reg JobNameRegx (earlier ++ xs) ys := by
  intro xs
  induction xs with
  | nil => intro ys earlier; simp [firstViolation]
  | cons x rest ih =>
    intro ys earlier
    simp only [List.cons_append, firstViolation]
    cases violation reg JobNameRegx earlier x with
    | some desc => rfl
    | none => simp [ih]

theorem lintTemplateJobs_eq (reg : String → Bool) (JobNameRegx : String) :
    ∀ (jobs : List Job) (jobNameMap : List (String × String)) (earlier : List TemplateItem),
      (∀ name, jobNameMap.any (fun kv => kv.1 == name) = true ↔ TemplateItem.job name ∈ earlier) →
      match firstViolation reg JobNameRegx earlier
          (jobs.map (fun job => TemplateItem.job job.Name)) with
      | some desc => lintTemplateJobs reg JobNameRegx jobs jobNameMap = .error desc
      | none =>
        ∃ jobNameMap1, lintTemplateJobs reg JobNameRegx jobs jobNameMap = .ok jobNameMap1 ∧
          ∀ name, jobNameMap1.any (fun kv => kv.1 == name) = true ↔
            TemplateItem.job name ∈ earlier ++ jobs.map (fun job => TemplateItem.job job.Name) := by
  intro jobs
  induction jobs with
  | nil =>
    intro jobNameMap earlier hinv
    simpa [firstViolation, lintTemplateJobs] using hinv
  | cons job rest ih =>
    intro jobNameMap earlier hinv
    simp only [List.map_cons, firstViolation, violation, lintTemplateJobs]
    by_cases hreg : reg job.Name = false
    · simp [hreg]
    · simp only [hreg, if_false]
      by_cases hdup : TemplateItem.job job.Name ∈ earlier
      · have := (hinv job.Name).mpr hdup
        simp [hdup, this]
      · have hnot : ¬ (jobNameMap.any (fun kv => kv.1 == job.Name) = true) :=
          fun h => hdup ((hinv job.Name).mp h)
        simp only [hdup, if_false, hnot]
        have hinv' : ∀ name,
            ((job.Name, job.JobType) :: jobNameMap).any (fun kv => kv.1 == name) = true ↔
              TemplateItem.job name ∈ earlier ++ [TemplateItem.job job.Name] := by
          intro name
          have := hinv name
          simp only [List.any_cons, Bool.or_eq_true, beq_iff_eq, List.mem_append,
            List.mem_singleton, TemplateItem.job.injEq, this]
          constructor
          · rintro (h | h)
            · exact Or.inr h.symm
            · exact Or.inl h
          · rintro (h | h)
            · exact Or.inr h
            · exact Or.inl h.symm
        have := ih ((job.Name, job.JobType) :: jobNameMap) (earlier ++ [TemplateItem.job job.Name])
          hinv'
        simpa [List.append_assoc] using this

theorem templateItems_cons (stage : WorkflowStage) (rest : List WorkflowStage) :
    templateItems (stage :: rest) =
      TemplateItem.stage stage.Name ::
        (stage.Jobs.map (fun job => TemplateItem.job job.Name) ++ templateItems rest) := rfl

theorem lintTemplateStages_eq (reg : String → Bool) (JobNameRegx : String) :
    ∀ (stages : List WorkflowStage) (stageNameMap : List (String × Bool))
      (jobNameMap : List (String × String)) (earlier : List TemplateItem),
      (∀ name, stageNameMap.any (fun kv => kv.1 == name) = true ↔
        TemplateItem.stage name ∈ earlier) →
      (∀ name, jobNameMap.any (fun kv => kv.1 == name) = true ↔ TemplateItem.job name ∈ earlier) →
      lintTemplateStages reg JobNameRegx stages stageNameMap jobNameMap =
        (firstViolation reg JobNameRegx earlier (templateItems stages)).map
          (AddDesc "ErrLintWorkflowTemplate") := by
  intro stages
  induction stages with
  | nil => intro _ _ _ _ _; simp [lintTemplateStages, templateItems, firstViolation]
  | cons stage rest ih =>
    intro stageNameMap jobNameMap earlier hs hj
    rw [templateItems_cons]
    by_cases hdup : TemplateItem.stage stage.Name ∈ earlier
    · have := (hs stage.Name).mpr hdup
      simp [lintTemplateStages, firstViolation, violation, hdup, this]
    · have hnot : (stageNameMap.any (fun kv => kv.1 == stage.Name)) = false := by
        cases h : stageNameMap.any (fun kv => kv.1 == stage.Name) with
        | false => rfl
        | true => exact absurd ((hs stage.Name).mp h) hdup
      have hj' : ∀ name, jobNameMap.any (fun kv => kv.1 == name) = true ↔
          TemplateItem.job name ∈ earlier ++ [TemplateItem.stage stage.Name] := by
        intro name
        simp [hj name]
      have hjobs := lintTemplateJobs_eq reg JobNameRegx stage.Jobs jobNameMap
        (earlier ++ [TemplateItem.stage stage.Name]) hj'
      have hstep : firstViolation reg JobNameRegx earlier
          (TemplateItem.stage stage.Name ::
            (stage.Jobs.map (fun job => TemplateItem.job job.Name) ++ templateItems rest)) =
          firstViolation reg JobNameRegx (earlier ++ [TemplateItem.stage stage.Name])
            (stage.Jobs.map (fun job => TemplateItem.job job.Name) ++ templateItems rest) := by
        simp [firstViolation, violation, hdup]
      rw [hstep, firstViolation_append]
      cases hfirst : firstViolation reg JobNameRegx (earlier ++ [TemplateItem.stage stage.Name])
          (stage.Jobs.map (fun job => TemplateItem.job job.Name)) with
      | some desc =>
        simp only [hfirst] at hjobs
        simp [lintTemplateStages, hnot, hjobs]
      | none =>
        simp only [hfirst] at hjobs
        obtain ⟨jobNameMap1, hok, hinv1⟩ := hjobs
        have hs1 : ∀ name, ((stage.Name, true) :: stageNameMap).any (fun kv => kv.1 == name) = true ↔
            TemplateItem.stage name ∈ earlier ++ [TemplateItem.stage stage.Name]
              ++ stage.Jobs.map (fun job => TemplateItem.job job.Name) := by
          intro name
          have := hs name
          simp only [List.any_cons, Bool.or_eq_true, beq_iff_eq, List.mem_append,
            List.mem_singleton, TemplateItem.stage.injEq, List.mem_map, reduceCtorEq, and_false,
            exists_false, or_false, this]
          constructor
          · rintro (h | h)
            · exact Or.inr h.symm
            · exact Or.inl h
          · rintro (h | h)
            · exact Or.inr h
            · exact Or.inl h.symm
        have := ih ((stage.Name, true) :: stageNameMap) jobNameMap1 _ hs1 hinv1
        simp only [lintTemplateStages, hnot, hok]
        simpa using this

theorem violation_none_iff (reg : String → Bool) (JobNameRegx : String)
    (earlier : List TemplateItem) (item : TemplateItem) :
    violation reg JobNameRegx earlier item = none ↔
      item ∉ earlier ∧ ∀ name, item = TemplateItem.job name → reg name = true := by
  cases item with
  | stage name =>
    by_cases hmem : TemplateItem.stage name ∈ earlier
    · simp [violation, hmem]
    · simp [violation, hmem]
  | job name =>
    by_cases hreg : reg name = false
    · simp [violation, hreg]
    · by_cases hmem : TemplateItem.job name ∈ earlier
      · simp [violation, hreg, hmem]
      · have : reg name = true := by simpa using hreg
        simp [violation, hmem, this]

theorem firstViolation_none_iff (reg : String → Bool) (JobNameRegx : String) :
    ∀ (items earlier : List TemplateItem),
      firstViolation reg JobNameRegx earlier items = none ↔
        (∀ item ∈ items, item ∉ earlier) ∧ items.Nodup ∧
        ∀ name, TemplateItem.job name ∈ items → reg name = true := by
  intro items
  induction items with
  | nil => intro earlier; simp [firstViolation]
  | cons item rest ih =>
    intro earlier
    have hv := violation_none_iff reg JobNameRegx earlier item
    have key := ih (earlier ++ [item])
    simp only [firstViolation]
    cases hviol : violation reg JobNameRegx earlier item with
    | some desc =>
      rw [hviol] at hv
      simp only [reduceCtorEq, false_iff]
      rintro ⟨h1, _, h3⟩
      exact Option.noConfusion (hv.mpr ⟨h1 item (List.mem_cons_self _ _),
        fun name h => h3 name (h ▸ List.mem_cons_self _ _)⟩)
    | none =>
      rw [hviol] at hv
      obtain ⟨hfresh, hpolicy⟩ := hv.mp rfl
      simp only
      rw [key]
      constructor
      · rintro ⟨h1, h2, h3⟩
        refine ⟨?_, ?_, ?_⟩
        · intro x hx
          rcases List.mem_cons.mp hx with h | h
          · rw [h]; exact hfresh
          · intro hxe
            exact h1 x h (List.mem_append_left _ hxe)
        · refine List.nodup_cons.mpr ⟨?_, h2⟩
          intro hmem
          exact h1 item hmem (List.mem_append_right _ (List.mem_singleton_self _))
        · intro name hname
          rcases List.mem_cons.mp hname with h | h
          · exact hpolicy name h.symm
          · exact h3 name h
      · rintro ⟨h1, h2, h3⟩
        obtain ⟨hnot, h2'⟩ := List.nodup_cons.mp h2
        refine ⟨?_, h2', fun name hname => h3 name (List.mem_cons_of_mem _ hname)⟩
        intro x hx hxe
        rcases List.mem_append.mp hxe with h | h
        · exact h1 x (List.mem_cons_of_mem _ hx) h
        · rw [List.mem_singleton.mp h] at hx
          exact hnot hx

theorem mem_templateItems_stage (stages : List WorkflowStage) (name : String) :
    TemplateItem.stage name ∈ templateItems stages ↔ name ∈ stages.map (fun stage => stage.Name) := by
  induction stages with
  | nil => simp [templateItems]
  | cons stage rest ih =>
    simp only [templateItems, List.cons_append, List.mem_cons, TemplateItem.stage.injEq,
      List.mem_append, List.mem_map, reduceCtorEq, and_false, exists_false, false_or, ih,
      List.map_cons]

theorem mem_templateItems_job (stages : List WorkflowStage) (name : String) :
    TemplateItem.job name ∈ templateItems stages ↔
      name ∈ stages.flatMap (fun stage => stage.Jobs.map (fun job => job.Name)) := by
  induction stages with
  | nil => simp [templateItems]
  | cons stage rest ih =>
    simp only [templateItems, List.cons_append, List.mem_cons, reduceCtorEq, List.mem_append,
      List.mem_map, TemplateItem.job.injEq, false_or, ih, List.flatMap_cons]

theorem templateItems_nodup (stages : List WorkflowStage) :
    (templateItems stages).Nodup ↔
      (stages.map (fun stage => stage.Name)).Nodup ∧
      (stages.flatMap (fun stage => stage.Jobs.map (fun job => job.Name))).Nodup := by
  induction stages with
  | nil => simp [templateItems]
  | cons stage rest ih =>
    have hinj : Function.Injective TemplateItem.job := fun a b h => by cases h; rfl
    have hmap : stage.Jobs.map (fun job => TemplateItem.job job.Name) =
        (stage.Jobs.map (fun job => job.Name)).map TemplateItem.job := by simp
    simp only [templateItems, List.cons_append, List.nodup_cons, List.mem_append,
      List.nodup_append, List.map_cons, List.flatMap_cons, ih, hmap,
      List.nodup_map_iff hinj, mem_templateItems_stage, List.Disjoint]
    constructor
    · rintro ⟨hn, hj, ⟨hs, hjr⟩, hdis⟩
      refine ⟨⟨fun h => hn (Or.inr h), hs⟩, hj, hjr, ?_⟩
      intro a ha hb
      exact hdis (List.mem_map_of_mem _ ha) ((mem_templateItems_job rest a).mpr hb)
    · rintro ⟨⟨hn, hs⟩, hj, hjr, hdis⟩
      refine ⟨?_, hj, ⟨hs, hjr⟩, ?_⟩
      · rintro (h | h)
        · simp at h
        · exact hn h
      · intro a ha hb
        obtain ⟨n, hn', rfl⟩ := List.mem_map.mp ha
        exact hdis hn' ((mem_templateItems_job rest n).mp hb)

end Zadig
namespace Zadig

/-- C19: when `setting.JobNameRegx` compiles, `lintWorkflowTemplate` accepts a
template if and only if its stage names are pairwise distinct, every job name
matches the naming policy and the job names are pairwise distinct across all
stages; otherwise it returns the error of the first violation met in stage
order then job order (for each stage its name, then its jobs in order; for
each job the naming policy, then the duplicate check).  When the expression
does not compile every template is rejected. -/
theorem lintWorkflowTemplate_accepts_iff (reg : String → Bool) (JobNameRegx : String)
    (template : WorkflowV4Template) :
    (lintWorkflowTemplate (.ok reg) JobNameRegx template = none ↔
      (template.Stages.map (fun stage => stage.Name)).Nodup ∧
      (∀ stage ∈ template.Stages, ∀ job ∈ stage.Jobs, reg job.Name = true) ∧
      (template.Stages.flatMap (fun stage => stage.Jobs.map (fun job => job.Name))).Nodup) ∧
    lintWorkflowTemplate (.ok reg) JobNameRegx template =
      (firstViolation reg JobNameRegx [] (templateItems template.Stages)).map
        (AddDesc "ErrLintWorkflowTemplate") ∧
    ∀ err, lintWorkflowTemplate (.error err) JobNameRegx template ≠ none := by
  have heq : lintWorkflowTemplate (.ok reg) JobNameRegx template =
      (firstViolation reg JobNameRegx [] (templateItems template.Stages)).map
        (AddDesc "ErrLintWorkflowTemplate") := by
    unfold lintWorkflowTemplate
    exact lintTemplateStages_eq reg JobNameRegx template.Stages [] [] [] (by simp) (by simp)
  refine ⟨?_, heq, ?_⟩
  · rw [heq, Option.map_eq_none', firstViolation_none_iff, templateItems_nodup]
    constructor
    · rintro ⟨_, ⟨hs, hj⟩, hreg⟩
      refine ⟨hs, ?_, hj⟩
      intro stage hstage job hjob
      apply hreg
      rw [mem_templateItems_job]
      exact List.mem_flatMap.mpr ⟨stage, hstage, List.mem_map_of_mem _ hjob⟩
    · rintro ⟨hs, hreg, hj⟩
      refine ⟨by simp, ⟨hs, hj⟩, ?_⟩
      intro name hname
      rw [mem_templateItems_job] at hname
      obtain ⟨stage, hstage, hin⟩ := List.mem_flatMap.mp hname
      obtain ⟨job, hjob, rfl⟩ := List.mem_map.mp hin
      exact hreg stage hstage job hjob
  · intro err
    simp [lintWorkflowTemplate]

/-! ## Allocation of task identities -/

theorem serve_gt (reqs : List SeqRequest) :
    ∀ (store : CounterStore) (g : SeqGrant), g ∈ serve store reqs → store g.name < g.seq := by
  induction reqs with
  | nil => intro store g h; simp [serve] at h
  | cons r rest ih =>
    intro store g h
    simp only [serve, List.mem_cons] at h
    rcases h with h | h
    · subst h
      simp [nextSequence]
    · have := ih _ g h
      simp only [nextSequence] at this
      by_cases hname : g.name = r.name
      · simp only [hname, if_true] at this
        rw [hname]
        omega
      · simpa [hname] using this

theorem serve_increasing (reqs : List SeqRequest) :
    ∀ store : CounterStore,
      (serve store reqs).Pairwise (fun a b => a.name = b.name → a.seq < b.seq) := by
  induction reqs with
  | nil => intro store; simp [serve]
  | cons r rest ih =>
    intro store
    simp only [serve, List.pairwise_cons]
    refine ⟨?_, ih _⟩
    intro g hg hname
    have := serve_gt rest _ g hg
    simp only [nextSequence] at this hname ⊢
    simpa [← hname] using this

theorem createFromStages_resp (env : CreateEnv) (args : CreateWorkflowTaskV4Args)
    (resp : CreateTaskV4Resp) (calls : List Call) (workflowTask : WorkflowTask)
    (workflow : WorkflowV4) :
    (createFromStages env args resp calls workflowTask workflow).resp = some resp := by
  unfold createFromStages
  split
  · rfl
  · split
    · rfl
    · split
      · rfl
      · simp only
        split <;> rfl

/-- C11: requests for task identities, issued by any number of callers and
served one atomic increment at a time, receive for each counter name strictly
increasing numbers, so no two requests for one workflow receive the same
number; and when `CreateWorkflowTaskV4` hands a task to the controller, the
number it allocated is the `TaskID` of that task and the `TaskID` of its
response. -/
theorem task_id_allocated (store : CounterStore) (reqs : List SeqRequest) (env : CreateEnv)
    (args : CreateWorkflowTaskV4Args) (workflow : WorkflowV4) :
    (serve store reqs).Pairwise (fun a b => a.name = b.name → a.seq < b.seq) ∧
    (serve store reqs).map (fun g => (g.caller, g.name)) = reqs.map (fun r => (r.caller, r.name)) ∧
    ∀ t, Call.CreateTask t ∈ (CreateWorkflowTaskV4 env args workflow).calls →
      ∃ workflow1 nextTaskID,
        env.InstantiateWorkflow workflow = .ok workflow1 ∧
        env.GetNextSeq (env.WorkflowTaskV4Fmt workflow1.Name) = .ok nextTaskID ∧
        t.TaskID = nextTaskID ∧
        (CreateWorkflowTaskV4 env args workflow).resp =
          some { ProjectName := workflow.Project, WorkflowName := workflow.Name,
                 TaskID := nextTaskID } := by
  refine ⟨serve_increasing reqs store, ?_, ?_⟩
  · induction reqs generalizing store with
    | nil => rfl
    | cons r rest ih => simp [serve, ih]
  · intro t ht
    obtain ⟨hash, workflow1, user, originTaskArgs, nextTaskID, workflow2, workflow3, built,
      workflowArgs, hinst, hitoi, hseq, hmarks, hglobal, _, _, _, heq⟩ :=
      create_submitted_inv env args workflow t ht
    refine ⟨workflow1, nextTaskID, hinst, hseq, ?_, ?_⟩
    · rw [heq]
      rfl
    · rcases create_cases env args workflow with ⟨_, hno⟩ | ⟨hash', workflow1', user', hinst', hc⟩
      · exact absurd ht (hno t)
      · rw [hinst] at hinst'
        cases hinst'
        rcases createFromSnapshot_cases env args
            { ProjectName := workflow.Project, WorkflowName := workflow.Name, TaskID := 0 }
            hash' user' workflow1 with
          ⟨_, hno⟩ | ⟨o', id', w2', w3', _, hseq', _, _, hc2⟩
        · rw [hc] at ht
          exact absurd ht (hno t)
        · rw [hseq] at hseq'
          cases hseq'
          rw [hc, hc2, createFromStages_resp]

/-- Witness of C11: three callers interleaved on two counters, and the
instantiation of `demoWorkflow`. -/
theorem task_id_allocated_witness :
    Call.CreateTask demoCreatedTask ∈
      (CreateWorkflowTaskV4 demoCreateEnv { Name := "alice", UserID := "" } demoWorkflow).calls ∧
    serve (fun _ => 0) [⟨0, "a"⟩, ⟨1, "a"⟩, ⟨0, "b"⟩, ⟨2, "a"⟩] =
      [⟨0, "a", 1⟩, ⟨1, "a", 2⟩, ⟨0, "b", 1⟩, ⟨2, "a", 3⟩] ∧
    ∃ workflow1 nextTaskID,
      demoCreateEnv.InstantiateWorkflow demoWorkflow = .ok workflow1 ∧
      demoCreateEnv.GetNextSeq (demoCreateEnv.WorkflowTaskV4Fmt workflow1.Name) = .ok nextTaskID ∧
      demoCreatedTask.TaskID = nextTaskID ∧
      (CreateWorkflowTaskV4 demoCreateEnv { Name := "alice", UserID := "" } demoWorkflow).resp =
        some { ProjectName := demoWorkflow.Project, WorkflowName := demoWorkflow.Name,
               TaskID := nextTaskID } :=
  ⟨by decide, by decide,
    (task_id_allocated (fun _ => 0) [⟨0, "a"⟩, ⟨1, "a"⟩, ⟨0, "b"⟩, ⟨2, "a"⟩] demoCreateEnv
      { Name := "alice", UserID := "" } demoWorkflow).2.2 demoCreatedTask (by decide)⟩

end Zadig
namespace Zadig

/-! ## The approval gate -/

theorem gate_approve_inv (g : Gate) (decider : String) :
    (g.approve decider).2.neededApprovers = g.neededApprovers ∧
    (g.approved.Nodup → (g.approve decider).2.approved.Nodup) ∧
    (∀ x ∈ (g.approve decider).2.approved, x ∈ g.approved ∨ x = decider) ∧
    (((g.approve decider).2.status = .passed →
        g.neededApprovers ≤ (g.approve decider).2.approved.length) ∨
      (g.approve decider).2 = g) := by
  unfold Gate.approve
  split
  · split
    · exact ⟨rfl, fun h => h, fun x hx => Or.inl hx, Or.inr rfl⟩
    · rename_i hmem
      refine ⟨rfl, ?_, ?_, Or.inl ?_⟩
      · intro hnd
        refine List.nodup_append.mpr ⟨hnd, by simp, ?_⟩
        intro a ha hb
        rw [List.mem_singleton.mp hb] at ha
        exact hmem ha
      · intro x hx
        rcases List.mem_append.mp hx with h | h
        · exact Or.inl h
        · exact Or.inr (List.mem_singleton.mp h)
      · intro hpassed
        by_cases hle : g.neededApprovers ≤ (g.approved ++ [decider]).length
        · exact hle
        · simp only [hle, if_false, reduceCtorEq] at hpassed
  · exact ⟨rfl, fun h => h, fun x hx => Or.inl hx, Or.inr rfl⟩

theorem gate_reject_inv (g : Gate) (decider : String) :
    (g.reject decider).2.neededApprovers = g.neededApprovers ∧
    (g.reject decider).2.approved = g.approved ∧
    ((g.reject decider).2.status ≠ .passed ∨ (g.reject decider).2 = g) := by
  unfold Gate.reject
  split
  · exact ⟨rfl, rfl, Or.inl (by simp)⟩
  · exact ⟨rfl, rfl, Or.inr rfl⟩

/-- The status after a rejection: reject, unless the gate had passed. -/
theorem gate_reject_status (g : Gate) (decider : String) :
    (g.reject decider).2.status = if g.status = .passed then .passed else .reject := by
  unfold Gate.reject
  cases h : g.status <;> simp [h]

/-- A decided gate stays as it is. -/
theorem gate_run_decided (ds : List (String × Bool)) :
    ∀ g : Gate, g.status ≠ .pending → g.run ds = g := by
  induction ds with
  | nil => intro g _; rfl
  | cons d rest ih =>
    intro g hg
    obtain ⟨decider, approve⟩ := d
    cases approve with
    | true =>
      have h : (g.approve decider).2 = g := by
        unfold Gate.approve
        cases hs : g.status <;> simp_all
      simp only [Gate.run, h]
      exact ih g hg
    | false =>
      have h : (g.reject decider).2 = g := by
        unfold Gate.reject
        cases hs : g.status <;> simp_all
      simp only [Gate.run, h]
      exact ih g hg

theorem gate_run_append (ds1 ds2 : List (String × Bool)) :
    ∀ g : Gate, g.run (ds1 ++ ds2) = (g.run ds1).run ds2 := by
  induction ds1 with
  | nil => intro g; rfl
  | cons d rest ih =>
    intro g
    obtain ⟨decider, approve⟩ := d
    cases approve <;> simp only [List.cons_append, Gate.run, List.append_eq, ih]

/-- The status once a rejection has arrived: reject, whatever decisions
follow, unless the gate had passed before the rejection. -/
theorem gate_run_rejected (g : Gate) (ds1 ds2 : List (String × Bool)) (decider : String) :
    (g.run (ds1 ++ (decider, false) :: ds2)).status =
      if (g.run ds1).status = .passed then .passed else .reject := by
  rw [gate_run_append]
  simp only [Gate.run]
  have h := gate_reject_status (g.run ds1) decider
  have hd : ((g.run ds1).reject decider).2.status ≠ .pending := by
    rw [h]
    split <;> simp
  rw [gate_run_decided ds2 _ hd, h]

theorem gate_run_inv (ds : List (String × Bool)) :
    ∀ g : Gate,
      (g.status = .passed → g.neededApprovers ≤ g.approved.length) →
      (g.run ds).neededApprovers = g.neededApprovers ∧
      (g.approved.Nodup → (g.run ds).approved.Nodup) ∧
      (∀ x ∈ (g.run ds).approved, x ∈ g.approved ∨ (x, true) ∈ ds) ∧
      ((g.run ds).status = .passed → g.neededApprovers ≤ (g.run ds).approved.length) := by
  induction ds with
  | nil =>
    intro g hg
    exact ⟨rfl, fun h => h, fun x hx => Or.inl hx, hg⟩
  | cons d rest ih =>
    intro g hg
    obtain ⟨decider, approve⟩ := d
    cases approve with
    | true =>
      obtain ⟨a1, a2, a3, a4⟩ := gate_approve_inv g decider
      have hg' : (g.approve decider).2.status = .passed →
          (g.approve decider).2.neededApprovers ≤ (g.approve decider).2.approved.length := by
        rcases a4 with h | h
        · rw [a1]; exact h
        · rw [h]; exact hg
      obtain ⟨h1, h2, h3, h4⟩ := ih (g.approve decider).2 hg'
      simp only [Gate.run]
      refine ⟨h1.trans a1, fun hnd => h2 (a2 hnd), ?_, ?_⟩
      · intro x hx
        rcases h3 x hx with h | h
        · rcases a3 x h with h' | h'
          · exact Or.inl h'
          · right; simp [h']
        · right; simp [h]
      · intro hp
        rw [← a1]
        exact h4 hp
    | false =>
      obtain ⟨r1, r2, r3⟩ := gate_reject_inv g decider
      have hg' : (g.reject decider).2.status = .passed →
          (g.reject decider).2.neededApprovers ≤ (g.reject decider).2.approved.length := by
        rcases r3 with h | h
        · intro hp; exact absurd hp h
        · rw [h]; exact hg
      obtain ⟨h1, h2, h3, h4⟩ := ih (g.reject decider).2 hg'
      simp only [Gate.run]
      refine ⟨h1.trans r1, fun hnd => h2 (r2 ▸ hnd), ?_, ?_⟩
      · intro x hx
        rcases h3 x hx with h | h
        · exact Or.inl (r2 ▸ h)
        · right; simp [h]
      · intro hp
        rw [← r1]
        exact h4 hp

end Zadig
namespace Zadig

/-- C18: an approval gate configured with two needed approvers is pending
after one approval, is still pending when the same decider approves again, and
is passed after a second, distinct decider approves; whatever the sequence of
decisions, it is passed only if two distinct deciders approved.  A rejection
from any decider yields reject: on the gate that holds no approval, on the gate
that holds one approval, by the decider who approved or by another, and on any
gate whatever approvals it holds, unless it had passed already; once the
rejection has arrived, the gate is reject whatever decisions follow.
`ApproveStage`, given a workflow name, a stage name and a task ID, forwards the
decision to the controller with every argument unchanged, once, and returns a
nil error exactly when the controller does. -/
theorem approval_gate_quorum (x y : String) (hxy : x ≠ y) (ds : List (String × Bool))
    (controller : ApproveCall → Option String)
    (workflowName stageName userName userID comment : String) (taskID : Int) (approve : Bool)
    (hworkflow : workflowName ≠ "") (hstage : stageName ≠ "") (htask : taskID ≠ 0) :
    ((Gate.new 2).approve x).2.status = .pending ∧
    (((Gate.new 2).approve x).2.approve x).2.status = .pending ∧
    (((Gate.new 2).approve x).2.approve y).2.status = .passed ∧
    (((Gate.new 2).run ds).status = .passed →
      ∃ a b, a ≠ b ∧ (a, true) ∈ ds ∧ (b, true) ∈ ds) ∧
    (∀ decider : String, ((Gate.new 2).reject decider).2.status = .reject) ∧
    (∀ decider : String, (((Gate.new 2).approve x).2.reject decider).2.status = .reject) ∧
    (∀ (g : Gate) (decider : String),
      (g.reject decider).2.status = if g.status = .passed then .passed else .reject) ∧
    (∀ (g : Gate) (before later : List (String × Bool)) (decider : String),
      (g.run (before ++ (decider, false) :: later)).status =
        if (g.run before).status = .passed then .passed else .reject) ∧
    (ApproveStage controller workflowName stageName userName userID comment taskID approve).2 =
      [{ workflowName := workflowName, stageName := stageName, userName := userName,
         userID := userID, comment := comment, taskID := taskID, approve := approve }] ∧
    ((ApproveStage controller workflowName stageName userName userID comment taskID approve).1
        = .ok ↔
      controller { workflowName := workflowName, stageName := stageName, userName := userName,
                   userID := userID, comment := comment, taskID := taskID, approve := approve }
        = none) := by
  refine ⟨?_, ?_, ?_, ?_, ?_, ?_, gate_reject_status, gate_run_rejected, ?_, ?_⟩
  · simp [Gate.new, Gate.approve]
  · simp [Gate.new, Gate.approve]
  · have : ¬ y = x := fun h => hxy h.symm
    simp [Gate.new, Gate.approve, this]
  · intro hp
    obtain ⟨_, h2, h3, h4⟩ := gate_run_inv ds (Gate.new 2) (by simp [Gate.new])
    have hlen : 2 ≤ ((Gate.new 2).run ds).approved.length := h4 hp
    have hnd := h2 (by simp [Gate.new])
    cases happ : ((Gate.new 2).run ds).approved with
    | nil => simp [happ] at hlen
    | cons a rest =>
      cases rest with
      | nil => simp [happ] at hlen
      | cons b rest' =>
        rw [happ] at hnd
        have hab : a ≠ b := by
          intro h
          rw [h] at hnd
          simp at hnd
        have ha := h3 a (by simp [happ])
        have hb := h3 b (by simp [happ])
        simp only [Gate.new, List.not_mem_nil, false_or] at ha hb
        exact ⟨a, b, hab, ha, hb⟩
  · intro decider
    simp [Gate.new, Gate.reject]
  · intro decider
    simp [Gate.new, Gate.approve, Gate.reject]
  · have hguard : ¬ (workflowName = "" ∨ stageName = "" ∨ taskID = 0) := by
      simp [hworkflow, hstage, htask]
    unfold ApproveStage
    simp only [hguard, if_false]
    split <;> rfl
  · have hguard : ¬ (workflowName = "" ∨ stageName = "" ∨ taskID = 0) := by
      simp [hworkflow, hstage, htask]
    unfold ApproveStage
    simp only [hguard, if_false]
    split
    · rename_i err herr
      simp [herr]
    · rename_i herr
      simp [herr]

/-- Witness of C18: deciders `x` and `y`, and an approval of the stage `deploy`
of task 1 forwarded to a controller that accepts it; the gate that holds the
approval of `x` is reject after a rejection by `x`, and after one by `z`. -/
theorem approval_gate_quorum_witness :
    ("x" : String) ≠ "y" ∧
    (((Gate.new 2).approve "x").2.reject "x").2.status = .reject ∧
    (((Gate.new 2).approve "x").2.reject "z").2.status = .reject ∧
    ((Gate.new 2).run [("x", true), ("x", false), ("y", true)]).status = .reject ∧
    ((Gate.new 2).approve "x").2.status = .pending ∧
    (((Gate.new 2).approve "x").2.approve "x").2.status = .pending ∧
    (((Gate.new 2).approve "x").2.approve "y").2.status = .passed ∧
    (((Gate.new 2).run [("x", true), ("x", true), ("y", true)]).status = .passed →
      ∃ a b, a ≠ b ∧ (a, true) ∈ [("x", true), ("x", true), ("y", true)] ∧
        (b, true) ∈ [("x", true), ("x", true), ("y", true)]) ∧
    (∀ decider : String, ((Gate.new 2).reject decider).2.status = .reject) ∧
    (∀ decider : String, (((Gate.new 2).approve "x").2.reject decider).2.status = .reject) ∧
    (∀ (g : Gate) (decider : String),
      (g.reject decider).2.status = if g.status = .passed then .passed else .reject) ∧
    (∀ (g : Gate) (before later : List (String × Bool)) (decider : String),
      (g.run (before ++ (decider, false) :: later)).status =
        if (g.run before).status = .passed then .passed else .reject) ∧
    (ApproveStage (fun _ => none) "w" "deploy" "alice" "u1" "fine" 1 true).2 =
      [{ workflowName := "w", stageName := "deploy", userName := "alice", userID := "u1",
         comment := "fine", taskID := 1, approve := true }] ∧
    ((ApproveStage (fun _ => none) "w" "deploy" "alice" "u1" "fine" 1 true).1 = .ok ↔
      (fun _ => none : ApproveCall → Option String)
        { workflowName := "w", stageName := "deploy", userName := "alice", userID := "u1",
          comment := "fine", taskID := 1, approve := true } = none) :=
  ⟨by decide, by decide, by decide, by decide,
    approval_gate_quorum "x" "y" (by decide) [("x", true), ("x", true), ("y", true)]
      (fun _ => none) "w" "deploy" "alice" "u1" "fine" 1 true (by decide) (by decide)
      (by decide)⟩

end Zadig
namespace Zadig

/-! ## Lemmas on the breakpoint control -/

theorem probeThenSet_nil (env : DebugEnv) (jobTaskSpec : JobTaskFreestyleSpec) (pod : Pod)
    (probe started : String) (set : Bool) (position : String) (hc : pod.Containers = []) :
    probeThenSet env jobTaskSpec pod probe started set position = ([], .panic) := by
  simp [probeThenSet, exec, hc]

theorem probeThenSet_cons (env : DebugEnv) (jobTaskSpec : JobTaskFreestyleSpec) (pod : Pod)
    (probe started : String) (set : Bool) (position : String) (c : String) (cs : List String)
    (hc : pod.Containers = c :: cs) :
    probeThenSet env jobTaskSpec pod probe started set position =
      if env.KubeExec 0 (execOptions jobTaskSpec pod c probe) = true then
        ([.KubeExec (execOptions jobTaskSpec pod c probe)],
          .error (AddDesc "ErrSetBreakpoint" started))
      else
        ([.KubeExec (execOptions jobTaskSpec pod c probe),
          .KubeExec (execOptions jobTaskSpec pod c
            (setOrUnsetBreakpoint (touchOrRemove set) position))], .ok) := by
  cases hk : env.KubeExec 0 (execOptions jobTaskSpec pod c probe) <;>
    simp [probeThenSet, exec, hc, hk]

theorem assignBreakpoint_ack (jobName : String) (set : Bool) (position : String)
    (w : WorkflowTask) :
    (assignBreakpoint jobName set position w).2 = true ↔
      position = "before" ∨ position = "after" := by
  unfold assignBreakpoint
  by_cases hb : position = "before"
  · simp [hb]
  · by_cases ha : position = "after"
    · simp [ha]
    · simp [hb, ha]

theorem getClients_setup (env : DebugEnv) (clusterID what : String) :
    ∀ e ∈ (getClients env clusterID what).1, e.isSetup = true := by
  unfold getClients
  cases env.GetKubeClient clusterID with
  | some _ => simp [CtlEvent.isSetup]
  | none =>
    cases env.GetClientset clusterID with
    | some _ => simp [CtlEvent.isSetup]
    | none =>
      cases env.GetRESTConfig clusterID with
      | some _ => simp [CtlEvent.isSetup]
      | none => simp [CtlEvent.isSetup]

theorem setBreakpointRunning_shape (env : DebugEnv) (w : WorkflowTask) (task : JobTask)
    (jobTaskSpec : JobTaskFreestyleSpec) (jobName : String) (set : Bool) (position : String)
    (setup : List CtlEvent) (hsetup : ∀ e ∈ setup, e.isSetup = true) :
    ∃ setup' execs,
      (setBreakpointRunning env w task jobTaskSpec jobName set position setup).events
        = setup' ++ execs ∧
      (∀ e ∈ setup', e.isSetup = true) ∧
      ((execs = [] ∧
          ((setBreakpointRunning env w task jobTaskSpec jobName set position setup).outcome ≠ .ok →
            (setBreakpointRunning env w task jobTaskSpec jobName set position setup).task = w ∧
            (setBreakpointRunning env w task jobTaskSpec jobName set position setup).ack = false) ∧
          ((setBreakpointRunning env w task jobTaskSpec jobName set position setup).outcome = .ok →
            (setBreakpointRunning env w task jobTaskSpec jobName set position setup).task
              = (assignBreakpoint jobName set position w).1 ∧
            (setBreakpointRunning env w task jobTaskSpec jobName set position setup).ack
              = (assignBreakpoint jobName set position w).2 ∧
            position ≠ "before" ∧ position ≠ "after")) ∨
        (∃ opt, execs = [.KubeExec opt] ∧ opt.Command = ["sh", "-c", probeFor position] ∧
          env.KubeExec 0 opt = true ∧
          (position = "before" ∨ position = "after") ∧
          (∃ msg, (setBreakpointRunning env w task jobTaskSpec jobName set position setup).outcome
            = .error msg) ∧
          (setBreakpointRunning env w task jobTaskSpec jobName set position setup).task = w ∧
          (setBreakpointRunning env w task jobTaskSpec jobName set position setup).ack = false) ∨
        (∃ opt opt2, execs = [.KubeExec opt, .KubeExec opt2] ∧
          opt.Command = ["sh", "-c", probeFor position] ∧
          env.KubeExec 0 opt = false ∧
          opt2.Command = ["sh", "-c", setOrUnsetBreakpoint (touchOrRemove set) position] ∧
          (position = "before" ∨ position = "after") ∧
          (setBreakpointRunning env w task jobTaskSpec jobName set position setup).outcome = .ok ∧
          (setBreakpointRunning env w task jobTaskSpec jobName set position setup).task
            = (assignBreakpoint jobName set position w).1 ∧
          (setBreakpointRunning env w task jobTaskSpec jobName set position setup).ack = true)) := by
  have hsetup' : ∀ e ∈ setup ++ [CtlEvent.ListPods jobTaskSpec.Namespace task.K8sJobName],
      e.isSetup = true := by
    intro e he
    rcases List.mem_append.mp he with h | h
    · exact hsetup e h
    · rw [List.mem_singleton.mp h]; rfl
  cases hpods : env.ListPods jobTaskSpec.Namespace task.K8sJobName with
  | error err =>
    refine ⟨_, [], ?_, hsetup', Or.inl ⟨rfl, ?_, ?_⟩⟩ <;> simp [setBreakpointRunning, hpods]
  | ok pods =>
    cases pods with
    | nil =>
      refine ⟨_, [], ?_, hsetup', Or.inl ⟨rfl, ?_, ?_⟩⟩ <;> simp [setBreakpointRunning, hpods]
    | cons pod rest =>
      by_cases hphase : pod.Phase = PodRunning
      · by_cases hpos : position = "before" ∨ position = "after"
        · have hcmd : (if position = "before" then
                probeThenSet env jobTaskSpec pod checkShellStepStart
                  "当前任务已开始运行脚本，无法修改前断点" set position
              else if position = "after" then
                probeThenSet env jobTaskSpec pod checkShellStepDone
                  "当前任务已运行完脚本，无法修改后断点" set position
              else ([], .ok)) =
              probeThenSet env jobTaskSpec pod (probeFor position)
                (if position = "before" then "当前任务已开始运行脚本，无法修改前断点"
                  else "当前任务已运行完脚本，无法修改后断点") set position := by
            rcases hpos with h | h
            · simp [h, probeFor]
            · have : ¬ position = "before" := by rw [h]; decide
              simp [this, h, probeFor]
          cases hcont : pod.Containers with
          | nil =>
            have hprobe := probeThenSet_nil env jobTaskSpec pod (probeFor position)
              (if position = "before" then "当前任务已开始运行脚本，无法修改前断点"
                else "当前任务已运行完脚本，无法修改后断点") set position hcont
            refine ⟨_, [], ?_, hsetup', Or.inl ⟨rfl, ?_, ?_⟩⟩ <;>
              simp [setBreakpointRunning, hpods, hphase, hcmd, hprobe]
          | cons c cs =>
            have hprobe := probeThenSet_cons env jobTaskSpec pod (probeFor position)
              (if position = "before" then "当前任务已开始运行脚本，无法修改前断点"
                else "当前任务已运行完脚本，无法修改后断点") set position c cs hcont
            cases hk : env.KubeExec 0 (execOptions jobTaskSpec pod c (probeFor position)) with
            | true =>
              simp only [hk, if_true] at hprobe
              refine ⟨_, [.KubeExec (execOptions jobTaskSpec pod c (probeFor position))], ?_,
                hsetup', Or.inr (Or.inl ⟨_, rfl, rfl, hk, hpos, ?_, ?_, ?_⟩)⟩ <;>
                simp [setBreakpointRunning, hpods, hphase, hcmd, hprobe]
            | false =>
              simp only [hk, Bool.false_eq_true, if_false] at hprobe
              have hack := (assignBreakpoint_ack jobName set position w).mpr hpos
              refine ⟨_, [.KubeExec (execOptions jobTaskSpec pod c (probeFor position)),
                  .KubeExec (execOptions jobTaskSpec pod c
                    (setOrUnsetBreakpoint (touchOrRemove set) position))], ?_,
                hsetup', Or.inr (Or.inr ⟨_, _, rfl, rfl, hk, rfl, hpos, ?_, ?_, ?_⟩)⟩ <;>
                simp [setBreakpointRunning, hpods, hphase, hcmd, hprobe, hack]
        · have hb : ¬ position = "before" := fun h => hpos (Or.inl h)
          have ha : ¬ position = "after" := fun h => hpos (Or.inr h)
          refine ⟨_, [], ?_, hsetup', Or.inl ⟨rfl, ?_, ?_⟩⟩ <;>
            simp [setBreakpointRunning, hpods, hphase, hb, ha]
      · refine ⟨_, [], ?_, hsetup', Or.inl ⟨rfl, ?_, ?_⟩⟩ <;>
          simp [setBreakpointRunning, hpods, hphase]

end Zadig
namespace Zadig

theorem setBreakpointBody_shape (env : DebugEnv) (w : WorkflowTask) (jobName : String)
    (set : Bool) (position : String) :
    ∃ setup execs,
      (setBreakpointBody env w jobName set position).events = setup ++ execs ∧
      (∀ e ∈ setup, e.isSetup = true) ∧
      ((execs = [] ∧
          ((setBreakpointBody env w jobName set position).outcome ≠ .ok →
            (setBreakpointBody env w jobName set position).task = w ∧
            (setBreakpointBody env w jobName set position).ack = false) ∧
          ((setBreakpointBody env w jobName set position).outcome = .ok →
            (setBreakpointBody env w jobName set position).task
              = (assignBreakpoint jobName set position w).1 ∧
            (setBreakpointBody env w jobName set position).ack
              = (assignBreakpoint jobName set position w).2)) ∨
        (∃ opt, execs = [.KubeExec opt] ∧ opt.Command = ["sh", "-c", probeFor position] ∧
          env.KubeExec 0 opt = true ∧
          (position = "before" ∨ position = "after") ∧
          (∃ msg, (setBreakpointBody env w jobName set position).outcome = .error msg) ∧
          (setBreakpointBody env w jobName set position).task = w ∧
          (setBreakpointBody env w jobName set position).ack = false) ∨
        (∃ opt opt2, execs = [.KubeExec opt, .KubeExec opt2] ∧
          opt.Command = ["sh", "-c", probeFor position] ∧
          env.KubeExec 0 opt = false ∧
          opt2.Command = ["sh", "-c", setOrUnsetBreakpoint (touchOrRemove set) position] ∧
          (position = "before" ∨ position = "after") ∧
          (setBreakpointBody env w jobName set position).outcome = .ok ∧
          (setBreakpointBody env w jobName set position).task
            = (assignBreakpoint jobName set position w).1 ∧
          (setBreakpointBody env w jobName set position).ack = true)) := by
  cases hjob : findJob jobName w.Stages with
  | none =>
    refine ⟨[], [], ?_, by simp, Or.inl ⟨rfl, ?_, ?_⟩⟩ <;> simp [setBreakpointBody, hjob]
  | some task =>
    by_cases hempty : task.Status = ""
    · refine ⟨[], [], ?_, by simp, Or.inl ⟨rfl, ?_, ?_⟩⟩ <;>
        simp [setBreakpointBody, hjob, hempty]
    · cases hspec : env.IToi task.Spec with
      | error err =>
        refine ⟨[], [], ?_, by simp, Or.inl ⟨rfl, ?_, ?_⟩⟩ <;>
          simp [setBreakpointBody, hjob, hempty, hspec]
      | ok jobTaskSpec =>
        have hsetup := getClients_setup env jobTaskSpec.ClusterID "修改断点意外失败"
        cases hclients : (getClients env jobTaskSpec.ClusterID "修改断点意外失败").2 with
        | some desc =>
          refine ⟨_, [], ?_, hsetup, Or.inl ⟨rfl, ?_, ?_⟩⟩ <;>
            simp [setBreakpointBody, hjob, hempty, hspec, hclients]
        | none =>
          by_cases hrun : task.Status = StatusRunning ∨ task.Status = StatusDebugBefore ∨
              task.Status = StatusPrepare
          · have hbody : setBreakpointBody env w jobName set position =
                setBreakpointRunning env w task jobTaskSpec jobName set position
                  (getClients env jobTaskSpec.ClusterID "修改断点意外失败").1 := by
              simp [setBreakpointBody, hjob, hempty, hspec, hclients, hrun]
            rw [hbody]
            obtain ⟨setup', execs, hev, hs', hcases⟩ :=
              setBreakpointRunning_shape env w task jobTaskSpec jobName set position _ hsetup
            refine ⟨setup', execs, hev, hs', ?_⟩
            rcases hcases with ⟨h1, h2, h3⟩ | h | h
            · exact Or.inl ⟨h1, h2, fun hok => ⟨(h3 hok).1, (h3 hok).2.1⟩⟩
            · exact Or.inr (Or.inl h)
            · exact Or.inr (Or.inr h)
          · refine ⟨_, [], ?_, hsetup, Or.inl ⟨rfl, ?_, ?_⟩⟩ <;>
              simp [setBreakpointBody, hjob, hempty, hspec, hclients, hrun]

theorem stopDebugBody_shape (env : DebugEnv) (w : WorkflowTask) (jobName : String)
    (position : String) :
    (stopDebugBody env w jobName position).task = w ∧
    ∃ setup execs,
      (stopDebugBody env w jobName position).events = setup ++ execs ∧
      (∀ e ∈ setup, e.isSetup = true) ∧
      ((execs = [] ∧ (stopDebugBody env w jobName position).outcome ≠ .ok ∧
          (stopDebugBody env w jobName position).ack = false) ∨
        (∃ opt, execs = [.KubeExec opt] ∧
          opt.Command = ["sh", "-c", "ls /zadig/debug/breakpoint_" ++ position] ∧
          env.KubeExec 0 opt = false ∧
          (∃ msg, (stopDebugBody env w jobName position).outcome = .error msg) ∧
          (stopDebugBody env w jobName position).ack = false) ∨
        (∃ opt opt2, execs = [.KubeExec opt, .KubeExec opt2] ∧
          opt.Command = ["sh", "-c", "ls /zadig/debug/breakpoint_" ++ position] ∧
          env.KubeExec 0 opt = true ∧
          opt2.Command = ["sh", "-c", "rm /zadig/debug/breakpoint_" ++ position] ∧
          (stopDebugBody env w jobName position).outcome = .ok ∧
          (stopDebugBody env w jobName position).ack = true)) := by
  cases hjob : findJob jobName w.Stages with
  | none =>
    refine ⟨?_, [], [], ?_, by simp, Or.inl ⟨rfl, ?_, ?_⟩⟩ <;> simp [stopDebugBody, hjob]
  | some task =>
    cases hspec : env.IToi task.Spec with
    | error err =>
      refine ⟨?_, [], [], ?_, by simp, Or.inl ⟨rfl, ?_, ?_⟩⟩ <;>
        simp [stopDebugBody, hjob, hspec]
    | ok jobTaskSpec =>
      have hsetup := getClients_setup env jobTaskSpec.ClusterID "结束调试意外失败"
      have hsetup' : ∀ e ∈ (getClients env jobTaskSpec.ClusterID "结束调试意外失败").1
          ++ [CtlEvent.ListPods jobTaskSpec.Namespace task.K8sJobName], e.isSetup = true := by
        intro e he
        rcases List.mem_append.mp he with h | h
        · exact hsetup e h
        · rw [List.mem_singleton.mp h]; rfl
      cases hclients : (getClients env jobTaskSpec.ClusterID "结束调试意外失败").2 with
      | some desc =>
        refine ⟨?_, _, [], ?_, hsetup, Or.inl ⟨rfl, ?_, ?_⟩⟩ <;>
          simp [stopDebugBody, hjob, hspec, hclients]
      | none =>
        cases hpods : env.ListPods jobTaskSpec.Namespace task.K8sJobName with
        | error err =>
          refine ⟨?_, _, [], ?_, hsetup', Or.inl ⟨rfl, ?_, ?_⟩⟩ <;>
            simp [stopDebugBody, hjob, hspec, hclients, hpods]
        | ok pods =>
          cases pods with
          | nil =>
            refine ⟨?_, _, [], ?_, hsetup', Or.inl ⟨rfl, ?_, ?_⟩⟩ <;>
              simp [stopDebugBody, hjob, hspec, hclients, hpods]
          | cons pod rest =>
            by_cases hphase : pod.Phase = PodRunning
            · cases hcont : pod.Containers with
              | nil =>
                refine ⟨?_, _, [], ?_, hsetup', Or.inl ⟨rfl, ?_, ?_⟩⟩ <;>
                  simp [stopDebugBody, hjob, hspec, hclients, hpods, hphase, stopDebugOnPod,
                    exec, hcont]
              | cons c cs =>
                cases hk : env.KubeExec 0 (execOptions jobTaskSpec pod c
                    ("ls /zadig/debug/breakpoint_" ++ position)) with
                | false =>
                  refine ⟨?_, _, [.KubeExec (execOptions jobTaskSpec pod c
                      ("ls /zadig/debug/breakpoint_" ++ position))], ?_, hsetup',
                    Or.inr (Or.inl ⟨_, rfl, rfl, hk, ?_, ?_⟩)⟩ <;>
                    simp [stopDebugBody, hjob, hspec, hclients, hpods, hphase, stopDebugOnPod,
                      exec, hcont, hk]
                | true =>
                  refine ⟨?_, _, [.KubeExec (execOptions jobTaskSpec pod c
                      ("ls /zadig/debug/breakpoint_" ++ position)),
                      .KubeExec (execOptions jobTaskSpec pod c
                      ("rm /zadig/debug/breakpoint_" ++ position))], ?_, hsetup',
                    Or.inr (Or.inr ⟨_, _, rfl, rfl, hk, rfl, ?_, ?_⟩)⟩ <;>
                    simp [stopDebugBody, hjob, hspec, hclients, hpods, hphase, stopDebugOnPod,
                      exec, hcont, hk]
            · refine ⟨?_, _, [], ?_, hsetup', Or.inl ⟨rfl, ?_, ?_⟩⟩ <;>
                simp [stopDebugBody, hjob, hspec, hclients, hpods, hphase]

end Zadig
namespace Zadig

theorem setup_not_exec (setup : List CtlEvent) (hsetup : ∀ e ∈ setup, e.isSetup = true) :
    (∀ opt, CtlEvent.KubeExec opt ∉ setup) ∧ (∀ t, CtlEvent.Ack t ∉ setup) ∧
    CtlEvent.Lock ∉ setup ∧ CtlEvent.Unlock ∉ setup := by
  refine ⟨?_, ?_, ?_, ?_⟩
  · intro opt h
    have := hsetup _ h
    simp [CtlEvent.isSetup] at this
  · intro t h
    have := hsetup _ h
    simp [CtlEvent.isSetup] at this
  · intro h
    have := hsetup _ h
    simp [CtlEvent.isSetup] at this
  · intro h
    have := hsetup _ h
    simp [CtlEvent.isSetup] at this

theorem underLock_events (run : CtlRun) :
    (underLock run).events =
      [CtlEvent.Lock] ++ run.events ++ (if run.ack then [CtlEvent.Ack run.task] else [])
        ++ [CtlEvent.Unlock] ∧
    (underLock run).outcome = run.outcome ∧ (underLock run).task = some run.task :=
  ⟨rfl, rfl, rfl⟩

theorem terminal_not_running (s : Status)
    (hterm : s = StatusPassed ∨ s = StatusFailed ∨ s = StatusTimeout ∨ s = StatusCancelled ∨
      s = StatusReject) :
    s ≠ "" ∧ ¬ (s = StatusRunning ∨ s = StatusDebugBefore ∨ s = StatusPrepare) := by
  rcases hterm with h | h | h | h | h <;> subst h <;> decide

theorem running_not_empty (s : Status)
    (hrun : s = StatusRunning ∨ s = StatusDebugBefore ∨ s = StatusPrepare) : s ≠ "" := by
  rcases hrun with h | h | h <;> subst h <;> decide

theorem probe_not_set_command (position : String) (set : Bool) (p : String) :
    probeFor position ≠ setOrUnsetBreakpoint (touchOrRemove set) p := by
  intro h
  have := congrArg (fun s => s.data.head?) h
  unfold probeFor setOrUnsetBreakpoint touchOrRemove checkShellStepStart checkShellStepDone at this
  by_cases hb : position = "before" <;> cases set <;>
    simp [hb, String.data_append] at this

/-- C14: when the pair of workflow name and task ID is not in the registry of
live tasks, `SetWorkflowTaskV4Breakpoint`, `EnableDebugWorkflowTaskV4` and
`StopDebugWorkflowTaskJobV4` each return an error and cause no event at all:
no lock, no call to the cluster, no `Ack` (the only way to persisted
storage). -/
theorem not_in_registry_rejected (env : DebugEnv) (workflowName jobName : String) (taskID : Int)
    (set : Bool) (position : String)
    (habsent : env.GetWorkflowTaskInMap workflowName taskID = none) :
    ((∃ msg, (SetWorkflowTaskV4Breakpoint env workflowName jobName taskID set position).outcome
        = .error msg) ∧
      (SetWorkflowTaskV4Breakpoint env workflowName jobName taskID set position).events = []) ∧
    ((∃ msg, (EnableDebugWorkflowTaskV4 env workflowName taskID).outcome = .error msg) ∧
      (EnableDebugWorkflowTaskV4 env workflowName taskID).events = []) ∧
    ((∃ msg, (StopDebugWorkflowTaskJobV4 env workflowName jobName taskID position).outcome
        = .error msg) ∧
      (StopDebugWorkflowTaskJobV4 env workflowName jobName taskID position).events = []) := by
  simp [SetWorkflowTaskV4Breakpoint, EnableDebugWorkflowTaskV4, StopDebugWorkflowTaskJobV4,
    habsent]

/-- Witness of C14: no task 9 of workflow `w` is live. -/
theorem not_in_registry_rejected_witness :
    demoDebugEnv.GetWorkflowTaskInMap "w" 9 = none ∧
    ((∃ msg, (SetWorkflowTaskV4Breakpoint demoDebugEnv "w" "sh" 9 true "before").outcome
        = .error msg) ∧
      (SetWorkflowTaskV4Breakpoint demoDebugEnv "w" "sh" 9 true "before").events = []) ∧
    ((∃ msg, (EnableDebugWorkflowTaskV4 demoDebugEnv "w" 9).outcome = .error msg) ∧
      (EnableDebugWorkflowTaskV4 demoDebugEnv "w" 9).events = []) ∧
    ((∃ msg, (StopDebugWorkflowTaskJobV4 demoDebugEnv "w" "sh" 9 "before").outcome
        = .error msg) ∧
      (StopDebugWorkflowTaskJobV4 demoDebugEnv "w" "sh" 9 "before").events = []) :=
  ⟨by decide, not_in_registry_rejected demoDebugEnv "w" "sh" 9 true "before" (by decide)⟩

/-- C13: when the job task that `SetWorkflowTaskV4Breakpoint` finds has a
terminal status (passed, failed, timeout, cancelled or reject), the call
returns an error, leaves the live task as it was (so both breakpoint flags of
the job) and does not `Ack`, for every position and every value of `set`;
`StopDebugWorkflowTaskJobV4` leaves the live task as it was on every path, and
`EnableDebugWorkflowTaskV4` leaves every stage, so every breakpoint flag, as it
was. -/
theorem terminal_job_flags_frozen (env : DebugEnv) (workflowName jobName : String)
    (taskID : Int) (set : Bool) (position : String) (w : WorkflowTask) (job : JobTask)
    (hlive : env.GetWorkflowTaskInMap workflowName taskID = some w)
    (hjob : findJob jobName w.Stages = some job)
    (hterm : job.Status = StatusPassed ∨ job.Status = StatusFailed ∨
      job.Status = StatusTimeout ∨ job.Status = StatusCancelled ∨ job.Status = StatusReject) :
    (∃ msg, (SetWorkflowTaskV4Breakpoint env workflowName jobName taskID set position).outcome
      = .error msg) ∧
    (SetWorkflowTaskV4Breakpoint env workflowName jobName taskID set position).task = some w ∧
    (∀ t, CtlEvent.Ack t ∉
      (SetWorkflowTaskV4Breakpoint env workflowName jobName taskID set position).events) ∧
    (∀ anyJob anyPosition,
      (StopDebugWorkflowTaskJobV4 env workflowName anyJob taskID anyPosition).task = some w) ∧
    ∃ t', (EnableDebugWorkflowTaskV4 env workflowName taskID).task = some t' ∧
      t'.Stages = w.Stages := by
  obtain ⟨hne, hnotrun⟩ := terminal_not_running job.Status hterm
  have hbody : (∃ msg, (setBreakpointBody env w jobName set position).outcome = .error msg) ∧
      (setBreakpointBody env w jobName set position).task = w ∧
      (setBreakpointBody env w jobName set position).ack = false := by
    cases hspec : env.IToi job.Spec with
    | error err => simp [setBreakpointBody, hjob, hne, hspec]
    | ok jobTaskSpec =>
      cases hclients : (getClients env jobTaskSpec.ClusterID "修改断点意外失败").2 with
      | some desc => simp [setBreakpointBody, hjob, hne, hspec, hclients]
      | none => simp [setBreakpointBody, hjob, hne, hspec, hclients, hnotrun]
  obtain ⟨herr, htask, hack⟩ := hbody
  refine ⟨?_, ?_, ?_, ?_, ?_⟩
  · simpa [SetWorkflowTaskV4Breakpoint, hlive, underLock] using herr
  · simp [SetWorkflowTaskV4Breakpoint, hlive, underLock, htask]
  · intro t ht
    obtain ⟨setup, execs, hev, hsetup, hcases⟩ :=
      setBreakpointBody_shape env w jobName set position
    obtain ⟨_, hnoack, _, _⟩ := setup_not_exec setup hsetup
    simp only [SetWorkflowTaskV4Breakpoint, hlive, underLock, hack, hev, Bool.false_eq_true,
      if_false, List.append_nil, List.mem_append, List.mem_singleton, reduceCtorEq, or_false,
      false_or] at ht
    rcases ht with h | h
    · exact hnoack t h
    · rcases hcases with ⟨h1, _⟩ | ⟨opt, h1, _⟩ | ⟨opt, opt2, h1, _⟩ <;>
        simp [h1] at h
  · intro anyJob anyPosition
    simp [StopDebugWorkflowTaskJobV4, hlive, underLock,
      (stopDebugBody_shape env w anyJob anyPosition).1]
  · by_cases hdebug : w.IsDebug = true
    · exact ⟨w, by simp [EnableDebugWorkflowTaskV4, hlive, underLock, enableDebugBody, hdebug],
        rfl⟩
    · exact ⟨{ w with IsDebug := true },
        by simp [EnableDebugWorkflowTaskV4, hlive, underLock, enableDebugBody, hdebug], rfl⟩

/-- Witness of C13: the job `done` of the live task has passed. -/
theorem terminal_job_flags_frozen_witness :
    (∃ msg, (SetWorkflowTaskV4Breakpoint demoDebugEnv "w" "done" 1 true "after").outcome
      = .error msg) ∧
    (SetWorkflowTaskV4Breakpoint demoDebugEnv "w" "done" 1 true "after").task
      = some demoLiveTask ∧
    (∀ t, CtlEvent.Ack t ∉
      (SetWorkflowTaskV4Breakpoint demoDebugEnv "w" "done" 1 true "after").events) ∧
    (∀ anyJob anyPosition,
      (StopDebugWorkflowTaskJobV4 demoDebugEnv "w" anyJob 1 anyPosition).task
        = some demoLiveTask) ∧
    ∃ t', (EnableDebugWorkflowTaskV4 demoDebugEnv "w" 1).task = some t' ∧
      t'.Stages = demoLiveTask.Stages :=
  terminal_job_flags_frozen demoDebugEnv "w" "done" 1 true "after" demoLiveTask
    { Name := "done", Key := "done", JobType := "freestyle", Status := StatusPassed,
      StartTime := 101, EndTime := 110, Error := "", BreakpointBefore := false,
      BreakpointAfter := false, Spec := "spec", K8sJobName := "job-0" }
    (by decide) (by decide) (by decide)

end Zadig
namespace Zadig

theorem setBreakpointBody_probe_hit (env : DebugEnv) (w : WorkflowTask) (jobName : String)
    (set : Bool) (position : String) (job : JobTask)
    (hjob : findJob jobName w.Stages = some job)
    (hrun : job.Status = StatusRunning ∨ job.Status = StatusDebugBefore ∨
      job.Status = StatusPrepare)
    (hpos : position = "before" ∨ position = "after")
    (hprobe : ∀ n opt, opt.Command = ["sh", "-c", probeFor position] → env.KubeExec n opt = true)
    (hcontainers : ∀ ns name pods, env.ListPods ns name = .ok pods →
      ∀ pod ∈ pods, pod.Containers ≠ []) :
    (∃ msg, (setBreakpointBody env w jobName set position).outcome = .error msg) ∧
    (setBreakpointBody env w jobName set position).task = w ∧
    (setBreakpointBody env w jobName set position).ack = false := by
  obtain ⟨setup, execs, _, _, hcases⟩ := setBreakpointBody_shape env w jobName set position
  have hne := running_not_empty job.Status hrun
  rcases hcases with ⟨_, hbad, hok⟩ | ⟨opt, _, _, _, _, herr, htask, hack⟩ |
      ⟨opt, opt2, _, hcmd, hk, _⟩
  · cases hspec : env.IToi job.Spec with
    | error err => simp [setBreakpointBody, hjob, hne, hspec]
    | ok jobTaskSpec =>
      cases hclients : (getClients env jobTaskSpec.ClusterID "修改断点意外失败").2 with
      | some desc => simp [setBreakpointBody, hjob, hne, hspec, hclients]
      | none =>
        have hbody : setBreakpointBody env w jobName set position =
            setBreakpointRunning env w job jobTaskSpec jobName set position
              (getClients env jobTaskSpec.ClusterID "修改断点意外失败").1 := by
          simp [setBreakpointBody, hjob, hne, hspec, hclients, hrun]
        rw [hbody]
        cases hpods : env.ListPods jobTaskSpec.Namespace job.K8sJobName with
        | error err => simp [setBreakpointRunning, hpods]
        | ok pods =>
          cases pods with
          | nil => simp [setBreakpointRunning, hpods]
          | cons pod rest =>
            by_cases hphase : pod.Phase = PodRunning
            · have hc := hcontainers _ _ _ hpods pod (List.mem_cons_self _ _)
              cases hcont : pod.Containers with
              | nil => exact absurd hcont hc
              | cons c cs =>
                have hk1 := hprobe 0 (execOptions jobTaskSpec pod c (probeFor position)) rfl
                rcases hpos with h | h
                · subst h
                  have hk2 : env.KubeExec 0
                      (execOptions jobTaskSpec pod c checkShellStepStart) = true := hk1
                  simp [setBreakpointRunning, hpods, hphase,
                    probeThenSet_cons env jobTaskSpec pod _ _ set "before" c cs hcont, hk2]
                · subst h
                  have hk2 : env.KubeExec 0
                      (execOptions jobTaskSpec pod c checkShellStepDone) = true := hk1
                  simp [setBreakpointRunning, hpods, hphase,
                    probeThenSet_cons env jobTaskSpec pod _ _ set "after" c cs hcont, hk2]
            · simp [setBreakpointRunning, hpods, hphase]
  · exact ⟨herr, htask, hack⟩
  · rw [hprobe 0 opt hcmd] at hk
    cases hk

/-- C12: for a job task with status running, debug_before or prepare whose
listed pods have a container: when position is "before" and the probe for the
started scripted step succeeds, or position is "after" and the probe for the
finished scripted step succeeds, `SetWorkflowTaskV4Breakpoint` returns an
error, leaves the live task as it was (so both breakpoint flags of the job),
sends no remote command but the probe (no touch, no rm) and does not `Ack`. -/
theorem set_breakpoint_late_rejected (env : DebugEnv) (workflowName jobName : String)
    (taskID : Int) (set : Bool) (position : String) (w : WorkflowTask) (job : JobTask)
    (hlive : env.GetWorkflowTaskInMap workflowName taskID = some w)
    (hjob : findJob jobName w.Stages = some job)
    (hrun : job.Status = StatusRunning ∨ job.Status = StatusDebugBefore ∨
      job.Status = StatusPrepare)
    (hprobe :
      (position = "before" ∧
        ∀ n opt, opt.Command = ["sh", "-c", checkShellStepStart] → env.KubeExec n opt = true) ∨
      (position = "after" ∧
        ∀ n opt, opt.Command = ["sh", "-c", checkShellStepDone] → env.KubeExec n opt = true))
    (hcontainers : ∀ ns name pods, env.ListPods ns name = .ok pods →
      ∀ pod ∈ pods, pod.Containers ≠ []) :
    (∃ msg, (SetWorkflowTaskV4Breakpoint env workflowName jobName taskID set position).outcome
      = .error msg) ∧
    (SetWorkflowTaskV4Breakpoint env workflowName jobName taskID set position).task = some w ∧
    (∀ opt, CtlEvent.KubeExec opt ∈
        (SetWorkflowTaskV4Breakpoint env workflowName jobName taskID set position).events →
      opt.Command = ["sh", "-c", probeFor position] ∧
      ∀ anySet anyPosition,
        opt.Command ≠ ["sh", "-c", setOrUnsetBreakpoint (touchOrRemove anySet) anyPosition]) ∧
    ∀ t, CtlEvent.Ack t ∉
      (SetWorkflowTaskV4Breakpoint env workflowName jobName taskID set position).events := by
  have hpos : position = "before" ∨ position = "after" := by
    rcases hprobe with ⟨h, _⟩ | ⟨h, _⟩
    · exact Or.inl h
    · exact Or.inr h
  have hprobe' : ∀ n opt, opt.Command = ["sh", "-c", probeFor position] →
      env.KubeExec n opt = true := by
    rcases hprobe with ⟨h, hp⟩ | ⟨h, hp⟩
    · subst h
      exact hp
    · subst h
      exact hp
  obtain ⟨herr, htask, hack⟩ :=
    setBreakpointBody_probe_hit env w jobName set position job hjob hrun hpos hprobe' hcontainers
  obtain ⟨setup, execs, hev, hsetup, hcases⟩ :=
    setBreakpointBody_shape env w jobName set position
  obtain ⟨hnoexec, hnoack, _, _⟩ := setup_not_exec setup hsetup
  have hevents : (SetWorkflowTaskV4Breakpoint env workflowName jobName taskID set position).events
      = [CtlEvent.Lock] ++ (setup ++ execs) ++ [] ++ [CtlEvent.Unlock] := by
    simp [SetWorkflowTaskV4Breakpoint, hlive, underLock, hack, hev]
  have hexecs : execs = [] ∨ ∃ opt, execs = [.KubeExec opt] ∧
      opt.Command = ["sh", "-c", probeFor position] := by
    rcases hcases with ⟨h1, _⟩ | ⟨opt, h1, h2, _⟩ | ⟨opt, opt2, _, _, _, _, _, _, _, h3⟩
    · exact Or.inl h1
    · exact Or.inr ⟨opt, h1, h2⟩
    · rw [hack] at h3
      cases h3
  refine ⟨?_, ?_, ?_, ?_⟩
  · simpa [SetWorkflowTaskV4Breakpoint, hlive, underLock] using herr
  · simp [SetWorkflowTaskV4Breakpoint, hlive, underLock, htask]
  · intro opt hopt
    rw [hevents] at hopt
    simp only [List.append_nil, List.mem_append, List.mem_singleton, reduceCtorEq, or_false,
      false_or] at hopt
    have hcmd : opt.Command = ["sh", "-c", probeFor position] := by
      rcases hopt with h | h
      · exact absurd h (hnoexec opt)
      · rcases hexecs with h1 | ⟨opt', h1, h2⟩
        · simp [h1] at h
        · simp only [h1, List.mem_singleton, CtlEvent.KubeExec.injEq] at h
          rw [h]
          exact h2
    refine ⟨hcmd, ?_⟩
    intro anySet anyPosition heq
    rw [hcmd] at heq
    simp only [List.cons.injEq, and_true, true_and] at heq
    exact probe_not_set_command position anySet anyPosition heq
  · intro t ht
    rw [hevents] at ht
    simp only [List.append_nil, List.mem_append, List.mem_singleton, reduceCtorEq, or_false,
      false_or] at ht
    rcases ht with h | h
    · exact hnoack t h
    · rcases hexecs with h1 | ⟨opt', h1, _⟩ <;> simp [h1] at h

/-- Witness of C12: on the pod of the running job `sh` the scripted step has
started, and a before breakpoint is requested. -/
theorem set_breakpoint_late_rejected_witness :
    (∃ msg, (SetWorkflowTaskV4Breakpoint demoDebugEnv "w" "sh" 1 true "before").outcome
      = .error msg) ∧
    (SetWorkflowTaskV4Breakpoint demoDebugEnv "w" "sh" 1 true "before").task
      = some demoLiveTask ∧
    (∀ opt, CtlEvent.KubeExec opt ∈
        (SetWorkflowTaskV4Breakpoint demoDebugEnv "w" "sh" 1 true "before").events →
      opt.Command = ["sh", "-c", probeFor "before"] ∧
      ∀ anySet anyPosition,
        opt.Command ≠ ["sh", "-c", setOrUnsetBreakpoint (touchOrRemove anySet) anyPosition]) ∧
    ∀ t, CtlEvent.Ack t ∉
      (SetWorkflowTaskV4Breakpoint demoDebugEnv "w" "sh" 1 true "before").events :=
  set_breakpoint_late_rejected demoDebugEnv "w" "sh" 1 true "before" demoLiveTask
    { Name := "sh", Key := "sh", JobType := "freestyle", Status := StatusRunning,
      StartTime := 101, EndTime := 0, Error := "", BreakpointBefore := false,
      BreakpointAfter := false, Spec := "spec", K8sJobName := "job-1" }
    (by decide) (by decide) (by decide)
    (Or.inl ⟨rfl, by
      intro n opt h
      simp [demoDebugEnv, h, checkShellStepStart]⟩)
    (by
      intro ns name pods h pod hpod
      simp only [demoDebugEnv, Except.ok.injEq] at h
      subst h
      simp only [List.mem_singleton] at hpod
      subst hpod
      simp)

end Zadig
namespace Zadig

/-- C15: when `StopDebugWorkflowTaskJobV4` reaches a running pod with a
container for the job it finds: if the existence probe of
`/zadig/debug/breakpoint_<position>` fails, it returns an error, sends no
command but the probe and does not `Ack`; if the probe succeeds, it sends the
removal of exactly that sentinel, calls `Ack` once, after the removal and
before the unlock, and returns a nil error. -/
theorem stop_debug_needs_sentinel (env : DebugEnv) (workflowName jobName : String)
    (taskID : Int) (position : String) (w : WorkflowTask) (job : JobTask)
    (jobTaskSpec : JobTaskFreestyleSpec) (pod : Pod) (rest : List Pod) (c : String)
    (cs : List String)
    (hlive : env.GetWorkflowTaskInMap workflowName taskID = some w)
    (hjob : findJob jobName w.Stages = some job)
    (hspec : env.IToi job.Spec = .ok jobTaskSpec)
    (hclient : env.GetKubeClient jobTaskSpec.ClusterID = none)
    (hclientset : env.GetClientset jobTaskSpec.ClusterID = none)
    (hconfig : env.GetRESTConfig jobTaskSpec.ClusterID = none)
    (hpods : env.ListPods jobTaskSpec.Namespace job.K8sJobName = .ok (pod :: rest))
    (hphase : pod.Phase = PodRunning)
    (hcont : pod.Containers = c :: cs) :
    (env.KubeExec 0 (execOptions jobTaskSpec pod c ("ls /zadig/debug/breakpoint_" ++ position))
        = false →
      (∃ msg, (StopDebugWorkflowTaskJobV4 env workflowName jobName taskID position).outcome
        = .error msg) ∧
      (StopDebugWorkflowTaskJobV4 env workflowName jobName taskID position).events =
        [.Lock, .GetKubeClient jobTaskSpec.ClusterID, .GetClientset jobTaskSpec.ClusterID,
          .GetRESTConfig jobTaskSpec.ClusterID,
          .ListPods jobTaskSpec.Namespace job.K8sJobName,
          .KubeExec (execOptions jobTaskSpec pod c ("ls /zadig/debug/breakpoint_" ++ position)),
          .Unlock]) ∧
    (env.KubeExec 0 (execOptions jobTaskSpec pod c ("ls /zadig/debug/breakpoint_" ++ position))
        = true →
      (StopDebugWorkflowTaskJobV4 env workflowName jobName taskID position).outcome = .ok ∧
      (StopDebugWorkflowTaskJobV4 env workflowName jobName taskID position).events =
        [.Lock, .GetKubeClient jobTaskSpec.ClusterID, .GetClientset jobTaskSpec.ClusterID,
          .GetRESTConfig jobTaskSpec.ClusterID,
          .ListPods jobTaskSpec.Namespace job.K8sJobName,
          .KubeExec (execOptions jobTaskSpec pod c ("ls /zadig/debug/breakpoint_" ++ position)),
          .KubeExec (execOptions jobTaskSpec pod c ("rm /zadig/debug/breakpoint_" ++ position)),
          .Ack w, .Unlock]) := by
  have hclients : getClients env jobTaskSpec.ClusterID "结束调试意外失败" =
      ([.GetKubeClient jobTaskSpec.ClusterID, .GetClientset jobTaskSpec.ClusterID,
        .GetRESTConfig jobTaskSpec.ClusterID], none) := by
    simp [getClients, hclient, hclientset, hconfig]
  constructor
  · intro hk
    simp [StopDebugWorkflowTaskJobV4, hlive, underLock, stopDebugBody, hjob, hspec, hclients,
      hpods, hphase, stopDebugOnPod, exec, hcont, hk]
  · intro hk
    simp [StopDebugWorkflowTaskJobV4, hlive, underLock, stopDebugBody, hjob, hspec, hclients,
      hpods, hphase, stopDebugOnPod, exec, hcont, hk]

/-- Witness of C15: on the pod of the job `sh` the sentinel of the after
breakpoint is missing and the one of the before breakpoint exists. -/
theorem stop_debug_needs_sentinel_witness :
    ((∃ msg, (StopDebugWorkflowTaskJobV4 demoDebugEnv "w" "sh" 1 "after").outcome = .error msg) ∧
      (StopDebugWorkflowTaskJobV4 demoDebugEnv "w" "sh" 1 "after").events =
        [.Lock, .GetKubeClient "c", .GetClientset "c", .GetRESTConfig "c",
          .ListPods "ns" "job-1",
          .KubeExec { Namespace := "ns", PodName := "pod-job-1", ContainerName := "main",
                      Command := ["sh", "-c", "ls /zadig/debug/breakpoint_after"] },
          .Unlock]) ∧
    ((StopDebugWorkflowTaskJobV4 demoDebugEnv "w" "sh" 1 "before").outcome = .ok ∧
      (StopDebugWorkflowTaskJobV4 demoDebugEnv "w" "sh" 1 "before").events =
        [.Lock, .GetKubeClient "c", .GetClientset "c", .GetRESTConfig "c",
          .ListPods "ns" "job-1",
          .KubeExec { Namespace := "ns", PodName := "pod-job-1", ContainerName := "main",
                      Command := ["sh", "-c", "ls /zadig/debug/breakpoint_before"] },
          .KubeExec { Namespace := "ns", PodName := "pod-job-1", ContainerName := "main",
                      Command := ["sh", "-c", "rm /zadig/debug/breakpoint_before"] },
          .Ack demoLiveTask, .Unlock]) :=
  ⟨(stop_debug_needs_sentinel demoDebugEnv "w" "sh" 1 "after" demoLiveTask
      { Name := "sh", Key := "sh", JobType := "freestyle", Status := StatusRunning,
        StartTime := 101, EndTime := 0, Error := "", BreakpointBefore := false,
        BreakpointAfter := false, Spec := "spec", K8sJobName := "job-1" }
      { ClusterID := "c", Namespace := "ns" }
      { Name := "pod-job-1", Phase := "Running", Containers := ["main"] } [] "main" []
      (by decide) (by decide) rfl rfl rfl rfl rfl rfl rfl).1 (by decide),
    (stop_debug_needs_sentinel demoDebugEnv "w" "sh" 1 "before" demoLiveTask
      { Name := "sh", Key := "sh", JobType := "freestyle", Status := StatusRunning,
        StartTime := 101, EndTime := 0, Error := "", BreakpointBefore := false,
        BreakpointAfter := false, Spec := "spec", K8sJobName := "job-1" }
      { ClusterID := "c", Namespace := "ns" }
      { Name := "pod-job-1", Phase := "Running", Containers := ["main"] } [] "main" []
      (by decide) (by decide) rfl rfl rfl rfl rfl rfl rfl).2 (by decide)⟩

/-- C16, counterexample: for a before breakpoint on the running job `sh`,
`SetWorkflowTaskV4Breakpoint` sends the probe `ls /zadig/debug/shell_step`,
which is neither `test -e <sentinel>` nor `touch <sentinel>` nor
`rm <sentinel>`. -/
theorem probe_is_not_test_e :
    ∃ opt cmd,
      CtlEvent.KubeExec opt ∈
        (SetWorkflowTaskV4Breakpoint demoDebugEnv "w" "sh" 1 true "before").events ∧
      opt.Command = ["sh", "-c", cmd] ∧
      ¬ (hasShape "test -e" cmd ∨ hasShape "touch" cmd ∨ hasShape "rm" cmd) := by
  refine ⟨{ Namespace := "ns", PodName := "pod-job-1", ContainerName := "main",
            Command := ["sh", "-c", "ls /zadig/debug/shell_step"] },
    "ls /zadig/debug/shell_step", by decide, rfl, ?_⟩
  rintro (⟨s, h⟩ | ⟨s, h⟩ | ⟨s, h⟩) <;>
    · have := congrArg (fun x => x.data.head?) h
      simp [String.data_append] at this

/-- C16, amended: every shell command that `SetWorkflowTaskV4Breakpoint` and
`StopDebugWorkflowTaskJobV4` send through the remote exec primitive is run as
`sh -c <command>` and has one of three shapes: an existence probe
`ls <sentinel>`, a creation `touch <sentinel>` or a removal `rm <sentinel>`.
The set sends the probes `ls /zadig/debug/shell_step` and
`ls /zadig/debug/shell_step_done` and, for position p, the command
`touch /zadig/debug/breakpoint_p` when `set` is true and
`rm /zadig/debug/breakpoint_p` when it is false; the stop sends
`ls /zadig/debug/breakpoint_p` and `rm /zadig/debug/breakpoint_p`. -/
theorem remote_command_shapes (env : DebugEnv) (workflowName jobName : String) (taskID : Int)
    (set : Bool) (position : String) :
    (∀ opt, CtlEvent.KubeExec opt ∈
        (SetWorkflowTaskV4Breakpoint env workflowName jobName taskID set position).events →
      ∃ cmd, opt.Command = ["sh", "-c", cmd] ∧
        (cmd = checkShellStepStart ∨ cmd = checkShellStepDone ∨
          (cmd = setOrUnsetBreakpoint (touchOrRemove set) position ∧
            (position = "before" ∨ position = "after"))) ∧
        (hasShape "ls" cmd ∨ hasShape "touch" cmd ∨ hasShape "rm" cmd)) ∧
    (∀ opt, CtlEvent.KubeExec opt ∈
        (StopDebugWorkflowTaskJobV4 env workflowName jobName taskID position).events →
      ∃ cmd, opt.Command = ["sh", "-c", cmd] ∧
        (cmd = "ls /zadig/debug/breakpoint_" ++ position ∨
          cmd = "rm /zadig/debug/breakpoint_" ++ position) ∧
        (hasShape "ls" cmd ∨ hasShape "rm" cmd)) ∧
    setOrUnsetBreakpoint (touchOrRemove true) position = "touch /zadig/debug/breakpoint_" ++ position ∧
    setOrUnsetBreakpoint (touchOrRemove false) position = "rm /zadig/debug/breakpoint_" ++ position := by
  have hsplit : ∀ verb : String, verb ++ " /zadig/debug/breakpoint_" ++ position =
      verb ++ " " ++ ("/zadig/debug/breakpoint_" ++ position) := by
    intro verb
    have : " /zadig/debug/breakpoint_" = " " ++ "/zadig/debug/breakpoint_" := by decide
    rw [this, String.append_assoc, String.append_assoc, String.append_assoc]
  have hprobeShape : hasShape "ls" (probeFor position) := by
    unfold probeFor
    by_cases hb : position = "before"
    · simp only [hb, if_true]
      exact ⟨"/zadig/debug/shell_step", by decide⟩
    · simp only [hb, if_false]
      exact ⟨"/zadig/debug/shell_step_done", by decide⟩
  have hprobeCases : probeFor position = checkShellStepStart ∨
      probeFor position = checkShellStepDone := by
    unfold probeFor
    by_cases hb : position = "before" <;> simp [hb]
  have hsetShape : hasShape "touch" (setOrUnsetBreakpoint (touchOrRemove set) position) ∨
      hasShape "rm" (setOrUnsetBreakpoint (touchOrRemove set) position) := by
    cases set
    · right
      exact ⟨"/zadig/debug/breakpoint_" ++ position, by
        simp only [setOrUnsetBreakpoint, touchOrRemove, Bool.false_eq_true, if_false]
        exact hsplit "rm"⟩
    · left
      exact ⟨"/zadig/debug/breakpoint_" ++ position, by
        simp only [setOrUnsetBreakpoint, touchOrRemove, if_true]
        exact hsplit "touch"⟩
  refine ⟨?_, ?_, ?_, ?_⟩
  · intro opt hopt
    cases hlive : env.GetWorkflowTaskInMap workflowName taskID with
    | none => simp [SetWorkflowTaskV4Breakpoint, hlive] at hopt
    | some w =>
      obtain ⟨setup, execs, hev, hsetup, hcases⟩ :=
        setBreakpointBody_shape env w jobName set position
      obtain ⟨hnoexec, _, _, _⟩ := setup_not_exec setup hsetup
      simp only [SetWorkflowTaskV4Breakpoint, hlive, underLock, hev, List.mem_append,
        List.mem_singleton, reduceCtorEq, or_false, false_or] at hopt
      have hin : CtlEvent.KubeExec opt ∈ execs := by
        rcases hopt with (h | h) | h
        · exact absurd h (hnoexec opt)
        · exact h
        · split at h <;> simp at h
      rcases hcases with ⟨h1, _⟩ | ⟨o, h1, h2, _⟩ | ⟨o, o2, h1, h2, _, h3, hpos, _⟩
      · simp [h1] at hin
      · simp only [h1, List.mem_singleton, CtlEvent.KubeExec.injEq] at hin
        subst hin
        refine ⟨probeFor position, h2, ?_, Or.inl hprobeShape⟩
        rcases hprobeCases with h | h
        · exact Or.inl h
        · exact Or.inr (Or.inl h)
      · simp only [h1, List.mem_cons, CtlEvent.KubeExec.injEq, List.mem_singleton,
          List.not_mem_nil, or_false] at hin
        rcases hin with h | h
        · subst h
          refine ⟨probeFor position, h2, ?_, Or.inl hprobeShape⟩
          rcases hprobeCases with h | h
          · exact Or.inl h
          · exact Or.inr (Or.inl h)
        · subst h
          exact ⟨_, h3, Or.inr (Or.inr ⟨rfl, hpos⟩), Or.inr hsetShape⟩
  · intro opt hopt
    cases hlive : env.GetWorkflowTaskInMap workflowName taskID with
    | none => simp [StopDebugWorkflowTaskJobV4, hlive] at hopt
    | some w =>
      obtain ⟨_, setup, execs, hev, hsetup, hcases⟩ :=
        stopDebugBody_shape env w jobName position
      obtain ⟨hnoexec, _, _, _⟩ := setup_not_exec setup hsetup
      simp only [StopDebugWorkflowTaskJobV4, hlive, underLock, hev, List.mem_append,
        List.mem_singleton, reduceCtorEq, or_false, false_or] at hopt
      have hin : CtlEvent.KubeExec opt ∈ execs := by
        rcases hopt with (h | h) | h
        · exact absurd h (hnoexec opt)
        · exact h
        · split at h <;> simp at h
      have hls : hasShape "ls" ("ls /zadig/debug/breakpoint_" ++ position) :=
        ⟨"/zadig/debug/breakpoint_" ++ position, by
          have : "ls /zadig/debug/breakpoint_" = "ls" ++ " " ++ "/zadig/debug/breakpoint_" := by
            decide
          rw [this, String.append_assoc]⟩
      have hrm : hasShape "rm" ("rm /zadig/debug/breakpoint_" ++ position) :=
        ⟨"/zadig/debug/breakpoint_" ++ position, by
          have : "rm /zadig/debug/breakpoint_" = "rm" ++ " " ++ "/zadig/debug/breakpoint_" := by
            decide
          rw [this, String.append_assoc]⟩
      rcases hcases with ⟨h1, _⟩ | ⟨o, h1, h2, _⟩ | ⟨o, o2, h1, h2, _, h3, _⟩
      · simp [h1] at hin
      · simp only [h1, List.mem_singleton, CtlEvent.KubeExec.injEq] at hin
        subst hin
        exact ⟨_, h2, Or.inl rfl, Or.inl hls⟩
      · simp only [h1, List.mem_cons, CtlEvent.KubeExec.injEq, List.mem_singleton,
          List.not_mem_nil, or_false] at hin
        rcases hin with h | h
        · subst h
          exact ⟨_, h2, Or.inl rfl, Or.inl hls⟩
        · subst h
          exact ⟨_, h3, Or.inr rfl, Or.inr hrm⟩
  · simp [setOrUnsetBreakpoint, touchOrRemove]
  · simp [setOrUnsetBreakpoint, touchOrRemove]

end Zadig

namespace Zadig

/-- C17: once the task is found, the effects of `SetWorkflowTaskV4Breakpoint`
are, in this order, `Lock`, client and pod lookups, at most one remote probe,
at most one set or clear command after it, at most one `Ack`, and `Unlock`;
`Lock` and `Unlock` occur exactly once; an `Ack` carries the task with the flag
already assigned, and there is one exactly on the nil-error paths where the
position is `before` or `after`, the ones that assign a flag; a path that
returns an error leaves the task as it was and does not `Ack`.
`EnableDebugWorkflowTaskV4` locks, and either returns an error and unlocks
without `Ack`, or assigns the debug flag, calls `Ack` once and unlocks. -/
theorem control_effects_ordered (env : DebugEnv) (workflowName jobName : String) (taskID : Int)
    (set : Bool) (position : String) (w : WorkflowTask)
    (hlive : env.GetWorkflowTaskInMap workflowName taskID = some w) :
    (∃ setup execs acks,
      (SetWorkflowTaskV4Breakpoint env workflowName jobName taskID set position).events =
        [CtlEvent.Lock] ++ setup ++ execs ++ acks ++ [CtlEvent.Unlock] ∧
      (∀ e ∈ setup, e.isSetup = true) ∧
      (execs = [] ∨
        (∃ opt, execs = [.KubeExec opt] ∧ opt.Command = ["sh", "-c", probeFor position]) ∨
        (∃ opt opt2, execs = [.KubeExec opt, .KubeExec opt2] ∧
          opt.Command = ["sh", "-c", probeFor position] ∧
          opt2.Command = ["sh", "-c", setOrUnsetBreakpoint (touchOrRemove set) position])) ∧
      (acks = [] ∨
        (acks = [.Ack (assignBreakpoint jobName set position w).1] ∧
          (SetWorkflowTaskV4Breakpoint env workflowName jobName taskID set position).task =
            some (assignBreakpoint jobName set position w).1)) ∧
      (acks ≠ [] ↔
        ((SetWorkflowTaskV4Breakpoint env workflowName jobName taskID set position).outcome = .ok ∧
          (position = "before" ∨ position = "after"))) ∧
      ((SetWorkflowTaskV4Breakpoint env workflowName jobName taskID set position).outcome ≠ .ok →
        acks = [] ∧
        (SetWorkflowTaskV4Breakpoint env workflowName jobName taskID set position).task = some w) ∧
      CtlEvent.Lock ∉ setup ++ execs ++ acks ∧ CtlEvent.Unlock ∉ setup ++ execs ++ acks) ∧
    (w.IsDebug = true →
      (∃ msg, (EnableDebugWorkflowTaskV4 env workflowName taskID).outcome = .error msg) ∧
      (EnableDebugWorkflowTaskV4 env workflowName taskID).events = [.Lock, .Unlock] ∧
      (EnableDebugWorkflowTaskV4 env workflowName taskID).task = some w) ∧
    (w.IsDebug = false →
      (EnableDebugWorkflowTaskV4 env workflowName taskID).outcome = .ok ∧
      (EnableDebugWorkflowTaskV4 env workflowName taskID).events =
        [.Lock, .Ack { w with IsDebug := true }, .Unlock] ∧
      (EnableDebugWorkflowTaskV4 env workflowName taskID).task =
        some { w with IsDebug := true }) := by
  refine ⟨?_, ?_, ?_⟩
  · obtain ⟨setup, execs, hev, hsetup, hcases⟩ :=
      setBreakpointBody_shape env w jobName set position
    obtain ⟨_, _, hnolock, hnounlock⟩ := setup_not_exec setup hsetup
    have hres : SetWorkflowTaskV4Breakpoint env workflowName jobName taskID set position =
        underLock (setBreakpointBody env w jobName set position) := by
      simp [SetWorkflowTaskV4Breakpoint, hlive]
    obtain ⟨huev, huout, hutask⟩ := underLock_events (setBreakpointBody env w jobName set position)
    have hack := assignBreakpoint_ack jobName set position w
    refine ⟨setup, execs,
      (if (setBreakpointBody env w jobName set position).ack
        then [CtlEvent.Ack (setBreakpointBody env w jobName set position).task] else []),
      ?_, hsetup, ?_, ?_, ?_, ?_, ?_, ?_⟩
    · rw [hres, huev, hev]
      simp
    · rcases hcases with ⟨h1, _⟩ | ⟨o, h1, h2, _⟩ | ⟨o, o2, h1, h2, _, h3, _⟩
      · exact Or.inl h1
      · exact Or.inr (Or.inl ⟨o, h1, h2⟩)
      · exact Or.inr (Or.inr ⟨o, o2, h1, h2, h3⟩)
    · rw [hres, hutask]
      rcases hcases with ⟨_, hne, hok⟩ | ⟨o, _, _, _, _, _, _, hk⟩ | ⟨o, o2, _, _, _, _, _, _, ht, hk⟩
      · by_cases hout : (setBreakpointBody env w jobName set position).outcome = .ok
        · obtain ⟨ht, hk⟩ := hok hout
          by_cases hb : (setBreakpointBody env w jobName set position).ack = true
          · right
            simp [hb, ht]
          · left
            simp [hb]
        · left
          simp [(hne hout).2]
      · left
        simp [hk]
      · right
        simp [hk, ht]
    · rw [hres, huout]
      rcases hcases with ⟨_, hne, hok⟩ | ⟨o, _, _, _, _, ⟨msg, hmsg⟩, _, hk⟩ |
        ⟨o, o2, _, _, _, _, hpos, hout, _, hk⟩
      · by_cases hout : (setBreakpointBody env w jobName set position).outcome = .ok
        · obtain ⟨_, hk⟩ := hok hout
          rw [hk]
          by_cases hb : (assignBreakpoint jobName set position w).2 = true
          · simp [hb, hout, hack.mp hb]
          · have : ¬ (position = "before" ∨ position = "after") := fun h => hb (hack.mpr h)
            simp [hb, this]
        · simp [(hne hout).2, hout]
      · simp [hk, hmsg]
      · simp [hk, hout, hpos]
    · rw [hres, huout, hutask]
      intro hout
      rcases hcases with ⟨_, hne, _⟩ | ⟨o, _, _, _, _, _, ht, hk⟩ | ⟨o, o2, _, _, _, _, _, hok, _⟩
      · simp [(hne hout).2, (hne hout).1]
      · simp [hk, ht]
      · exact absurd hok hout
    · have hex : CtlEvent.Lock ∉ execs := by
        rcases hcases with ⟨h1, _⟩ | ⟨o, h1, _⟩ | ⟨o, o2, h1, _⟩ <;> simp [h1]
      have hak : CtlEvent.Lock ∉
          (if (setBreakpointBody env w jobName set position).ack
            then [CtlEvent.Ack (setBreakpointBody env w jobName set position).task] else []) := by
        split <;> simp
      simp only [List.mem_append, not_or]
      exact ⟨⟨hnolock, hex⟩, hak⟩
    · have hex : CtlEvent.Unlock ∉ execs := by
        rcases hcases with ⟨h1, _⟩ | ⟨o, h1, _⟩ | ⟨o, o2, h1, _⟩ <;> simp [h1]
      have hak : CtlEvent.Unlock ∉
          (if (setBreakpointBody env w jobName set position).ack
            then [CtlEvent.Ack (setBreakpointBody env w jobName set position).task] else []) := by
        split <;> simp
      simp only [List.mem_append, not_or]
      exact ⟨⟨hnounlock, hex⟩, hak⟩
  · intro hd
    simp [EnableDebugWorkflowTaskV4, hlive, underLock, enableDebugBody, hd]
  · intro hd
    simp [EnableDebugWorkflowTaskV4, hlive, underLock, enableDebugBody, hd]

/-- Witness of C17: on the live task 2 of workflow `w`, which is not in debug
mode, an after breakpoint is set on the running job `sh`, and debug mode is
enabled. -/
theorem control_effects_ordered_witness :
    demoDebugEnv.GetWorkflowTaskInMap "w" 2 = some { demoLiveTask with IsDebug := false } ∧
    (∃ setup execs acks,
      (SetWorkflowTaskV4Breakpoint demoDebugEnv "w" "sh" 2 true "after").events =
        [CtlEvent.Lock] ++ setup ++ execs ++ acks ++ [CtlEvent.Unlock] ∧
      (∀ e ∈ setup, e.isSetup = true) ∧
      (execs = [] ∨
        (∃ opt, execs = [.KubeExec opt] ∧ opt.Command = ["sh", "-c", probeFor "after"]) ∨
        (∃ opt opt2, execs = [.KubeExec opt, .KubeExec opt2] ∧
          opt.Command = ["sh", "-c", probeFor "after"] ∧
          opt2.Command = ["sh", "-c", setOrUnsetBreakpoint (touchOrRemove true) "after"])) ∧
      (acks = [] ∨
        (acks = [.Ack (assignBreakpoint "sh" true "after"
            { demoLiveTask with IsDebug := false }).1] ∧
          (SetWorkflowTaskV4Breakpoint demoDebugEnv "w" "sh" 2 true "after").task =
            some (assignBreakpoint "sh" true "after" { demoLiveTask with IsDebug := false }).1)) ∧
      (acks ≠ [] ↔
        ((SetWorkflowTaskV4Breakpoint demoDebugEnv "w" "sh" 2 true "after").outcome = .ok ∧
          (("after" : String) = "before" ∨ ("after" : String) = "after"))) ∧
      ((SetWorkflowTaskV4Breakpoint demoDebugEnv "w" "sh" 2 true "after").outcome ≠ .ok →
        acks = [] ∧
        (SetWorkflowTaskV4Breakpoint demoDebugEnv "w" "sh" 2 true "after").task =
          some { demoLiveTask with IsDebug := false }) ∧
      CtlEvent.Lock ∉ setup ++ execs ++ acks ∧ CtlEvent.Unlock ∉ setup ++ execs ++ acks) ∧
    ((EnableDebugWorkflowTaskV4 demoDebugEnv "w" 2).outcome = .ok ∧
      (EnableDebugWorkflowTaskV4 demoDebugEnv "w" 2).events =
        [.Lock, .Ack demoLiveTask, .Unlock] ∧
      (EnableDebugWorkflowTaskV4 demoDebugEnv "w" 2).task = some demoLiveTask) :=
  ⟨by decide,
    (control_effects_ordered demoDebugEnv "w" "sh" 2 true "after"
      { demoLiveTask with IsDebug := false } (by decide)).1,
    (control_effects_ordered demoDebugEnv "w" "sh" 2 true "after"
      { demoLiveTask with IsDebug := false } (by decide)).2.2 rfl⟩

/-- On the concrete template the lint stops at the job `compile` of the second
stage, whose name the first stage already uses. -/
theorem demoTemplate_rejected :
    lintWorkflowTemplate (.ok demoNamePolicy) "^[a-z][a-z0-9-]*$" demoTemplate =
      some (AddDesc "ErrLintWorkflowTemplate" "duplicated job name: compile") := by
  decide

end Zadig

namespace Zadig

/-! ## The debug switch of the instantiator -/

theorem markBreakpoint_spec (isDebug : Bool) (o : JobTask) :
    (markBreakpoint isDebug o).BreakpointAfter = o.BreakpointAfter ∧
    (isDebug = false → markBreakpoint isDebug o = o) ∧
    (isDebug = true →
      (o.JobType = JobFreestyle ∨ o.JobType = JobZadigTesting ∨ o.JobType = JobZadigBuild ∨
          o.JobType = JobZadigScanning) →
      markBreakpoint isDebug o = { o with BreakpointBefore := true }) ∧
    (¬ (o.JobType = JobFreestyle ∨ o.JobType = JobZadigTesting ∨ o.JobType = JobZadigBuild ∨
          o.JobType = JobZadigScanning) →
      markBreakpoint isDebug o = o) := by
  refine ⟨?_, ?_, ?_, ?_⟩
  · unfold markBreakpoint
    split
    · split <;> rfl
    · rfl
  · intro h
    simp [markBreakpoint, h]
  · intro h ht
    simp [markBreakpoint, h, ht]
  · intro ht
    simp [markBreakpoint, ht]

/-- C21: in every task that `CreateWorkflowTaskV4` hands to the controller,
`IsDebug` is the `Debug` flag of the workflow as it stands when the task is
filled in, and every job task is a job task that the Job Expander returned for
a job that is not skipped, changed at most in `BreakpointBefore`: in debug mode
`BreakpointBefore` is set to true when its type is freestyle, zadig-testing,
zadig-build or zadig-scanning and the job task is untouched for every other
type; outside debug mode the job task is untouched; `BreakpointAfter` is in
all cases what the expander returned. -/
theorem create_debug_breakpoints (env : CreateEnv) (args : CreateWorkflowTaskV4Args)
    (workflow : WorkflowV4) (t : WorkflowTask)
    (h : Call.CreateTask t ∈ (CreateWorkflowTaskV4 env args workflow).calls) :
    ∃ workflow1 workflow2 workflow3 views last,
      env.InstantiateWorkflow workflow = .ok workflow1 ∧
      env.RemoveFixedValueMarks workflow1 = .ok workflow2 ∧
      env.RenderGlobalVariables workflow2 t.TaskID args.Name = .ok workflow3 ∧
      stageViews env args t.TaskID
        (List.range (setZadigParamRepos env workflow3).stageList.length)
        (WorkflowHeap.alloc (setZadigParamRepos env workflow3)) = .ok (views, last) ∧
      t.IsDebug = workflow3.Debug ∧
      ∀ s ∈ t.Stages, ∀ jt ∈ s.Jobs,
        ∃ v ∈ views, ∃ job ∈ v.jobs, ∃ out, ∃ o ∈ out,
          env.JobSkiped job = false ∧
          env.ToJobs job v.workflow t.TaskID = .ok out ∧
          jt = markBreakpoint workflow3.Debug o ∧
          jt.BreakpointAfter = o.BreakpointAfter ∧
          (workflow3.Debug = false → jt = o) ∧
          (workflow3.Debug = true →
            (o.JobType = JobFreestyle ∨ o.JobType = JobZadigTesting ∨
                o.JobType = JobZadigBuild ∨ o.JobType = JobZadigScanning) →
            jt = { o with BreakpointBefore := true }) ∧
          (¬ (o.JobType = JobFreestyle ∨ o.JobType = JobZadigTesting ∨
                o.JobType = JobZadigBuild ∨ o.JobType = JobZadigScanning) →
            jt = o) := by
  obtain ⟨hash, workflow1, user, originTaskArgs, nextTaskID, workflow2, workflow3, built,
    workflowArgs, hinst, _, _, hmarks, hglobal, hbuilt, _, _, heq⟩ :=
    create_submitted_inv env args workflow t h
  obtain ⟨views, hviews, _, hstages, _⟩ :=
    createStages_built env args nextTaskID workflow3.Debug _ _ built hbuilt
  subst heq
  refine ⟨workflow1, workflow2, workflow3, views, built.1, hinst, hmarks, hglobal, hviews, ?_, ?_⟩
  · simp [finishedWorkflowTask, initialWorkflowTask, setZadigParamRepos]
  · intro s hs jt hjt
    have hs' : s ∈ built.2.map (StageTaskCell.read built.1) := by
      simpa [finishedWorkflowTask] using hs
    rw [hstages] at hs'
    simp only [List.mem_filter, List.mem_map] at hs'
    obtain ⟨⟨v, hv, hsv⟩, _⟩ := hs'
    subst hsv
    simp only [StageView.stageTask, stageFanOut, List.mem_map, List.mem_flatMap,
      List.mem_filter] at hjt
    obtain ⟨o, ⟨job, ⟨hjob, hns⟩, ho⟩, hjt⟩ := hjt
    cases hto : env.ToJobs job v.workflow nextTaskID with
    | error err => simp [hto] at ho
    | ok out =>
      simp only [hto] at ho
      obtain ⟨h1, h2, h3, h4⟩ := markBreakpoint_spec workflow3.Debug o
      refine ⟨v, hv, job, hjob, out, o, ho, by simpa using hns, ?_, hjt.symm, ?_, ?_, ?_, ?_⟩
      · simpa [finishedWorkflowTask, initialWorkflowTask] using hto
      · rw [← hjt]
        exact h1
      · intro hd
        rw [← hjt]
        exact h2 hd
      · intro hd ht
        rw [← hjt]
        exact h3 hd ht
      · intro ht
        rw [← hjt]
        exact h4 ht

end Zadig

namespace Zadig

/-- Witness of C21: the instantiation of `demoDebugWorkflow`, a workflow in
debug mode with a freestyle job and a deploy job. -/
theorem create_debug_breakpoints_witness :
    Call.CreateTask demoDebugCreatedTask ∈
      (CreateWorkflowTaskV4 demoCreateEnv { Name := "alice", UserID := "" }
        demoDebugWorkflow).calls ∧
    ∃ workflow1 workflow2 workflow3 views last,
      demoCreateEnv.InstantiateWorkflow demoDebugWorkflow = .ok workflow1 ∧
      demoCreateEnv.RemoveFixedValueMarks workflow1 = .ok workflow2 ∧
      demoCreateEnv.RenderGlobalVariables workflow2 demoDebugCreatedTask.TaskID "alice"
        = .ok workflow3 ∧
      stageViews demoCreateEnv { Name := "alice", UserID := "" } demoDebugCreatedTask.TaskID
        (List.range (setZadigParamRepos demoCreateEnv workflow3).stageList.length)
        (WorkflowHeap.alloc (setZadigParamRepos demoCreateEnv workflow3)) = .ok (views, last) ∧
      demoDebugCreatedTask.IsDebug = workflow3.Debug ∧
      ∀ s ∈ demoDebugCreatedTask.Stages, ∀ jt ∈ s.Jobs,
        ∃ v ∈ views, ∃ job ∈ v.jobs, ∃ out, ∃ o ∈ out,
          demoCreateEnv.JobSkiped job = false ∧
          demoCreateEnv.ToJobs job v.workflow demoDebugCreatedTask.TaskID = .ok out ∧
          jt = markBreakpoint workflow3.Debug o ∧
          jt.BreakpointAfter = o.BreakpointAfter ∧
          (workflow3.Debug = false → jt = o) ∧
          (workflow3.Debug = true →
            (o.JobType = JobFreestyle ∨ o.JobType = JobZadigTesting ∨
                o.JobType = JobZadigBuild ∨ o.JobType = JobZadigScanning) →
            jt = { o with BreakpointBefore := true }) ∧
          (¬ (o.JobType = JobFreestyle ∨ o.JobType = JobZadigTesting ∨
                o.JobType = JobZadigBuild ∨ o.JobType = JobZadigScanning) →
            jt = o) :=
  ⟨by decide,
    create_debug_breakpoints demoCreateEnv { Name := "alice", UserID := "" } demoDebugWorkflow
      demoDebugCreatedTask (by decide)⟩

/-! ## The listing of tasks -/

theorem cleanStages_eq {α : Type} (approval : α → Option Approval) (approvalStage : Approval → α)
    (notRun : α → α) (strip : α → α) :
    ∀ (stages stageList : List α),
      cleanStages approval approvalStage notRun strip stages stageList =
        stageList ++ stages.flatMap (fun stage =>
          match approval stage with
          | some a =>
            if a.Enabled then
              [approvalStage a, strip (if a.Status ≠ StatusPassed then notRun stage else stage)]
            else [strip stage]
          | none => [strip stage]) := by
  intro stages
  induction stages with
  | nil => intro stageList; simp [cleanStages]
  | cons stage rest ih =>
    intro stageList
    cases ha : approval stage with
    | none => simp [cleanStages, ha, ih]
    | some a =>
      by_cases he : a.Enabled = true
      · simp [cleanStages, ha, he, ih]
      · simp [cleanStages, ha, he, ih]

end Zadig

namespace Zadig

theorem cleanStages_closed {α : Type} (approval : α → Option Approval)
    (approvalStage : Approval → α) (notRun : α → α) (strip : α → α) (stages : List α) :
    cleanStages approval approvalStage notRun strip stages [] =
      stages.flatMap (fun stage =>
        (match enabledGate (approval stage) with
          | some a => [approvalStage a]
          | none => []) ++
        [strip (if gateNotPassed (approval stage) then notRun stage else stage)]) := by
  rw [cleanStages_eq]
  simp only [List.nil_append]
  congr 1
  funext stage
  cases ha : approval stage with
  | none => simp [enabledGate, gateNotPassed]
  | some a =>
    by_cases he : a.Enabled = true
    · by_cases hp : a.Status = StatusPassed <;>
        simp [enabledGate, gateNotPassed, Option.filter, he, hp]
    · simp [enabledGate, gateNotPassed, Option.filter, he]

theorem gated_flatMap_length {α : Type} (approval : α → Option Approval)
    (approvalStage : Approval → α) (keep : α → α) (stages : List α) :
    (stages.flatMap (fun stage =>
        (match enabledGate (approval stage) with
          | some a => [approvalStage a]
          | none => []) ++ [keep stage])).length =
      stages.length + stages.countP (fun stage => (enabledGate (approval stage)).isSome) := by
  induction stages with
  | nil => simp
  | cons stage rest ih =>
    simp only [List.flatMap_cons, List.length_append, ih, List.length_cons, List.length_nil,
      List.countP_cons]
    cases enabledGate (approval stage) <;> simp <;> omega

theorem gated_flatMap_sublist {α : Type} (approval : α → Option Approval)
    (approvalStage : Approval → α) (keep : α → α) (stages : List α) :
    (stages.map keep).Sublist
      (stages.flatMap (fun stage =>
        (match enabledGate (approval stage) with
          | some a => [approvalStage a]
          | none => []) ++ [keep stage])) := by
  induction stages with
  | nil => simp
  | cons stage rest ih =>
    simp only [List.map_cons, List.flatMap_cons]
    cases enabledGate (approval stage) with
    | none => simpa using ih
    | some a =>
      simp only [List.singleton_append, List.cons_append, List.nil_append]
      exact List.Sublist.cons _ (List.Sublist.cons₂ _ ih)

theorem gateNotPassed_iff (approval : Option Approval) :
    gateNotPassed approval = true ↔
      ∃ a, approval = some a ∧ a.Enabled = true ∧ a.Status ≠ StatusPassed := by
  cases approval with
  | none => simp [gateNotPassed, enabledGate]
  | some a =>
    by_cases he : a.Enabled = true <;> simp [gateNotPassed, enabledGate, Option.filter, he]

theorem enabledGate_iff (approval : Option Approval) (a : Approval) :
    enabledGate approval = some a ↔ approval = some a ∧ a.Enabled = true := by
  cases approval with
  | none => simp [enabledGate]
  | some b =>
    by_cases he : b.Enabled = true
    · simp only [enabledGate, Option.filter, he, if_true, Option.some.injEq]
      constructor
      · intro h
        subst h
        exact ⟨rfl, he⟩
      · intro h
        exact h.1
    · simp only [enabledGate, Option.filter, he, Bool.false_eq_true, if_false, Option.some.injEq]
      constructor
      · intro h
        cases h
      · rintro ⟨h1, h2⟩
        subst h1
        exact absurd h2 he

end Zadig

namespace Zadig

/-- C22: `cleanWorkflowV4Tasks` and `cleanWorkflowV4TasksPreviews` keep one
task per task, in order, and give each the stage list of the original with one
synthetic approval stage inserted immediately before each stage whose approval
is enabled.  The synthetic stage carries the status, start time and end time
of the approval and the display name of its type (the empty name for a type
without one).  The original stages keep their order and the length grows by
the number of stages with an enabled approval.  An original stage keeps its
name, times, error, approval and jobs (in a task the payload, outputs and
display fields of its jobs are cleared), and its status is blanked to not-run
exactly when its approval is enabled and has not passed. -/
theorem clean_inserts_approval_stages (tasks : List WorkflowTask)
    (previews : List WorkflowTaskPreview) :
    (cleanWorkflowV4Tasks tasks).length = tasks.length ∧
    (∀ (i : Nat) (w : WorkflowTask), tasks[i]? = some w →
      ∃ w1 : WorkflowTask, (cleanWorkflowV4Tasks tasks)[i]? = some w1 ∧
        w1.Stages = w.Stages.flatMap (fun stage =>
          (match enabledGate stage.Approval with
            | some a => [approvalStageTask a]
            | none => []) ++
          [stripJobs (if gateNotPassed stage.Approval then { stage with Status := "" }
                      else stage)]) ∧
        w1.Stages.length =
          w.Stages.length + w.Stages.countP (fun stage => (enabledGate stage.Approval).isSome) ∧
        (w.Stages.map (fun stage =>
          stripJobs (if gateNotPassed stage.Approval then { stage with Status := "" }
                     else stage))).Sublist w1.Stages) ∧
    (cleanWorkflowV4TasksPreviews previews).length = previews.length ∧
    (∀ (i : Nat) (w : WorkflowTaskPreview), previews[i]? = some w →
      ∃ w1 : WorkflowTaskPreview, (cleanWorkflowV4TasksPreviews previews)[i]? = some w1 ∧
        w1.Stages = w.Stages.flatMap (fun stage =>
          (match enabledGate stage.Approval with
            | some a => [approvalStagePreview a]
            | none => []) ++
          [if gateNotPassed stage.Approval then { stage with Status := "" } else stage]) ∧
        w1.Stages.length =
          w.Stages.length + w.Stages.countP (fun stage => (enabledGate stage.Approval).isSome) ∧
        (w.Stages.map (fun stage =>
          if gateNotPassed stage.Approval then { stage with Status := "" }
          else stage)).Sublist w1.Stages) ∧
    (∀ a : Approval,
      (approvalStageTask a).Status = a.Status ∧ (approvalStageTask a).StartTime = a.StartTime ∧
      (approvalStageTask a).EndTime = a.EndTime ∧
      (approvalStageTask a).Name = (approvalMap a.ApprovalType).getD "" ∧
      (approvalStagePreview a).Status = a.Status ∧
      (approvalStagePreview a).StartTime = a.StartTime ∧
      (approvalStagePreview a).EndTime = a.EndTime ∧
      (approvalStagePreview a).Name = (approvalMap a.ApprovalType).getD "") ∧
    (approvalMap NativeApproval = some "Zadig 审批" ∧ approvalMap LarkApproval = some "飞书审批" ∧
      approvalMap DingTalkApproval = some "钉钉审批") ∧
    (∀ stage : StageTask,
      (stripJobs (if gateNotPassed stage.Approval then { stage with Status := "" }
                  else stage)).Name = stage.Name ∧
      (stripJobs (if gateNotPassed stage.Approval then { stage with Status := "" }
                  else stage)).Approval = stage.Approval ∧
      (stripJobs (if gateNotPassed stage.Approval then { stage with Status := "" }
                  else stage)).Jobs.map (fun job => job.Name) =
        stage.Jobs.map (fun job => job.Name) ∧
      (stripJobs (if gateNotPassed stage.Approval then { stage with Status := "" }
                  else stage)).Status =
        if gateNotPassed stage.Approval then "" else stage.Status) ∧
    (∀ approval, gateNotPassed approval = true ↔
      ∃ a, approval = some a ∧ a.Enabled = true ∧ a.Status ≠ StatusPassed) ∧
    (∀ approval a, enabledGate approval = some a ↔ approval = some a ∧ a.Enabled = true) := by
  refine ⟨by simp [cleanWorkflowV4Tasks], ?_, by simp [cleanWorkflowV4TasksPreviews], ?_, ?_, ?_,
    ?_, gateNotPassed_iff, enabledGate_iff⟩
  · intro i w hw
    have hclosed := cleanStages_closed (fun stage : StageTask => stage.Approval)
      approvalStageTask (fun stage => { stage with Status := "" }) stripJobs w.Stages
    refine ⟨{ w with
        WorkflowArgs := none, OriginWorkflowArgs := none
        Stages := cleanStages (fun stage => stage.Approval) approvalStageTask
          (fun stage => { stage with Status := "" }) stripJobs w.Stages [] }, ?_, ?_, ?_, ?_⟩
    · simp [cleanWorkflowV4Tasks, hw]
    · exact hclosed
    · simp only [hclosed]
      exact gated_flatMap_length (fun stage : StageTask => stage.Approval) approvalStageTask
        (fun stage => stripJobs (if gateNotPassed stage.Approval then { stage with Status := "" }
          else stage)) w.Stages
    · simp only [hclosed]
      exact gated_flatMap_sublist (fun stage : StageTask => stage.Approval) approvalStageTask
        (fun stage => stripJobs (if gateNotPassed stage.Approval then { stage with Status := "" }
          else stage)) w.Stages
  · intro i w hw
    have hclosed := cleanStages_closed (fun stage : StagePreview => stage.Approval)
      approvalStagePreview (fun stage => { stage with Status := "" }) id w.Stages
    simp only [id] at hclosed
    refine ⟨{ w with
        WorkflowArgs := none
        Stages := cleanStages (fun stage => stage.Approval) approvalStagePreview
          (fun stage => { stage with Status := "" }) id w.Stages [] }, ?_, ?_, ?_, ?_⟩
    · simp [cleanWorkflowV4TasksPreviews, hw]
    · exact hclosed
    · simp only [hclosed]
      exact gated_flatMap_length (fun stage : StagePreview => stage.Approval)
        approvalStagePreview
        (fun stage => if gateNotPassed stage.Approval then { stage with Status := "" }
          else stage) w.Stages
    · simp only [hclosed]
      exact gated_flatMap_sublist (fun stage : StagePreview => stage.Approval)
        approvalStagePreview
        (fun stage => if gateNotPassed stage.Approval then { stage with Status := "" }
          else stage) w.Stages
  · intro a
    refine ⟨rfl, rfl, rfl, rfl, ?_, ?_, ?_, ?_⟩ <;>
      · unfold approvalStagePreview
        cases approvalMap a.ApprovalType <;> rfl
  · exact ⟨by decide, by decide, by decide⟩
  · intro stage
    by_cases hg : gateNotPassed stage.Approval = true
    · simp [stripJobs, hg]
    · simp [stripJobs, hg]

/-- The stages of the concrete task after `cleanWorkflowV4Tasks`: a passed
approval stage before `deploy`, a waiting one before `release`, whose status
is blanked. -/
theorem demoGatedStages_cleaned :
    (cleanWorkflowV4Tasks [{ demoLiveTask with Stages := demoGatedStages }]).map
        (fun w => w.Stages.map (fun stage => (stage.Name, stage.Status))) =
      [[("build", "passed"), ("Zadig 审批", "passed"), ("deploy", "passed"),
        ("飞书审批", "waitforapprove"), ("release", "")]] := by
  decide

end Zadig

namespace Zadig

/-! ## The previews of job tasks -/

theorem jobPreviewsLoop_eq (env : PreviewEnv) (context : List (String × String)) (now : Int)
    (projectName : String) :
    ∀ (jobs : List JobTask) (resp : List JobTaskPreview),
      jobPreviewsLoop env context now projectName jobs resp =
        (resp ++ jobs.filterMap (jobPreviewOf env context now projectName),
          jobs.map previewedJob) := by
  intro jobs
  induction jobs with
  | nil => intro resp; simp [jobPreviewsLoop]
  | cons job rest ih =>
    intro resp
    cases hp : jobPreviewOf env context now projectName job with
    | none => simp [jobPreviewsLoop, hp, ih]
    | some p => simp [jobPreviewsLoop, hp, ih]

theorem jobsToJobPreviews_eq (env : PreviewEnv) (jobs : List JobTask)
    (context : List (String × String)) (now : Int) (projectName : String) :
    jobsToJobPreviews env jobs context now projectName =
      (jobs.filterMap (jobPreviewOf env context now projectName), jobs.map previewedJob) := by
  simp [jobsToJobPreviews, jobPreviewsLoop_eq]

theorem jobPreviewOf_fields (env : PreviewEnv) (context : List (String × String)) (now : Int)
    (projectName : String) (job : JobTask) (p : JobTaskPreview)
    (h : jobPreviewOf env context now projectName job = some p) :
    p.Name = job.Name ∧ p.Status = job.Status ∧ p.StartTime = job.StartTime ∧
    p.EndTime = job.EndTime ∧ p.Error = job.Error ∧
    p.BreakpointBefore = job.BreakpointBefore ∧ p.BreakpointAfter = job.BreakpointAfter ∧
    p.JobInfo = job.JobInfo ∧ p.CostSeconds = costSeconds now job := by
  unfold jobPreviewOf at h
  cases ht : taskJobSpecOf job.JobType with
  | none =>
    simp only [ht, Option.some.injEq] at h
    subst h
    simp [newJobPreview]
  | some target =>
    cases hc : env.IToi target job.Spec with
    | error err => simp [ht, hc] at h
    | ok taskJobSpec =>
      simp only [ht, hc, Option.some.injEq] at h
      subst h
      simp [newJobPreview]

theorem jobPreviewOf_none_iff (env : PreviewEnv) (context : List (String × String)) (now : Int)
    (projectName : String) (job : JobTask) :
    jobPreviewOf env context now projectName job = none ↔
      ∃ target err, taskJobSpecOf job.JobType = some target ∧
        env.IToi target job.Spec = .error err := by
  unfold jobPreviewOf
  cases ht : taskJobSpecOf job.JobType with
  | none => simp
  | some target =>
    cases hc : env.IToi target job.Spec with
    | error err => simp [hc]
    | ok taskJobSpec => simp [hc]

theorem wrapInt64_of_range (x : Int) (hlo : -2 ^ 63 ≤ x) (hhi : x < 2 ^ 63) :
    wrapInt64 x = x := by
  unfold wrapInt64
  have h1 : 0 ≤ x + 2 ^ 63 := by omega
  have h2 : x + 2 ^ 63 < 2 ^ 64 := by omega
  rw [Int.emod_eq_of_lt h1 h2]
  omega

/-- The times of a preview are those of its job, and its `CostSeconds` is 0
when the job has not started, the difference to `EndTime` when it has ended,
and the difference to `now` otherwise. -/
theorem jobPreviewOf_cost (env : PreviewEnv) (context : List (String × String)) (now : Int)
    (projectName : String) (job : JobTask) :
    (jobPreviewOf env context now projectName job).map
        (fun p => (p.Name, p.StartTime, p.EndTime, p.CostSeconds)) =
      if (match taskJobSpecOf job.JobType with
          | none => true
          | some target =>
            match env.IToi target job.Spec with
            | .ok _ => true
            | .error _ => false) = true then
        some (job.Name, job.StartTime, job.EndTime,
          if job.StartTime = 0 then 0
          else if job.EndTime = 0 then wrapInt64 (now - job.StartTime)
          else wrapInt64 (job.EndTime - job.StartTime))
      else none := by
  unfold jobPreviewOf
  cases ht : taskJobSpecOf job.JobType with
  | none =>
    by_cases h0 : job.StartTime = 0 <;> by_cases h1 : job.EndTime = 0 <;>
      simp [newJobPreview, costSeconds, h0, h1]
  | some target =>
    cases hc : env.IToi target job.Spec with
    | error err => simp [hc]
    | ok taskJobSpec =>
      by_cases h0 : job.StartTime = 0 <;> by_cases h1 : job.EndTime = 0 <;>
        simp [newJobPreview, costSeconds, h0, h1, hc]

theorem filterMap_map_eq_filter_map {α β γ : Type} (f : α → Option β) (g : β → γ)
    (c : α → Bool) (h : α → γ)
    (hf : ∀ a, (f a).map g = if c a = true then some (h a) else none) :
    ∀ l : List α, (l.filterMap f).map g = (l.filter c).map h := by
  intro l
  induction l with
  | nil => rfl
  | cons a rest ih =>
    have ha := hf a
    cases hfa : f a with
    | none =>
      rw [hfa] at ha
      have hc : c a = false := by
        cases hca : c a
        · rfl
        · simp [hca] at ha
      simp [List.filterMap_cons, hfa, List.filter_cons, hc, ih]
    | some b =>
      rw [hfa] at ha
      have hc : c a = true := by
        cases hca : c a
        · simp [hca] at ha
        · rfl
      simp only [hc, if_true, Option.map_some', Option.some.injEq] at ha
      simp [List.filterMap_cons, hfa, List.filter_cons, hc, ih, ha]

/-- C24: `jobsToJobPreviews` reports a preview for a job whose payload
converts (a job of a type without a case of its own in the switch included),
with the `Name`, `StartTime` and `EndTime` of the job, and the `CostSeconds`
of that preview is 0 when the `StartTime` of the job is 0, the `int64` value of
`EndTime - StartTime` when both are non-zero, and the `int64` value of
`now - StartTime` when `StartTime` is non-zero and `EndTime` is 0.  The names,
times and `CostSeconds` of all the previews reported are, in order, those of
the jobs whose payload converts, with `CostSeconds` by these three cases; the
`int64` value of a difference is the difference itself whenever that lies in
the range of `int64`. -/
theorem cost_seconds_cases (env : PreviewEnv) (jobs : List JobTask)
    (context : List (String × String)) (now : Int) (projectName : String)
    (job : JobTask) (hjob : job ∈ jobs)
    (hconv : ∀ target, taskJobSpecOf job.JobType = some target →
      ∃ taskJobSpec, env.IToi target job.Spec = .ok taskJobSpec) :
    (∃ p ∈ (jobsToJobPreviews env jobs context now projectName).1,
      p.Name = job.Name ∧ p.StartTime = job.StartTime ∧ p.EndTime = job.EndTime ∧
      (job.StartTime = 0 → p.CostSeconds = 0) ∧
      (job.StartTime ≠ 0 → job.EndTime ≠ 0 →
        p.CostSeconds = wrapInt64 (job.EndTime - job.StartTime)) ∧
      (job.StartTime ≠ 0 → job.EndTime = 0 →
        p.CostSeconds = wrapInt64 (now - job.StartTime))) ∧
    (jobsToJobPreviews env jobs context now projectName).1.map
        (fun p => (p.Name, p.StartTime, p.EndTime, p.CostSeconds)) =
      (jobs.filter (fun job =>
          match taskJobSpecOf job.JobType with
          | none => true
          | some target =>
            match env.IToi target job.Spec with
            | .ok _ => true
            | .error _ => false)).map
        (fun job => (job.Name, job.StartTime, job.EndTime,
          if job.StartTime = 0 then 0
          else if job.EndTime = 0 then wrapInt64 (now - job.StartTime)
          else wrapInt64 (job.EndTime - job.StartTime))) ∧
    (∀ x : Int, -2 ^ 63 ≤ x → x < 2 ^ 63 → wrapInt64 x = x) := by
  refine ⟨?_, ?_, wrapInt64_of_range⟩
  · have hsome : ∃ p, jobPreviewOf env context now projectName job = some p := by
      cases hp : jobPreviewOf env context now projectName job with
      | some p => exact ⟨p, rfl⟩
      | none =>
        obtain ⟨target, err, ht, he⟩ :=
          (jobPreviewOf_none_iff env context now projectName job).mp hp
        obtain ⟨taskJobSpec, hok⟩ := hconv target ht
        rw [hok] at he
        cases he
    obtain ⟨p, hp⟩ := hsome
    obtain ⟨hname, _, hstart, hend, _, _, _, _, hcost⟩ :=
      jobPreviewOf_fields env context now projectName job p hp
    refine ⟨p, ?_, hname, hstart, hend, ?_, ?_, ?_⟩
    · rw [jobsToJobPreviews_eq]
      exact List.mem_filterMap.mpr ⟨job, hjob, hp⟩
    · intro h0
      simp [hcost, costSeconds, h0]
    · intro h0 h1
      simp [hcost, costSeconds, h0, h1]
    · intro h0 h1
      simp [hcost, costSeconds, h0, h1]
  · rw [jobsToJobPreviews_eq]
    exact filterMap_map_eq_filter_map _ _ _ _
      (jobPreviewOf_cost env context now projectName) jobs

/-- Witness of C24: of the four concrete job tasks at time 200, the finished
build, whose payload converts, has a preview, with `CostSeconds` 60; the
previews reported are those of the build, the helm deploy and `notify`. -/
theorem cost_seconds_cases_witness :
    ({ Name := "build", Key := "build", JobType := "zadig-build", Status := StatusPassed,
       StartTime := 100, EndTime := 160, Error := "", BreakpointBefore := false,
       BreakpointAfter := false, Spec := "b" } : JobTask) ∈ demoPreviewJobs ∧
    (∀ target, taskJobSpecOf "zadig-build" = some target →
      ∃ taskJobSpec, demoPreviewEnv.IToi target "b" = .ok taskJobSpec) ∧
    (jobsToJobPreviews demoPreviewEnv demoPreviewJobs [] 200 "p").1.map
        (fun p => (p.Name, p.StartTime, p.EndTime, p.CostSeconds)) =
      [("build", 100, 160, 60), ("helm", 0, 0, 0), ("notify", 180, 0, 20)] ∧
    ((∃ p ∈ (jobsToJobPreviews demoPreviewEnv demoPreviewJobs [] 200 "p").1,
      p.Name = "build" ∧ p.StartTime = 100 ∧ p.EndTime = 160 ∧
      ((100 : Int) = 0 → p.CostSeconds = 0) ∧
      ((100 : Int) ≠ 0 → (160 : Int) ≠ 0 → p.CostSeconds = wrapInt64 (160 - 100)) ∧
      ((100 : Int) ≠ 0 → (160 : Int) = 0 → p.CostSeconds = wrapInt64 (200 - 100))) ∧
    (jobsToJobPreviews demoPreviewEnv demoPreviewJobs [] 200 "p").1.map
        (fun p => (p.Name, p.StartTime, p.EndTime, p.CostSeconds)) =
      (demoPreviewJobs.filter (fun job =>
          match taskJobSpecOf job.JobType with
          | none => true
          | some target =>
            match demoPreviewEnv.IToi target job.Spec with
            | .ok _ => true
            | .error _ => false)).map
        (fun job => (job.Name, job.StartTime, job.EndTime,
          if job.StartTime = 0 then 0
          else if job.EndTime = 0 then wrapInt64 (200 - job.StartTime)
          else wrapInt64 (job.EndTime - job.StartTime))) ∧
    (∀ x : Int, -2 ^ 63 ≤ x → x < 2 ^ 63 → wrapInt64 x = x)) :=
  ⟨by decide, fun _ _ => ⟨"b", rfl⟩, by decide,
    cost_seconds_cases demoPreviewEnv demoPreviewJobs [] 200 "p"
      { Name := "build", Key := "build", JobType := "zadig-build", Status := StatusPassed,
        StartTime := 100, EndTime := 160, Error := "", BreakpointBefore := false,
        BreakpointAfter := false, Spec := "b" }
      (by decide) (fun _ _ => ⟨"b", rfl⟩)⟩

/-- The previews of the concrete job tasks at time 200: the build took 60
seconds, the job `notify` has been running for 20, the helm deploy has not
started. -/
theorem demoPreviewJobs_cost :
    (jobsToJobPreviews demoPreviewEnv demoPreviewJobs [] 200 "p").1.map
        (fun p => (p.Name, p.CostSeconds)) =
      [("build", 60), ("helm", 0), ("notify", 20)] := by
  decide

end Zadig

namespace Zadig

/-- C27, counterexample: of the four concrete job tasks the freestyle job,
whose payload does not convert, gets no preview, so three previews are
returned for four jobs; and the helm deploy job is modified, its `JobType`
is rewritten. -/
theorem previews_drop_and_retag :
    (jobsToJobPreviews demoPreviewEnv demoPreviewJobs [] 200 "p").1.length
      ≠ demoPreviewJobs.length ∧
    (jobsToJobPreviews demoPreviewEnv demoPreviewJobs [] 200 "p").1.map (fun p => p.Name) =
      ["build", "helm", "notify"] ∧
    (jobsToJobPreviews demoPreviewEnv demoPreviewJobs [] 200 "p").2 ≠ demoPreviewJobs ∧
    (jobsToJobPreviews demoPreviewEnv demoPreviewJobs [] 200 "p").2.map (fun job => job.JobType) =
      ["zadig-build", "freestyle", "zadig-deploy", "notification"] := by
  decide

/-- C27, amended: `jobsToJobPreviews` returns, in input order, one preview for
every input job except the jobs of a type with a case of its own in the switch
whose payload fails to convert to the record of that case, which get none (so
one preview per job when every payload converts); each preview carries the
`Name`, `Status`, `StartTime`, `EndTime`, `Error` and both breakpoint flags of
its job; and it leaves every input job as it was, except that the `JobType` of
a helm deploy job is rewritten to the deploy tag. -/
theorem previews_of_converting_jobs (env : PreviewEnv) (jobs : List JobTask)
    (context : List (String × String)) (now : Int) (projectName : String) :
    (jobsToJobPreviews env jobs context now projectName).1 =
      jobs.filterMap (jobPreviewOf env context now projectName) ∧
    (∀ job : JobTask, jobPreviewOf env context now projectName job = none ↔
      ∃ target err, taskJobSpecOf job.JobType = some target ∧
        env.IToi target job.Spec = .error err) ∧
    (∀ (job : JobTask) (p : JobTaskPreview),
      jobPreviewOf env context now projectName job = some p →
        p.Name = job.Name ∧ p.Status = job.Status ∧ p.StartTime = job.StartTime ∧
        p.EndTime = job.EndTime ∧ p.Error = job.Error ∧
        p.BreakpointBefore = job.BreakpointBefore ∧ p.BreakpointAfter = job.BreakpointAfter) ∧
    ((∀ job ∈ jobs, ∀ target, taskJobSpecOf job.JobType = some target →
        ∃ taskJobSpec, env.IToi target job.Spec = .ok taskJobSpec) →
      (jobsToJobPreviews env jobs context now projectName).1.length = jobs.length ∧
      (jobsToJobPreviews env jobs context now projectName).1.map (fun p => p.Name) =
        jobs.map (fun job => job.Name)) ∧
    (jobsToJobPreviews env jobs context now projectName).2 = jobs.map previewedJob ∧
    (∀ job : JobTask, job.JobType ≠ JobZadigHelmDeploy → previewedJob job = job) ∧
    (∀ job : JobTask, job.JobType = JobZadigHelmDeploy →
      previewedJob job = { job with JobType := JobZadigDeploy }) := by
  refine ⟨by rw [jobsToJobPreviews_eq], jobPreviewOf_none_iff env context now projectName, ?_, ?_,
    by rw [jobsToJobPreviews_eq], ?_, ?_⟩
  · intro job p hp
    obtain ⟨h1, h2, h3, h4, h5, h6, h7, _, _⟩ :=
      jobPreviewOf_fields env context now projectName job p hp
    exact ⟨h1, h2, h3, h4, h5, h6, h7⟩
  · intro hall
    rw [jobsToJobPreviews_eq]
    simp only
    have hmap : ∀ js : List JobTask,
        (∀ job ∈ js, ∀ target, taskJobSpecOf job.JobType = some target →
          ∃ taskJobSpec, env.IToi target job.Spec = .ok taskJobSpec) →
        (js.filterMap (jobPreviewOf env context now projectName)).map (fun p => p.Name) =
          js.map (fun job => job.Name) := by
      intro js
      induction js with
      | nil => intro _; rfl
      | cons job rest ih =>
        intro hjs
        cases hp : jobPreviewOf env context now projectName job with
        | none =>
          obtain ⟨target, err, ht, herr⟩ :=
            (jobPreviewOf_none_iff env context now projectName job).mp hp
          obtain ⟨taskJobSpec, hok⟩ := hjs job (List.mem_cons_self _ _) target ht
          rw [hok] at herr
          cases herr
        | some p =>
          have hname := (jobPreviewOf_fields env context now projectName job p hp).1
          simp only [List.filterMap_cons, hp, List.map_cons, hname]
          rw [ih (fun j hj => hjs j (List.mem_cons_of_mem _ hj))]
    have hnames := hmap jobs hall
    refine ⟨?_, hnames⟩
    have := congrArg List.length hnames
    simpa using this
  · intro job hne
    simp [previewedJob, hne]
  · intro job he
    simp [previewedJob, he]

end Zadig

namespace Zadig

/-! ## The flags after a successful breakpoint request -/

theorem updateFirstJob_find (jobName : String) (f : JobTask → JobTask)
    (hname : ∀ t, (f t).Name = t.Name) :
    ∀ jobs : List JobTask,
      (jobs.find? (fun jobTask => jobTask.Name == jobName) = none →
        updateFirstJob jobName f jobs = (jobs, false)) ∧
      (∀ job, jobs.find? (fun jobTask => jobTask.Name == jobName) = some job →
        (updateFirstJob jobName f jobs).2 = true ∧
        (updateFirstJob jobName f jobs).1.find? (fun jobTask => jobTask.Name == jobName)
          = some (f job)) := by
  intro jobs
  induction jobs with
  | nil => simp [updateFirstJob]
  | cons jt rest ih =>
    by_cases hn : jt.Name = jobName
    · constructor
      · intro h
        simp [List.find?, hn] at h
      · intro job h
        simp only [List.find?, hn, beq_self_eq_true, Option.some.injEq] at h
        subst h
        simp [updateFirstJob, hn, List.find?, hname]
    · have hb : (jt.Name == jobName) = false := by simpa using hn
      constructor
      · intro h
        simp only [List.find?, hb] at h
        simp [updateFirstJob, hb, ih.1 h]
      · intro job h
        simp only [List.find?, hb] at h
        obtain ⟨h1, h2⟩ := ih.2 job h
        simp [updateFirstJob, hb, h1, h2, List.find?]

theorem findJob_updateFoundJob (jobName : String) (f : JobTask → JobTask)
    (hname : ∀ t, (f t).Name = t.Name) :
    ∀ (stages : List StageTask) (job : JobTask), findJob jobName stages = some job →
      findJob jobName (updateFoundJob jobName f stages) = some (f job) := by
  intro stages
  induction stages with
  | nil => intro job h; simp [findJob] at h
  | cons stage rest ih =>
    intro job h
    cases hf : stage.Jobs.find? (fun jobTask => jobTask.Name == jobName) with
    | none =>
      have hu := (updateFirstJob_find jobName f hname stage.Jobs).1 hf
      simp only [findJob, hf] at h
      simp [updateFoundJob, hu, findJob, hf, ih job h]
    | some found =>
      obtain ⟨h1, h2⟩ := (updateFirstJob_find jobName f hname stage.Jobs).2 found hf
      simp only [findJob, hf, Option.some.injEq] at h
      subst h
      simp [updateFoundJob, h1, findJob, h2]

theorem setBreakpointBody_ok_found (env : DebugEnv) (w : WorkflowTask) (jobName : String)
    (set : Bool) (position : String)
    (hok : (setBreakpointBody env w jobName set position).outcome = .ok) :
    (∃ job, findJob jobName w.Stages = some job) ∧
    (setBreakpointBody env w jobName set position).task =
      (assignBreakpoint jobName set position w).1 := by
  constructor
  · cases hjob : findJob jobName w.Stages with
    | none => simp [setBreakpointBody, hjob] at hok
    | some job => exact ⟨job, rfl⟩
  · obtain ⟨_, _, _, _, hcases⟩ := setBreakpointBody_shape env w jobName set position
    rcases hcases with ⟨_, _, h⟩ | ⟨_, _, _, _, _, ⟨msg, hmsg⟩, _⟩ | ⟨_, _, _, _, _, _, _, _, h, _⟩
    · exact (h hok).1
    · rw [hmsg] at hok
      cases hok
    · exact h

/-- C25, counterexample: for the position `middle` on the job `todo`, which
has not started, `SetWorkflowTaskV4Breakpoint` returns a nil error although
the position is neither `before` nor `after`, and the task is as it was. -/
theorem set_breakpoint_accepts_other_position :
    (SetWorkflowTaskV4Breakpoint demoDebugEnv "w" "todo" 1 false "middle").outcome = .ok ∧
    ¬ (("middle" : String) = "before" ∨ ("middle" : String) = "after") ∧
    (SetWorkflowTaskV4Breakpoint demoDebugEnv "w" "todo" 1 false "middle").task
      = some demoLiveTask ∧
    (SetWorkflowTaskV4Breakpoint demoDebugEnv "w" "todo" 1 false "middle").events
      = [.Lock, .Unlock] := by
  decide

/-- C25, amended: whenever `SetWorkflowTaskV4Breakpoint` returns a nil error,
the task is live and has a job task of the given name; when the position is
`before`, the first job task of that name has `BreakpointBefore` equal to
`set` on return and is otherwise as it was, so its `BreakpointAfter` is
unchanged; when the position is `after`, it has `BreakpointAfter` equal to
`set` and is otherwise as it was; for any other position the task is as it
was. -/
theorem set_breakpoint_success_flags (env : DebugEnv) (workflowName jobName : String)
    (taskID : Int) (set : Bool) (position : String)
    (hok : (SetWorkflowTaskV4Breakpoint env workflowName jobName taskID set position).outcome
      = .ok) :
    ∃ w job w1,
      env.GetWorkflowTaskInMap workflowName taskID = some w ∧
      findJob jobName w.Stages = some job ∧
      (SetWorkflowTaskV4Breakpoint env workflowName jobName taskID set position).task = some w1 ∧
      (position = "before" →
        findJob jobName w1.Stages = some { job with BreakpointBefore := set }) ∧
      (position = "after" →
        findJob jobName w1.Stages = some { job with BreakpointAfter := set }) ∧
      (position ≠ "before" → position ≠ "after" → w1 = w) := by
  cases hlive : env.GetWorkflowTaskInMap workflowName taskID with
  | none => simp [SetWorkflowTaskV4Breakpoint, hlive] at hok
  | some w =>
    have hres : SetWorkflowTaskV4Breakpoint env workflowName jobName taskID set position =
        underLock (setBreakpointBody env w jobName set position) := by
      simp [SetWorkflowTaskV4Breakpoint, hlive]
    rw [hres] at hok ⊢
    obtain ⟨_, huout, hutask⟩ := underLock_events (setBreakpointBody env w jobName set position)
    rw [huout] at hok
    obtain ⟨⟨job, hjob⟩, htask⟩ := setBreakpointBody_ok_found env w jobName set position hok
    refine ⟨w, job, (assignBreakpoint jobName set position w).1, rfl, hjob, ?_, ?_, ?_, ?_⟩
    · rw [hutask, htask]
    · intro hb
      subst hb
      simp only [assignBreakpoint, if_true]
      exact findJob_updateFoundJob jobName (fun t => { t with BreakpointBefore := set })
        (fun _ => rfl) w.Stages job hjob
    · intro ha
      subst ha
      have hne : ¬ ("after" : String) = "before" := by decide
      simp only [assignBreakpoint, hne, if_false, if_true]
      exact findJob_updateFoundJob jobName (fun t => { t with BreakpointAfter := set })
        (fun _ => rfl) w.Stages job hjob
    · intro hb ha
      simp [assignBreakpoint, hb, ha]

/-- Witness of C25: the before breakpoint of the job `todo`, which has not
started, is cleared. -/
theorem set_breakpoint_success_flags_witness :
    (SetWorkflowTaskV4Breakpoint demoDebugEnv "w" "todo" 1 false "before").outcome = .ok ∧
    ∃ w job w1,
      demoDebugEnv.GetWorkflowTaskInMap "w" 1 = some w ∧
      findJob "todo" w.Stages = some job ∧
      (SetWorkflowTaskV4Breakpoint demoDebugEnv "w" "todo" 1 false "before").task = some w1 ∧
      (("before" : String) = "before" →
        findJob "todo" w1.Stages = some { job with BreakpointBefore := false }) ∧
      (("before" : String) = "after" →
        findJob "todo" w1.Stages = some { job with BreakpointAfter := false }) ∧
      (("before" : String) ≠ "before" → ("before" : String) ≠ "after" → w1 = w) :=
  ⟨by decide,
    set_breakpoint_success_flags demoDebugEnv "w" "todo" 1 false "before" (by decide)⟩

end Zadig

namespace Zadig

/-- C26, counterexample: on a pod where every remote command fails, a before
breakpoint is requested for the running job `sh`: the `touch` command is sent
and fails, and `SetWorkflowTaskV4Breakpoint` still returns a nil error with
`BreakpointBefore` of the job set to true. -/
theorem set_breakpoint_ignores_command_result :
    CtlEvent.KubeExec { Namespace := "ns", PodName := "pod-job-1", ContainerName := "main",
                        Command := ["sh", "-c", "touch /zadig/debug/breakpoint_before"] } ∈
      (SetWorkflowTaskV4Breakpoint demoDeafEnv "w" "sh" 1 true "before").events ∧
    demoDeafEnv.KubeExec 1 { Namespace := "ns", PodName := "pod-job-1", ContainerName := "main",
                             Command := ["sh", "-c", "touch /zadig/debug/breakpoint_before"] }
      = false ∧
    (SetWorkflowTaskV4Breakpoint demoDeafEnv "w" "sh" 1 true "before").outcome = .ok ∧
    ((SetWorkflowTaskV4Breakpoint demoDeafEnv "w" "sh" 1 true "before").task.bind
        (fun w => findJob "sh" w.Stages)).map (fun job => job.BreakpointBefore) = some true := by
  decide

/-- C26, amended: for a job task with status running, debug_before or prepare
on a running pod with a container, when the position is `before` or `after`
and the probe for the scripted step fails, `SetWorkflowTaskV4Breakpoint` sends
the `touch` or `rm` command for the sentinel, then assigns the flag in memory,
calls `Ack` and returns a nil error, whatever the result of that command (no
hypothesis constrains it): the result is not checked. -/
theorem set_breakpoint_on_pod_unchecked (env : DebugEnv) (workflowName jobName : String)
    (taskID : Int) (set : Bool) (position : String) (w : WorkflowTask) (job : JobTask)
    (jobTaskSpec : JobTaskFreestyleSpec) (pod : Pod) (rest : List Pod) (c : String)
    (cs : List String)
    (hlive : env.GetWorkflowTaskInMap workflowName taskID = some w)
    (hjob : findJob jobName w.Stages = some job)
    (hrun : job.Status = StatusRunning ∨ job.Status = StatusDebugBefore ∨
      job.Status = StatusPrepare)
    (hspec : env.IToi job.Spec = .ok jobTaskSpec)
    (hclient : env.GetKubeClient jobTaskSpec.ClusterID = none)
    (hclientset : env.GetClientset jobTaskSpec.ClusterID = none)
    (hconfig : env.GetRESTConfig jobTaskSpec.ClusterID = none)
    (hpods : env.ListPods jobTaskSpec.Namespace job.K8sJobName = .ok (pod :: rest))
    (hphase : pod.Phase = PodRunning)
    (hcont : pod.Containers = c :: cs)
    (hpos : position = "before" ∨ position = "after")
    (hprobe : env.KubeExec 0 (execOptions jobTaskSpec pod c (probeFor position)) = false) :
    (SetWorkflowTaskV4Breakpoint env workflowName jobName taskID set position).outcome = .ok ∧
    (SetWorkflowTaskV4Breakpoint env workflowName jobName taskID set position).task =
      some (assignBreakpoint jobName set position w).1 ∧
    (SetWorkflowTaskV4Breakpoint env workflowName jobName taskID set position).events =
      [.Lock, .GetKubeClient jobTaskSpec.ClusterID, .GetClientset jobTaskSpec.ClusterID,
        .GetRESTConfig jobTaskSpec.ClusterID,
        .ListPods jobTaskSpec.Namespace job.K8sJobName,
        .KubeExec (execOptions jobTaskSpec pod c (probeFor position)),
        .KubeExec (execOptions jobTaskSpec pod c
          (setOrUnsetBreakpoint (touchOrRemove set) position)),
        .Ack (assignBreakpoint jobName set position w).1, .Unlock] ∧
    (position = "before" →
      findJob jobName (assignBreakpoint jobName set position w).1.Stages =
        some { job with BreakpointBefore := set }) ∧
    (position = "after" →
      findJob jobName (assignBreakpoint jobName set position w).1.Stages =
        some { job with BreakpointAfter := set }) := by
  have hne := running_not_empty job.Status hrun
  have hclients : getClients env jobTaskSpec.ClusterID "修改断点意外失败" =
      ([.GetKubeClient jobTaskSpec.ClusterID, .GetClientset jobTaskSpec.ClusterID,
        .GetRESTConfig jobTaskSpec.ClusterID], none) := by
    simp [getClients, hclient, hclientset, hconfig]
  have hack : (assignBreakpoint jobName set position w).2 = true :=
    (assignBreakpoint_ack jobName set position w).mpr hpos
  have hbody : setBreakpointBody env w jobName set position =
      setBreakpointRunning env w job jobTaskSpec jobName set position
        [.GetKubeClient jobTaskSpec.ClusterID, .GetClientset jobTaskSpec.ClusterID,
          .GetRESTConfig jobTaskSpec.ClusterID] := by
    simp [setBreakpointBody, hjob, hne, hspec, hclients, hrun]
  have hafter : ¬ ("after" : String) = "before" := by decide
  have hrunning : setBreakpointRunning env w job jobTaskSpec jobName set position
        [.GetKubeClient jobTaskSpec.ClusterID, .GetClientset jobTaskSpec.ClusterID,
          .GetRESTConfig jobTaskSpec.ClusterID] =
      { outcome := .ok, task := (assignBreakpoint jobName set position w).1,
        events := [.GetKubeClient jobTaskSpec.ClusterID, .GetClientset jobTaskSpec.ClusterID,
          .GetRESTConfig jobTaskSpec.ClusterID,
          .ListPods jobTaskSpec.Namespace job.K8sJobName,
          .KubeExec (execOptions jobTaskSpec pod c (probeFor position)),
          .KubeExec (execOptions jobTaskSpec pod c
            (setOrUnsetBreakpoint (touchOrRemove set) position))],
        ack := true } := by
    rcases hpos with h | h
    · subst h
      have hk : env.KubeExec 0 (execOptions jobTaskSpec pod c checkShellStepStart) = false :=
        hprobe
      simp [setBreakpointRunning, hpods, hphase,
        probeThenSet_cons env jobTaskSpec pod _ _ set "before" c cs hcont, hk, hack, probeFor]
    · subst h
      have hk : env.KubeExec 0 (execOptions jobTaskSpec pod c checkShellStepDone) = false :=
        hprobe
      simp [setBreakpointRunning, hpods, hphase, hafter,
        probeThenSet_cons env jobTaskSpec pod _ _ set "after" c cs hcont, hk, hack, probeFor]
  refine ⟨?_, ?_, ?_, ?_, ?_⟩
  · simp [SetWorkflowTaskV4Breakpoint, hlive, underLock, hbody, hrunning]
  · simp [SetWorkflowTaskV4Breakpoint, hlive, underLock, hbody, hrunning]
  · simp [SetWorkflowTaskV4Breakpoint, hlive, underLock, hbody, hrunning]
  · intro hb
    subst hb
    simp only [assignBreakpoint, if_true]
    exact findJob_updateFoundJob jobName (fun t => { t with BreakpointBefore := set })
      (fun _ => rfl) w.Stages job hjob
  · intro ha
    subst ha
    simp only [assignBreakpoint, hafter, if_false, if_true]
    exact findJob_updateFoundJob jobName (fun t => { t with BreakpointAfter := set })
      (fun _ => rfl) w.Stages job hjob

/-- Witness of C26: a before breakpoint is set for the running job `sh` on
the pod where every remote command fails. -/
theorem set_breakpoint_on_pod_unchecked_witness :
    (SetWorkflowTaskV4Breakpoint demoDeafEnv "w" "sh" 1 true "before").outcome = .ok ∧
    (SetWorkflowTaskV4Breakpoint demoDeafEnv "w" "sh" 1 true "before").events =
      [.Lock, .GetKubeClient "c", .GetClientset "c", .GetRESTConfig "c", .ListPods "ns" "job-1",
        .KubeExec { Namespace := "ns", PodName := "pod-job-1", ContainerName := "main",
                    Command := ["sh", "-c", "ls /zadig/debug/shell_step"] },
        .KubeExec { Namespace := "ns", PodName := "pod-job-1", ContainerName := "main",
                    Command := ["sh", "-c", "touch /zadig/debug/breakpoint_before"] },
        .Ack (assignBreakpoint "sh" true "before" demoLiveTask).1, .Unlock] :=
  ⟨(set_breakpoint_on_pod_unchecked demoDeafEnv "w" "sh" 1 true "before" demoLiveTask
      { Name := "sh", Key := "sh", JobType := "freestyle", Status := StatusRunning,
        StartTime := 101, EndTime := 0, Error := "", BreakpointBefore := false,
        BreakpointAfter := false, Spec := "spec", K8sJobName := "job-1" }
      { ClusterID := "c", Namespace := "ns" }
      { Name := "pod-job-1", Phase := "Running", Containers := ["main"] } [] "main" []
      (by decide) (by decide) (by decide) rfl rfl rfl rfl rfl rfl rfl (by decide) rfl).1,
    (set_breakpoint_on_pod_unchecked demoDeafEnv "w" "sh" 1 true "before" demoLiveTask
      { Name := "sh", Key := "sh", JobType := "freestyle", Status := StatusRunning,
        StartTime := 101, EndTime := 0, Error := "", BreakpointBefore := false,
        BreakpointAfter := false, Spec := "spec", K8sJobName := "job-1" }
      { ClusterID := "c", Namespace := "ns" }
      { Name := "pod-job-1", Phase := "Running", Containers := ["main"] } [] "main" []
      (by decide) (by decide) (by decide) rfl rfl rfl rfl rfl rfl rfl (by decide) rfl).2.2.1⟩

end Zadig

namespace Zadig

/-! ## RemoveExtraSpaces -/

theorem reSpace_isSpace (c : Char) (h : reSpace c = true) : isSpace c = true := by
  simp only [reSpace, Bool.or_eq_true, decide_eq_true_eq] at h
  simp only [isSpace, Bool.or_eq_true, decide_eq_true_eq, Bool.and_eq_true]
  omega

theorem not_reSpace_of_not_isSpace (c : Char) (h : isSpace c = false) : reSpace c = false := by
  cases hr : reSpace c with
  | false => rfl
  | true => rw [reSpace_isSpace c hr] at h; cases h

theorem head_dropWhile_not (p : Char → Bool) (l : List Char) (c : Char)
    (h : (l.dropWhile p).head? = some c) : p c = false := by
  have := List.head?_dropWhile_not p l
  rw [h] at this
  exact this

theorem getLast_rdropWhile_not (p : Char → Bool) (l : List Char) (c : Char)
    (h : (l.rdropWhile p).getLast? = some c) : p c = false := by
  induction l using List.reverseRecOn with
  | nil => simp [List.rdropWhile] at h
  | append_singleton L x ih =>
    rw [List.rdropWhile_concat] at h
    by_cases hx : p x = true
    · simp only [hx, if_true] at h
      exact ih h
    · simp only [hx] at h
      simp only [Bool.false_eq_true, if_false, List.getLast?_concat, Option.some.injEq] at h
      subst h
      simpa using hx

theorem head_rdropWhile (p : Char → Bool) (l : List Char) (c : Char)
    (h : (l.rdropWhile p).head? = some c) : l.head? = some c := by
  induction l using List.reverseRecOn with
  | nil => simp [List.rdropWhile] at h
  | append_singleton L x ih =>
    rw [List.rdropWhile_concat] at h
    by_cases hx : p x = true
    · simp only [hx, if_true] at h
      have hL := ih h
      cases L with
      | nil => simp at hL
      | cons a rest => simpa using hL
    · simp only [hx] at h
      simpa using h

theorem dropWhile_eq_self_of_head (p : Char → Bool) (l : List Char)
    (h : ∀ c, l.head? = some c → p c = false) : l.dropWhile p = l := by
  cases l with
  | nil => rfl
  | cons a rest => simp [List.dropWhile, h a rfl]

theorem rdropWhile_eq_self_of_last (p : Char → Bool) (l : List Char)
    (h : ∀ c, l.getLast? = some c → p c = false) : l.rdropWhile p = l := by
  induction l using List.reverseRecOn with
  | nil => simp [List.rdropWhile]
  | append_singleton L x _ =>
    rw [List.rdropWhile_concat]
    simp [h x (List.getLast?_concat L)]

theorem TrimSpace_ends (l : List Char) :
    (∀ c, (TrimSpace l).head? = some c → isSpace c = false) ∧
    (∀ c, (TrimSpace l).getLast? = some c → isSpace c = false) := by
  constructor
  · intro c h
    exact head_dropWhile_not isSpace l c (head_rdropWhile isSpace _ c h)
  · intro c h
    exact getLast_rdropWhile_not isSpace _ c h

theorem TrimSpace_eq_self (l : List Char)
    (hhead : ∀ c, l.head? = some c → isSpace c = false)
    (hlast : ∀ c, l.getLast? = some c → isSpace c = false) : TrimSpace l = l := by
  unfold TrimSpace
  rw [dropWhile_eq_self_of_head isSpace l hhead, rdropWhile_eq_self_of_last isSpace l hlast]

end Zadig

namespace Zadig

theorem reSpace_space : reSpace ' ' = true := by decide

theorem replaceSpaceRuns_idem :
    ∀ (l : List Char) (b : Bool),
      replaceSpaceRuns b (replaceSpaceRuns b l) = replaceSpaceRuns b l := by
  intro l
  induction l with
  | nil => intro b; simp [replaceSpaceRuns]
  | cons c rest ih =>
    intro b
    by_cases hc : reSpace c = true
    · cases b with
      | true => simp [replaceSpaceRuns, hc, ih true]
      | false => simp [replaceSpaceRuns, hc, reSpace_space, ih true]
    · simp [replaceSpaceRuns, hc, ih false]

theorem replaceSpaceRuns_concat (x : Char) (hx : reSpace x = false) :
    ∀ (l : List Char) (b : Bool),
      replaceSpaceRuns b (l ++ [x]) = replaceSpaceRuns b l ++ [x] := by
  intro l
  induction l with
  | nil => intro b; simp [replaceSpaceRuns, hx]
  | cons c rest ih =>
    intro b
    by_cases hc : reSpace c = true
    · cases b <;> simp [replaceSpaceRuns, hc, ih true]
    · simp [replaceSpaceRuns, hc, ih false]

theorem replaceSpaceRuns_chain :
    ∀ (l : List Char) (b : Bool),
      List.Chain' (fun x y => ¬ (reSpace x = true ∧ reSpace y = true)) (replaceSpaceRuns b l) ∧
      (∀ c, (replaceSpaceRuns true l).head? = some c → reSpace c = false) := by
  intro l
  induction l with
  | nil => intro b; simp [replaceSpaceRuns]
  | cons c rest ih =>
    intro b
    by_cases hc : reSpace c = true
    · refine ⟨?_, ?_⟩
      · cases b with
        | true =>
          simp only [replaceSpaceRuns, hc, if_true]
          exact (ih true).1
        | false =>
          simp only [replaceSpaceRuns, hc, if_true, Bool.false_eq_true, if_false]
          rw [List.chain'_cons']
          refine ⟨?_, (ih true).1⟩
          intro y hy
          have := (ih true).2 y (by simpa using hy)
          simp [this]
      · intro y hy
        simp only [replaceSpaceRuns, hc, if_true] at hy
        exact (ih true).2 y hy
    · have hc' : reSpace c = false := by simpa using hc
      refine ⟨?_, ?_⟩
      · simp only [replaceSpaceRuns, hc', Bool.false_eq_true, if_false]
        rw [List.chain'_cons']
        refine ⟨?_, (ih false).1⟩
        intro y _
        simp [hc']
      · intro y hy
        simp only [replaceSpaceRuns, hc', Bool.false_eq_true, if_false, List.head?_cons,
          Option.some.injEq] at hy
        subst hy
        exact hc'

theorem replaceSpaceRuns_mem_space :
    ∀ (l : List Char) (b : Bool) (x : Char),
      x ∈ replaceSpaceRuns b l → reSpace x = true → x = ' ' := by
  intro l
  induction l with
  | nil => intro b x hx; simp [replaceSpaceRuns] at hx
  | cons c rest ih =>
    intro b x hx hr
    by_cases hc : reSpace c = true
    · cases b with
      | true =>
        simp only [replaceSpaceRuns, hc, if_true] at hx
        exact ih true x hx hr
      | false =>
        simp only [replaceSpaceRuns, hc, if_true, Bool.false_eq_true, if_false,
          List.mem_cons] at hx
        rcases hx with h | h
        · exact h
        · exact ih true x h hr
    · have hc' : reSpace c = false := by simpa using hc
      simp only [replaceSpaceRuns, hc', Bool.false_eq_true, if_false, List.mem_cons] at hx
      rcases hx with h | h
      · subst h
        rw [hc'] at hr
        cases hr
      · exact ih false x h hr

theorem replaceSpaceRuns_fields :
    ∀ l : List Char,
      (splitFields reSpace (replaceSpaceRuns false l)).1 = (splitFields reSpace l).1 ∧
      (splitFields reSpace (replaceSpaceRuns false l)).2.filter (fun w => !w.isEmpty) =
        (splitFields reSpace l).2.filter (fun w => !w.isEmpty) ∧
      words reSpace (replaceSpaceRuns true l) = words reSpace l := by
  intro l
  induction l with
  | nil => simp [replaceSpaceRuns]
  | cons c rest ih =>
    obtain ⟨ih1, ih2, ih3⟩ := ih
    by_cases hc : reSpace c = true
    · have hw : words reSpace (replaceSpaceRuns true rest) = words reSpace rest := ih3
      simp only [words] at hw
      refine ⟨?_, ?_, ?_⟩
      · simp [replaceSpaceRuns, hc, splitFields, reSpace_space]
      · simp only [replaceSpaceRuns, hc, if_true, Bool.false_eq_true, if_false, splitFields,
          reSpace_space]
        exact hw
      · simp only [replaceSpaceRuns, hc, if_true]
        rw [ih3]
        simp [words, splitFields, hc]
    · have hc' : reSpace c = false := by simpa using hc
      refine ⟨?_, ?_, ?_⟩
      · simp [replaceSpaceRuns, hc', splitFields, ih1]
      · simp only [replaceSpaceRuns, hc', Bool.false_eq_true, if_false, splitFields]
        exact ih2
      · simp [words, replaceSpaceRuns, hc', splitFields, ih1, ih2]

theorem words_replaceSpaceRuns (l : List Char) :
    words reSpace (replaceSpaceRuns false l) = words reSpace l := by
  obtain ⟨h1, h2, _⟩ := replaceSpaceRuns_fields l
  simp only [words, List.filter_cons, h1, h2]

end Zadig

namespace Zadig

theorem words_dropWhile (q : Char → Bool) :
    ∀ l : List Char, (∀ c ∈ l, q c = true → reSpace c = true) →
      words reSpace (l.dropWhile q) = words reSpace l := by
  intro l
  induction l with
  | nil => intro _; rfl
  | cons c rest ih =>
    intro h
    by_cases hq : q c = true
    · have hc := h c (List.mem_cons_self _ _) hq
      simp only [List.dropWhile, hq]
      rw [ih (fun x hx => h x (List.mem_cons_of_mem _ hx))]
      simp [words, splitFields, hc]
    · simp [List.dropWhile, hq]

theorem splitFields_concat (x : Char) (hx : reSpace x = true) :
    ∀ l : List Char,
      (splitFields reSpace (l ++ [x])).1 = (splitFields reSpace l).1 ∧
      (splitFields reSpace (l ++ [x])).2.filter (fun w => !w.isEmpty) =
        (splitFields reSpace l).2.filter (fun w => !w.isEmpty) := by
  intro l
  induction l with
  | nil => simp [splitFields, hx]
  | cons c rest ih =>
    obtain ⟨ih1, ih2⟩ := ih
    by_cases hc : reSpace c = true
    · refine ⟨by simp [splitFields, hc], ?_⟩
      simp only [List.cons_append, splitFields, hc, if_true, List.filter_cons, List.append_eq,
        ih1, ih2]
    · simp [splitFields, hc, ih1, ih2]

theorem words_rdropWhile (q : Char → Bool) (l : List Char)
    (h : ∀ c ∈ l, q c = true → reSpace c = true) :
    words reSpace (l.rdropWhile q) = words reSpace l := by
  induction l using List.reverseRecOn with
  | nil => simp [List.rdropWhile]
  | append_singleton L x ih =>
    rw [List.rdropWhile_concat]
    by_cases hq : q x = true
    · have hx := h x (by simp) hq
      simp only [hq, if_true]
      rw [ih (fun c hc => h c (by simp [hc]))]
      obtain ⟨h1, h2⟩ := splitFields_concat x hx L
      simp only [words, List.filter_cons, h1, h2]
    · simp [hq]

theorem words_TrimSpace (l : List Char) (h : ∀ c ∈ l, isSpace c = true → reSpace c = true) :
    words reSpace (TrimSpace l) = words reSpace l := by
  unfold TrimSpace
  rw [words_rdropWhile isSpace _ (fun c hc => h c ((List.dropWhile_sublist isSpace).subset hc)),
    words_dropWhile isSpace l h]

theorem RemoveExtraSpaces_ends (input : String) :
    (∀ c, (RemoveExtraSpaces input).data.head? = some c → isSpace c = false) ∧
    (∀ c, (RemoveExtraSpaces input).data.getLast? = some c → isSpace c = false) := by
  obtain ⟨hhead, hlast⟩ := TrimSpace_ends input.data
  simp only [RemoveExtraSpaces]
  constructor
  · intro c hc
    cases ht : TrimSpace input.data with
    | nil => simp [ht, replaceSpaceRuns] at hc
    | cons a rest =>
      have ha : isSpace a = false := hhead a (by simp [ht])
      have hr := not_reSpace_of_not_isSpace a ha
      simp only [ht, replaceSpaceRuns, hr, Bool.false_eq_true, if_false, List.head?_cons,
        Option.some.injEq] at hc
      subst hc
      exact ha
  · intro c hc
    rcases List.eq_nil_or_concat (TrimSpace input.data) with ht | ⟨L, x, ht⟩
    · simp [ht, replaceSpaceRuns] at hc
    · rw [List.concat_eq_append] at ht
      have hx : isSpace x = false := hlast x (by simp [ht])
      have hr := not_reSpace_of_not_isSpace x hx
      rw [ht, replaceSpaceRuns_concat x hr, List.getLast?_concat] at hc
      cases hc
      exact hx

end Zadig

namespace Zadig

theorem TrimSpace_between (l : List Char) :
    ∃ before after, l = before ++ TrimSpace l ++ after ∧
      (∀ c ∈ before, isSpace c = true) ∧ (∀ c ∈ after, isSpace c = true) := by
  refine ⟨l.takeWhile isSpace, (l.dropWhile isSpace).rtakeWhile isSpace, ?_,
    fun c hc => List.mem_takeWhile_imp hc, fun c hc => List.mem_rtakeWhile_imp hc⟩
  have h1 : (l.dropWhile isSpace).rdropWhile isSpace ++ (l.dropWhile isSpace).rtakeWhile isSpace
      = l.dropWhile isSpace := by
    simp only [List.rdropWhile, List.rtakeWhile, ← List.reverse_append,
      List.takeWhile_append_dropWhile, List.reverse_reverse]
  unfold TrimSpace
  rw [List.append_assoc, h1, List.takeWhile_append_dropWhile]

theorem RemoveExtraSpaces_idem (input : String) :
    RemoveExtraSpaces (RemoveExtraSpaces input) = RemoveExtraSpaces input := by
  obtain ⟨hhead, hlast⟩ := RemoveExtraSpaces_ends input
  have htrim := TrimSpace_eq_self (RemoveExtraSpaces input).data hhead hlast
  have hdata : (RemoveExtraSpaces input).data =
      replaceSpaceRuns false (TrimSpace input.data) := rfl
  show String.mk (replaceSpaceRuns false (TrimSpace (RemoveExtraSpaces input).data)) =
    String.mk (replaceSpaceRuns false (TrimSpace input.data))
  rw [htrim, hdata, replaceSpaceRuns_idem]

/-- C23, counterexample: between `a` and `b` two vertical tabs, white space
by which `strings.TrimSpace` trims, are left adjacent in the result; and a
leading vertical tab, which is not of the class that the regular expression
collapses, is removed, so the word that contains it changes. -/
theorem remove_extra_spaces_two_notions :
    (RemoveExtraSpaces (String.mk ['a', Char.ofNat 11, Char.ofNat 11, 'b'])).data =
      ['a', Char.ofNat 11, Char.ofNat 11, 'b'] ∧
    isSpace (Char.ofNat 11) = true ∧
    reSpace (Char.ofNat 11) = false ∧
    (RemoveExtraSpaces (String.mk [Char.ofNat 11, 'a'])).data = ['a'] ∧
    words reSpace [Char.ofNat 11, 'a'] = [[Char.ofNat 11, 'a']] ∧
    words reSpace ['a'] = [['a']] ∧
    words isSpace ['a', Char.ofNat 11, Char.ofNat 11, 'b'] = [['a'], ['b']] := by
  decide

/-- C23, amended: `RemoveExtraSpaces` returns its input with leading and
trailing Unicode white space (`unicode.IsSpace`) removed and every maximal run
of characters of the class `\s` (space, tab, newline, form feed, carriage
return) replaced by exactly one space: the result never starts or ends with
Unicode white space, never contains two adjacent characters of the class, of
which it contains only spaces, it contains the same words (maximal runs of
characters outside the class) in the same order as the trimmed input, and as
the input itself when every white space character of the input is of the
class; and `RemoveExtraSpaces` is idempotent. -/
theorem RemoveExtraSpaces_normalizes (input : String) :
    (RemoveExtraSpaces input).data = replaceSpaceRuns false (TrimSpace input.data) ∧
    (∃ before after, input.data = before ++ TrimSpace input.data ++ after ∧
      (∀ c ∈ before, isSpace c = true) ∧ (∀ c ∈ after, isSpace c = true)) ∧
    (∀ c, (RemoveExtraSpaces input).data.head? = some c → isSpace c = false) ∧
    (∀ c, (RemoveExtraSpaces input).data.getLast? = some c → isSpace c = false) ∧
    List.Chain' (fun x y => ¬ (reSpace x = true ∧ reSpace y = true))
      (RemoveExtraSpaces input).data ∧
    (∀ x ∈ (RemoveExtraSpaces input).data, reSpace x = true → x = ' ') ∧
    words reSpace (RemoveExtraSpaces input).data = words reSpace (TrimSpace input.data) ∧
    ((∀ c ∈ input.data, isSpace c = true → reSpace c = true) →
      words reSpace (RemoveExtraSpaces input).data = words reSpace input.data) ∧
    RemoveExtraSpaces (RemoveExtraSpaces input) = RemoveExtraSpaces input := by
  have hdata : (RemoveExtraSpaces input).data =
      replaceSpaceRuns false (TrimSpace input.data) := rfl
  refine ⟨hdata, TrimSpace_between input.data, (RemoveExtraSpaces_ends input).1,
    (RemoveExtraSpaces_ends input).2, ?_, ?_, ?_, ?_, RemoveExtraSpaces_idem input⟩
  · rw [hdata]
    exact (replaceSpaceRuns_chain _ false).1
  · rw [hdata]
    exact replaceSpaceRuns_mem_space _ false
  · rw [hdata]
    exact words_replaceSpaceRuns _
  · intro hplain
    rw [hdata, words_replaceSpaceRuns, words_TrimSpace input.data hplain]

/-- The function on a concrete input with tabs, newlines and spaces. -/
theorem RemoveExtraSpaces_demo :
    RemoveExtraSpaces "  deploy \t the\n\n service  " = "deploy the service" := by
  decide

end Zadig

namespace Zadig

/-! ## containersChanged -/

theorem insertKeys_spec :
    ∀ (containers : List Container) (set : StringSet), set.Nodup →
      (insertKeys set containers).Nodup ∧
      ∀ k, k ∈ insertKeys set containers ↔ k ∈ set ∨ k ∈ containers.map containerKey := by
  intro containers
  induction containers with
  | nil => intro set h; simp [insertKeys, h]
  | cons c rest ih =>
    intro set h
    have hnd : (StringSet.Insert set (containerKey c)).Nodup := by
      unfold StringSet.Insert
      split
      · exact h
      · rename_i hmem
        exact List.Nodup.append h (List.nodup_singleton _) (by simpa using hmem)
    have hmem : ∀ k, k ∈ StringSet.Insert set (containerKey c) ↔ k ∈ set ∨ k = containerKey c := by
      intro k
      unfold StringSet.Insert
      split
      · rename_i hin
        constructor
        · exact Or.inl
        · rintro (h1 | h1)
          · exact h1
          · rw [h1]
            exact hin
      · simp
    obtain ⟨h1, h2⟩ := ih _ hnd
    refine ⟨h1, ?_⟩
    intro k
    simp only [insertKeys]
    rw [h2 k, hmem k]
    simp only [List.map_cons, List.mem_cons]
    tauto

theorem StringSet_Equal_iff (s1 s2 : StringSet) (h1 : s1.Nodup) (h2 : s2.Nodup) :
    StringSet.Equal s1 s2 = true ↔ ∀ k, k ∈ s1 ↔ k ∈ s2 := by
  simp only [StringSet.Equal, StringSet.IsSuperset, Bool.and_eq_true, decide_eq_true_eq,
    List.all_eq_true]
  constructor
  · rintro ⟨hlen, hsup⟩
    have hperm : s2.Perm s1 :=
      (List.subperm_of_subset h2 (fun k hk => hsup k hk)).perm_of_length_le (by omega)
    intro k
    exact (hperm.mem_iff).symm
  · intro hext
    have hperm : s1.Perm s2 := (List.perm_ext_iff_of_nodup h1 h2).mpr hext
    exact ⟨hperm.length_eq, fun k hk => (hext k).mpr hk⟩

theorem containersChanged_false_iff (oldContainers newContainers : List Container) :
    containersChanged oldContainers newContainers = false ↔
      oldContainers.length = newContainers.length ∧
      ∀ k, k ∈ oldContainers.map containerKey ↔ k ∈ newContainers.map containerKey := by
  obtain ⟨hn1, hm1⟩ := insertKeys_spec oldContainers [] List.nodup_nil
  obtain ⟨hn2, hm2⟩ := insertKeys_spec newContainers [] List.nodup_nil
  have heq := StringSet_Equal_iff _ _ hn1 hn2
  unfold containersChanged
  by_cases hlen : oldContainers.length = newContainers.length
  · simp only [hlen, ne_eq, not_true_eq_false, if_false, Bool.not_eq_false', true_and]
    rw [heq]
    constructor
    · intro h k
      have := h k
      rw [hm1 k, hm2 k] at this
      simpa using this
    · intro h k
      rw [hm1 k, hm2 k]
      simpa using h k
  · simp [hlen]

end Zadig

namespace Zadig

/-- C28, counterexample: `containersChanged` returns false for two lists of
three containers that hold the same pairs with different multiplicities, and
for two containers with different names and images whose keys
`<name>-<image>` coincide. -/
theorem containersChanged_ignores_multiplicity :
    containersChanged
        [{ Name := "a", Image := "1" }, { Name := "a", Image := "1" }, { Name := "b", Image := "2" }]
        [{ Name := "a", Image := "1" }, { Name := "b", Image := "2" }, { Name := "b", Image := "2" }]
      = false ∧
    List.count ({ Name := "a", Image := "1" } : Container)
        [{ Name := "a", Image := "1" }, { Name := "a", Image := "1" }, { Name := "b", Image := "2" }]
      ≠ List.count ({ Name := "a", Image := "1" } : Container)
        [{ Name := "a", Image := "1" }, { Name := "b", Image := "2" }, { Name := "b", Image := "2" }] ∧
    containersChanged [{ Name := "a-b", Image := "c" }] [{ Name := "a", Image := "b-c" }] = false ∧
    ({ Name := "a-b", Image := "c" } : Container) ≠ { Name := "a", Image := "b-c" } := by
  decide

/-- C28, amended: `containersChanged` returns false exactly when the old and
the new list have the same length and hold the same set of keys
`<name>-<image>`, whatever the multiplicities; it returns false whenever the
two lists are permutations of each other; it is symmetric in its two
arguments and `containersChanged(l, l)` is false. -/
theorem containersChanged_compares_key_sets (oldContainers newContainers : List Container) :
    (containersChanged oldContainers newContainers = false ↔
      oldContainers.length = newContainers.length ∧
      ∀ k, k ∈ oldContainers.map containerKey ↔ k ∈ newContainers.map containerKey) ∧
    (oldContainers.Perm newContainers → containersChanged oldContainers newContainers = false) ∧
    containersChanged oldContainers newContainers =
      containersChanged newContainers oldContainers ∧
    containersChanged oldContainers oldContainers = false := by
  refine ⟨containersChanged_false_iff oldContainers newContainers, ?_, ?_, ?_⟩
  · intro hperm
    rw [containersChanged_false_iff]
    exact ⟨hperm.length_eq, fun k => (hperm.map containerKey).mem_iff⟩
  · have h1 := containersChanged_false_iff oldContainers newContainers
    have h2 := containersChanged_false_iff newContainers oldContainers
    have hiff : containersChanged oldContainers newContainers = false ↔
        containersChanged newContainers oldContainers = false := by
      rw [h1, h2]
      constructor
      · rintro ⟨hl, hk⟩
        exact ⟨hl.symm, fun k => (hk k).symm⟩
      · rintro ⟨hl, hk⟩
        exact ⟨hl.symm, fun k => (hk k).symm⟩
    cases ha : containersChanged oldContainers newContainers with
    | false => exact (hiff.mp ha).symm
    | true =>
      cases hb : containersChanged newContainers oldContainers with
      | true => rfl
      | false =>
        rw [hiff.mpr hb] at ha
        cases ha
  · rw [containersChanged_false_iff]
    exact ⟨rfl, fun _ => Iff.rfl⟩

end Zadig

namespace Zadig

/-! ## The frequency calculators -/

/-- For a window of at least one day whose length fits `int64`, the frequency
calculators divide by at least one day. -/
theorem daysBetween_pos (startTime endTime : Int) (hday : 86400 ≤ endTime - startTime)
    (hfit : endTime - startTime < 2 ^ 63) : 1 ≤ daysBetween startTime endTime := by
  unfold daysBetween
  rw [wrapInt64_of_range _ (by omega) hfit, Int.tdiv_eq_ediv (by omega) (by omega)]
  omega

/-- For a window shorter than one day, the frequency calculators divide by
zero days. -/
theorem daysBetween_zero (startTime endTime : Int) (hlt : startTime < endTime)
    (hshort : endTime - startTime < 86400) : daysBetween startTime endTime = 0 := by
  unfold daysBetween
  rw [wrapInt64_of_range _ (by omega) (by omega)]
  exact Int.tdiv_eq_zero_of_lt (by omega) hshort

/-- The fact of the build frequency calculator is absent exactly when there
is an error or no build job, and otherwise it is the `float64` quotient of
the `float64` product of the number of jobs and seven by `daysBetween`. -/
theorem build_frequency_fact (env : StatEnv) (startTime endTime : Int) (project : String)
    (jobs : List JobInfo) (hjobs : env.GetBuildJobs startTime endTime project = .ok jobs) :
    ((BuildFrequencyCalculator.GetFact env startTime endTime project).present = false ↔
      jobs = []) ∧
    (jobs ≠ [] →
      (BuildFrequencyCalculator.GetFact env startTime endTime project).fact =
        ((Float64.ofInt jobs.length).mul (Float64.ofInt 7)).div
          (Float64.ofInt (daysBetween startTime endTime))) := by
  cases jobs with
  | nil => simp [BuildFrequencyCalculator.GetFact, hjobs]
  | cons job rest =>
    exact ⟨by simp [BuildFrequencyCalculator.GetFact, hjobs],
      fun _ => by simp [BuildFrequencyCalculator.GetFact, hjobs]⟩

/-- The `float64` operations round: seven thirds is the `float64` value
2.3333333333333335, that is 5254199565265579 / 2 ^ 51; the conversion of
`2 ^ 53 + 1` is `2 ^ 53` and that of `2 ^ 53 + 3` is `2 ^ 53 + 4`, ties to the
even significand; fourteen sevenths is exactly two. -/
theorem float64_rounds :
    ((Float64.ofInt 1).mul (Float64.ofInt 7)).div (Float64.ofInt 3) =
      .finite (mkRat 5254199565265579 2251799813685248) ∧
    Float64.ofInt 9007199254740993 = .finite 9007199254740992 ∧
    Float64.ofInt 9007199254740995 = .finite 9007199254740996 ∧
    ((Float64.ofInt 2).mul (Float64.ofInt 7)).div (Float64.ofInt 7) = .finite 2 ∧
    ((Float64.ofInt 1).mul (Float64.ofInt 7)).div (Float64.ofInt (-2)) = .finite (mkRat (-7) 2) ∧
    ((Float64.ofInt 1).mul (Float64.ofInt 7)).div (Float64.ofInt 0) = .posInf ∧
    (Float64.ofInt 0).div (Float64.ofInt 0) = .nan := by
  refine ⟨?_, ?_, ?_, ?_, ?_, ?_, ?_⟩ <;> decide

/-- C29: for the window from 0 to 3600, with `startTime < endTime`, and one
job in the window, `daysBetween` is 0 and not at least 1: the Build, Deploy
and Release frequency calculators divide by zero and report the infinite
frequency as an existing fact without error. -/
theorem frequency_divides_by_zero_days :
    (0 : Int) < 3600 ∧
    daysBetween 0 3600 = 0 ∧
    BuildFrequencyCalculator.GetFact demoStatEnv 0 3600 "p" =
      { fact := .posInf, present := true, err := none } ∧
    DeployFrequencyCalculator.GetFact demoStatEnv 0 3600 "p" =
      { fact := .posInf, present := true, err := none } ∧
    ReleaseFrequencyCalculator.GetFact demoStatEnv 0 3600 "p" =
      { fact := .posInf, present := true, err := none } := by
  decide

end Zadig

namespace Zadig

/-! ## The lead-time calculators -/

/-- The calculator that the lead-time functions build has the fields of the
calculator that `CreateCalculatorFromConfig` builds for the same configuration
read as api-sourced, except `Host`, which is the identifier of the external
system. -/
theorem lead_time_calculator_fields (env : StatEnv) (formatInt : Int → String)
    (startTime endTime : Int) (project : String) (boardConfig : StatDashboardConfig)
    (externalSystem : ExternalSystem)
    (hfind : env.FindByOptions "schedule" "requirement_development_lead_time" = .ok boardConfig)
    (hsys : env.GetByID boardConfig.APIConfig.ExternalSystemId = .ok externalSystem) :
    ∃ c, CreateCalculatorFromConfig env { boardConfig with Source := "api" } = .ok (.general c) ∧
      c.Host = externalSystem.Server ∧
      (GetRequirementDevelopmentLeadTime env formatInt startTime endTime project).caculator =
        some { c with Host := boardConfig.APIConfig.ExternalSystemId } := by
  refine ⟨{ Host := externalSystem.Server, Path := boardConfig.APIConfig.ApiPath,
            Queries := boardConfig.APIConfig.Queries, Headers := externalSystem.Headers,
            Weight := boardConfig.Weight, Function := boardConfig.Function }, ?_, rfl, ?_⟩
  · simp [CreateCalculatorFromConfig, hsys]
  · simp only [GetRequirementDevelopmentLeadTime, hfind, hsys]
    split <;> rfl

/-- C30: for the lead-time items fed by the external system `sys-1`, served
at `https://jira.example.com/`, `CreateCalculatorFromConfig` builds a general
calculator whose `Host` is the server address, while
`GetRequirementDevelopmentLeadTime` and `GetRequirementDeliveryLeadTime` build
one whose `Host` is the identifier `sys-1`; the other fields agree.  The
request of the lead-time functions goes to `sys-1/api/lead` and fails, where
the calculator of `CreateCalculatorFromConfig` obtains the fact. -/
theorem lead_time_host_is_system_id :
    CreateCalculatorFromConfig demoStatEnv (demoBoardConfig "requirement_development_lead_time") =
      .ok (.general
        { Host := "https://jira.example.com/", Path := "api/lead",
          Queries := [{ Key := "team", Value := "core" }],
          Headers := [{ Key := "Authorization", Value := "token" }],
          Weight := 20, Function := "x" }) ∧
    (GetRequirementDevelopmentLeadTime demoStatEnv demoFormatInt 0 3600 "p").caculator =
      some
        { Host := "sys-1", Path := "api/lead",
          Queries := [{ Key := "team", Value := "core" }],
          Headers := [{ Key := "Authorization", Value := "token" }],
          Weight := 20, Function := "x" } ∧
    (GetRequirementDeliveryLeadTime demoStatEnv demoFormatInt 0 3600 "p").caculator =
      some
        { Host := "sys-1", Path := "api/lead",
          Queries := [{ Key := "team", Value := "core" }],
          Headers := [{ Key := "Authorization", Value := "token" }],
          Weight := 20, Function := "x" } ∧
    (GetRequirementDevelopmentLeadTime demoStatEnv demoFormatInt 0 3600 "p").result =
      .error "no such host" ∧
    (GetRequirementDeliveryLeadTime demoStatEnv demoFormatInt 0 3600 "p").result =
      .error "no such host" ∧
    GeneralCalculator.GetFact demoStatEnv demoFormatInt
        { Host := "https://jira.example.com/", Path := "api/lead",
          Queries := [{ Key := "team", Value := "core" }],
          Headers := [{ Key := "Authorization", Value := "token" }],
          Weight := 20, Function := "x" } 0 3600 "p" =
      { fact := .finite (7 / 2), present := true, err := none } ∧
    (GeneralCalculator.request
        { Host := "sys-1", Path := "api/lead",
          Queries := [{ Key := "team", Value := "core" }],
          Headers := [{ Key := "Authorization", Value := "token" }],
          Weight := 20, Function := "x" } demoFormatInt 0 3600 "p") =
      { url := "sys-1/api/lead",
        queries := [("team", "core"), ("start_time", "0"), ("end_time", "3600"),
                    ("project_name", "p")],
        headers := [("Authorization", "token")] } := by
  refine ⟨rfl, by decide, by decide, rfl, rfl, rfl, by decide⟩

end Zadig
